import Mathlib

/-!
# PF_KEY v2 message codec and DUMP session (FranGM/pfkey)

A shallow embedding of the Go package `pfkey`:

* `sad_types.go`   : the RFC 2367 records (structures below),
* `types.go`       : `Msg`, the extension slots and the presence checklist, `Node`,
* `pfkeymsg.go`    : the setters, `setMsgLen`, `writeToBuffer`,
* `types_read.go`  : the `readFromBuffer` family, `readSADBExt`, `readAlgorithms`, `readProposals`,
* `socket.go`      : `ReadMsg`, `SendMsg`,
* `pfkey.go`       : `BuildNode`, `buildSockAddr`, the command builders, `RetrieveSADBDump`,
* `buffer_operations.go` : `GetSPI`, `writeStruct`, `writeBytes`.

Machine integers are natural numbers; every place where Go truncates or wraps
(`uint16` sums, `uint16(...)` conversions, little-endian encoding) carries an explicit
`% 2^w`.  A byte buffer is a `List Nat`.  Go `error` values, run-time panics and the
process-terminating `simplelog.Fatal` are the constructors of `Err`.
-/

namespace Pfkey

set_option linter.dupNamespace false

/-! ## Constants

The file declaring the package constants is not among the sources; the values are the
ones the specification lists (section 3.2 table, section 6.4) and the test fixtures use. -/

/-- Modelled from the spec: `PF_KEY_V2 = 2` (section 6.4), declared in the absent constants file. -/
def PF_KEY_V2 : Nat := 2

/-- Modelled from the spec: message type `GETSPI = 1` (section 6.4). -/
def SADB_GETSPI : Nat := 1

/-- Modelled from the spec: message type `UPDATE = 6` (section 6.4). -/
def SADB_UPDATE : Nat := 6

/-- Modelled from the spec: message type `ADD = 3` (section 6.4). -/
def SADB_ADD : Nat := 3

/-- Modelled from the spec: message type `DELETE = 4` (section 6.4). -/
def SADB_DELETE : Nat := 4

/-- Modelled from the spec: message type `REGISTER = 7` (section 6.4). -/
def SADB_REGISTER : Nat := 7

/-- Modelled from the spec: message type `FLUSH = 9` (section 6.4). -/
def SADB_FLUSH : Nat := 9

/-- Modelled from the spec: message type `DUMP = 10` (section 6.4). -/
def SADB_DUMP : Nat := 10

/-- Modelled from the spec: sa-type `ESP = 3` (section 6.4). -/
def SADB_SATYPE_ESP : Nat := 3

/-- Modelled from the spec: SA state `MATURE = 1` (section 6.4). -/
def SADB_SASTATE_MATURE : Nat := 1

/-- Modelled from the spec: extension code of SA (section 3.2 table). -/
def SADB_EXT_SA : Nat := 1

/-- Modelled from the spec: extension code of LIFETIME_CURRENT (section 3.2 table). -/
def SADB_EXT_LIFETIME_CURRENT : Nat := 2

/-- Modelled from the spec: extension code of LIFETIME_HARD (section 3.2 table). -/
def SADB_EXT_LIFETIME_HARD : Nat := 3

/-- Modelled from the spec: extension code of LIFETIME_SOFT (section 3.2 table). -/
def SADB_EXT_LIFETIME_SOFT : Nat := 4

/-- Modelled from the spec: extension code of ADDRESS_SRC (section 3.2 table). -/
def SADB_EXT_ADDRESS_SRC : Nat := 5

/-- Modelled from the spec: extension code of ADDRESS_DST (section 3.2 table). -/
def SADB_EXT_ADDRESS_DST : Nat := 6

/-- Modelled from the spec: extension code of ADDRESS_PROXY (section 3.2 table). -/
def SADB_EXT_ADDRESS_PROXY : Nat := 7

/-- Modelled from the spec: extension code of KEY_AUTH (section 3.2 table). -/
def SADB_EXT_KEY_AUTH : Nat := 8

/-- Modelled from the spec: extension code of KEY_ENCRYPT (section 3.2 table). -/
def SADB_EXT_KEY_ENCRYPT : Nat := 9

/-- Modelled from the spec: extension code of PROPOSAL (section 3.2 table). -/
def SADB_EXT_PROPOSAL : Nat := 13

/-- Modelled from the spec: extension code of SUPPORTED_AUTH (section 3.2 table). -/
def SADB_EXT_SUPPORTED_AUTH : Nat := 14

/-- Modelled from the spec: extension code of SUPPORTED_ENCRYPT (section 3.2 table). -/
def SADB_EXT_SUPPORTED_ENCRYPT : Nat := 15

/-- Modelled from the spec: extension code of SPIRANGE (section 3.2 table). -/
def SADB_EXT_SPIRANGE : Nat := 16

/-- Modelled from the spec: extension code of X_POLICY (section 3.2 table). -/
def SADB_X_EXT_POLICY : Nat := 18

/-- Modelled from the spec: extension code of SA2 (section 3.2 table, "17, 19 | SA2, others");
19 is the code of the extension that the reply of `TestReceiveSADBDump` ends with and
that `ReadMsg` has to skip. -/
def SADB_X_EXT_SA2 : Nat := 19

/-- Modelled from the spec: a word is 8 bytes (section 3.1). -/
def WORD_SIZE : Nat := 8

/-- Modelled from the spec: the base header is 2 words (section 3.2). -/
def SADBMSG_LEN : Nat := 2

/-- Modelled from the spec: SA is 2 fixed words (section 3.2 table). -/
def SADBSA_LEN : Nat := 2

/-- Modelled from the spec: LIFETIME is 4 fixed words (section 3.2 table). -/
def SADBLIFETIME_LEN : Nat := 4

/-- Modelled from the spec: the ADDRESS header is 1 word (section 3.2 table). -/
def SADBADDRESS_LEN : Nat := 1

/-- Modelled from the spec: a sockaddr_in is 2 words (section 3.2 table). -/
def SOCKADDRIN_LEN : Nat := 2

/-- Modelled from the spec: the KEY header is 1 word (section 3.2 table). -/
def SADBKEY_LEN : Nat := 1

/-- Modelled from the spec: the PROPOSAL header is 1 word (section 3.2 table). -/
def SADBPROP_LEN : Nat := 1

/-- Modelled from the spec: a COMB record counts 14 words (section 3.2 table). -/
def SADBCOMB_LEN : Nat := 14

/-- Modelled from the spec: SPIRANGE is 2 fixed words (section 3.2 table). -/
def SADBSPIRANGE_LEN : Nat := 2

/-- Modelled from the spec: X_POLICY is 2 fixed words (section 3.2 table). -/
def SADBXPOLICY_LEN : Nat := 2

/-- Modelled from the spec: default SPI range lower end (section 6.4). -/
def spiRangeMin : Nat := 10

/-- Modelled from the spec: default SPI range upper end (section 6.4). -/
def spiRangeMax : Nat := 10000000

/-- The value of `unix.AF_INET` (golang.org/x/sys/unix). -/
def AF_INET : Int := 2

/-- The value of `unix.ENOENT` (golang.org/x/sys/unix). -/
def ENOENT : Nat := 2

/-- Size of the read buffer `make([]byte, 8192)` in `ReadMsg`. -/
def readBufSize : Nat := 8192

/-! ## Outcomes -/

/-- What a call can end with other than a value: a Go `error` (`EOF`, `ErrUnexpectedEOF`,
the two `fmt.Errorf` of the package, an error of the socket), a run-time panic, or the
process-terminating `simplelog.Fatal`. -/
inductive Err where
  | EOF : Err
  | ErrUnexpectedEOF : Err
  | unexpectedExtension (ty : Nat) : Err
  | kernelErrno (errno : Nat) : Err
  | socketErr (code : Nat) : Err
  | panic : Err
  | fatal : Err
deriving DecidableEq, Repr

/-- A Go `error` value the caller gets back (as opposed to a crash of the process). -/
def Err.isReturned : Err → Bool
  | .panic => false
  | .fatal => false
  | _ => true

/-! ## Records (`sad_types.go`, `types.go`) -/

/-- The Go type `[4]byte`. -/
abbrev Bytes4 := Nat × Nat × Nat × Nat

/-- The Go type `[8]byte`. -/
structure Bytes8 where
  b0 : Nat := 0
  b1 : Nat := 0
  b2 : Nat := 0
  b3 : Nat := 0
  b4 : Nat := 0
  b5 : Nat := 0
  b6 : Nat := 0
  b7 : Nat := 0
deriving DecidableEq, Repr

/-- Go `SADBMsg`: the base header (the Go field `Type` is `Typ` here, `Type` being reserved). -/
structure SADBMsg where
  Version : Nat := 0
  Typ : Nat := 0
  Errno : Nat := 0
  SAType : Nat := 0
  Len : Nat := 0
  Reserved : Nat := 0
  Seq : Nat := 0
  PID : Nat := 0
deriving DecidableEq, Repr

/-- Go `SADBExt`: the (len, type) start of every extension (Go field `Type` is `Typ`). -/
structure SADBExt where
  Len : Nat := 0
  Typ : Nat := 0
deriving DecidableEq, Repr

/-- Go `SADBSA`. -/
structure SADBSA where
  Len : Nat := 0
  ExtType : Nat := 0
  SPI : Nat := 0
  Replay : Nat := 0
  State : Nat := 0
  Auth : Nat := 0
  Encrypt : Nat := 0
  Flags : Nat := 0
deriving DecidableEq, Repr

/-- Go `SADBLifetime`. -/
structure SADBLifetime where
  Len : Nat := 0
  ExtType : Nat := 0
  Allocations : Nat := 0
  Bytes : Nat := 0
  Addtime : Nat := 0
  Usetime : Nat := 0
deriving DecidableEq, Repr

/-- Go `SADBAddress`. -/
structure SADBAddress where
  Len : Nat := 0
  ExtType : Nat := 0
  Proto : Nat := 0
  PrefixLen : Nat := 0
  Reserved : Nat := 0
deriving DecidableEq, Repr

/-- Go `SADBKey`. -/
structure SADBKey where
  Len : Nat := 0
  ExtType : Nat := 0
  Bits : Nat := 0
  Reserved : Nat := 0
deriving DecidableEq, Repr

/-- Go `SADBProp`. -/
structure SADBProp where
  Len : Nat := 0
  ExtType : Nat := 0
  Replay : Nat := 0
  Reserved : Nat × Nat × Nat := (0, 0, 0)
deriving DecidableEq, Repr

/-- Go `SADBComb` (68 bytes on the wire: the struct has no encrypt min/max bits). -/
structure SADBComb where
  Auth : Nat := 0
  Encrypt : Nat := 0
  Flags : Nat := 0
  AuthMinBits : Nat := 0
  AuthMaxBits : Nat := 0
  Reserved : Nat := 0
  SoftAllocations : Nat := 0
  HardAllocations : Nat := 0
  SoftBytes : Nat := 0
  HardBytes : Nat := 0
  SoftAddTime : Nat := 0
  HardAddtime : Nat := 0
  SoftUsetime : Nat := 0
  HardUseTime : Nat := 0
deriving DecidableEq, Repr

/-- Go `SADBXPolicy` (Go field `Type` is `Typ`). -/
structure SADBXPolicy where
  Len : Nat := 0
  ExtType : Nat := 0
  Typ : Nat := 0
  Dir : Nat := 0
  Reserved : Nat := 0
  ID : Nat := 0
  Priority : Nat := 0
deriving DecidableEq, Repr

/-- Go `SADBSupported`. -/
structure SADBSupported where
  Len : Nat := 0
  ExtType : Nat := 0
  Reserved : Nat := 0
deriving DecidableEq, Repr

/-- Go `SADBAlg`. -/
structure SADBAlg where
  ID : Nat := 0
  IVLen : Nat := 0
  MinBits : Nat := 0
  MaxBits : Nat := 0
  Reserved : Nat := 0
deriving DecidableEq, Repr

/-- Go `SADBSPIRange`. -/
structure SADBSPIRange where
  Len : Nat := 0
  ExtType : Nat := 0
  Min : Nat := 0
  Max : Nat := 0
  Reserved : Nat := 0
deriving DecidableEq, Repr

/-- Go `sockAddrIn`; `SinFamily` is an `int16`. -/
structure sockAddrIn where
  SinFamily : Int := 0
  SinPort : Nat := 0
  SinAddr : Bytes4 := (0, 0, 0, 0)
  SinZero : Bytes8 := {}
deriving DecidableEq, Repr

/-- Go `Node`: `Addr` is a `net.IP`, a byte slice of any length. -/
structure Node where
  Addr : List Nat := []
  Port : Nat := 0
deriving DecidableEq, Repr

/-- Go `sadbExtensions`: one slot per extension. -/
structure sadbExtensions where
  SA : SADBSA := {}
  LifetimeCurrent : SADBLifetime := {}
  LifetimeSoft : SADBLifetime := {}
  LifetimeHard : SADBLifetime := {}
  AddressSrc : SADBAddress := {}
  SockAddrSrc : sockAddrIn := {}
  AddressDst : SADBAddress := {}
  SockAddrDst : sockAddrIn := {}
  Proposal : SADBProp := {}
  ProposalCombs : List SADBComb := []
  AuthKey : SADBKey := {}
  AuthKeyBits : List Nat := []
  AuthAlgorithms : List SADBAlg := []
  EncryptKey : SADBKey := {}
  EncryptKeyBits : List Nat := []
  EncryptAlgorithms : List SADBAlg := []
  SPIRange : SADBSPIRange := {}
  XPolicy : SADBXPolicy := {}
deriving DecidableEq, Repr

/-- Go `sadbExtensionsChecklist`: the presence set. -/
structure sadbExtensionsChecklist where
  SA : Bool := false
  LifetimeCurrent : Bool := false
  LifetimeSoft : Bool := false
  LifetimeHard : Bool := false
  AddressSrc : Bool := false
  AddressDst : Bool := false
  Proposal : Bool := false
  AuthKey : Bool := false
  EncryptKey : Bool := false
  AuthAlgorithms : Bool := false
  EncryptAlgorithms : Bool := false
  SPIRange : Bool := false
  XPolicy : Bool := false
deriving DecidableEq, Repr

/-- Go `Msg`: base header, extension slots, presence set. -/
structure Msg where
  Msg : SADBMsg := {}
  Extensions : sadbExtensions := {}
  Present : sadbExtensionsChecklist := {}
deriving DecidableEq, Repr

/-! ## Primitive codec (`encoding/binary`, little endian) -/

/-- Little-endian bytes of a `uint16`. -/
def le16 (x : Nat) : List Nat := [x % 256, x / 256 % 256]

/-- Little-endian bytes of a `uint32`. -/
def le32 (x : Nat) : List Nat :=
  [x % 256, x / 256 % 256, x / 65536 % 256, x / 16777216 % 256]

/-- Little-endian bytes of a `uint64`. -/
def le64 (x : Nat) : List Nat :=
  [x % 256, x / 256 % 256, x / 65536 % 256, x / 16777216 % 256,
   x / 4294967296 % 256, x / 1099511627776 % 256, x / 281474976710656 % 256,
   x / 72057594037927936 % 256]

/-- The `uint16` two little-endian bytes stand for. -/
def u16 (b0 b1 : Nat) : Nat := b0 + 256 * b1

/-- The `uint32` four little-endian bytes stand for. -/
def u32 (b0 b1 b2 b3 : Nat) : Nat := b0 + 256 * b1 + 65536 * b2 + 16777216 * b3

/-- The `uint64` eight little-endian bytes stand for. -/
def u64 (b0 b1 b2 b3 b4 b5 b6 b7 : Nat) : Nat :=
  b0 + 256 * b1 + 65536 * b2 + 16777216 * b3 + 4294967296 * b4 + 1099511627776 * b5
    + 281474976710656 * b6 + 72057594037927936 * b7

/-- The `uint32` four big-endian bytes stand for (`binary.BigEndian`). -/
def u32be (b0 b1 b2 b3 : Nat) : Nat := 16777216 * b0 + 65536 * b1 + 256 * b2 + b3

/-- The `int16` two little-endian bytes stand for (two's complement). -/
def i16 (b0 b1 : Nat) : Int :=
  if u16 b0 b1 < 32768 then (u16 b0 b1 : Int) else (u16 b0 b1 : Int) - 65536

/-- Little-endian bytes of an `int16` (two's complement). -/
def le16i (x : Int) : List Nat := le16 (x % 65536).toNat

/-- Reading `n > 0` bytes with `binary.Read` from a `bytes.Buffer` holding `buf`:
`io.EOF` on an empty buffer, `io.ErrUnexpectedEOF` on a short one, else the bytes read
and the bytes left. -/
def readBytes (n : Nat) (buf : List Nat) : Except Err (List Nat × List Nat) :=
  if buf.length = 0 then .error .EOF
  else if buf.length < n then .error .ErrUnexpectedEOF
  else .ok (buf.take n, buf.drop n)

/-! ## Struct encoding (`getBytes`, i.e. `binary.Write` in little endian) -/

/-- Bytes of a `SADBMsg` (16). -/
def SADBMsg.getBytes (s : SADBMsg) : List Nat :=
  [s.Version % 256, s.Typ % 256, s.Errno % 256, s.SAType % 256]
    ++ le16 s.Len ++ le16 s.Reserved ++ le32 s.Seq ++ le32 s.PID

/-- Bytes of a `SADBSA` (16). -/
def SADBSA.getBytes (s : SADBSA) : List Nat :=
  le16 s.Len ++ le16 s.ExtType ++ le32 s.SPI
    ++ [s.Replay % 256, s.State % 256, s.Auth % 256, s.Encrypt % 256] ++ le32 s.Flags

/-- Bytes of a `SADBLifetime` (32). -/
def SADBLifetime.getBytes (s : SADBLifetime) : List Nat :=
  le16 s.Len ++ le16 s.ExtType ++ le32 s.Allocations ++ le64 s.Bytes ++ le64 s.Addtime
    ++ le64 s.Usetime

/-- Bytes of a `SADBAddress` (8). -/
def SADBAddress.getBytes (s : SADBAddress) : List Nat :=
  le16 s.Len ++ le16 s.ExtType ++ [s.Proto % 256, s.PrefixLen % 256] ++ le16 s.Reserved

/-- Bytes of a `sockAddrIn` (16). -/
def sockAddrIn.getBytes (s : sockAddrIn) : List Nat :=
  le16i s.SinFamily ++ le16 s.SinPort
    ++ [s.SinAddr.1 % 256, s.SinAddr.2.1 % 256, s.SinAddr.2.2.1 % 256, s.SinAddr.2.2.2 % 256]
    ++ [s.SinZero.b0 % 256, s.SinZero.b1 % 256, s.SinZero.b2 % 256, s.SinZero.b3 % 256,
        s.SinZero.b4 % 256, s.SinZero.b5 % 256, s.SinZero.b6 % 256, s.SinZero.b7 % 256]

/-- Bytes of a `SADBKey` (8). -/
def SADBKey.getBytes (s : SADBKey) : List Nat :=
  le16 s.Len ++ le16 s.ExtType ++ le16 s.Bits ++ le16 s.Reserved

/-- Bytes of a `SADBSPIRange` (16). -/
def SADBSPIRange.getBytes (s : SADBSPIRange) : List Nat :=
  le16 s.Len ++ le16 s.ExtType ++ le32 s.Min ++ le32 s.Max ++ le32 s.Reserved

/-! ## Struct decoding (`readFromBuffer`, i.e. `binary.Read` in little endian) -/

/-- The `SADBMsg` that 16 bytes decode to. -/
def SADBMsg.ofBytes : List Nat → SADBMsg
  | [v, t, e, s, l0, l1, r0, r1, s0, s1, s2, s3, p0, p1, p2, p3] =>
    { Version := v, Typ := t, Errno := e, SAType := s, Len := u16 l0 l1,
      Reserved := u16 r0 r1, Seq := u32 s0 s1 s2 s3, PID := u32 p0 p1 p2 p3 }
  | _ => {}

/-- Go `(*SADBMsg).readFromBuffer`. -/
def SADBMsg.readFromBuffer (buf : List Nat) : Except Err (SADBMsg × List Nat) :=
  match readBytes 16 buf with
  | .error e => .error e
  | .ok (bs, rest) => .ok (SADBMsg.ofBytes bs, rest)

/-- The `SADBSA` that 16 bytes decode to. -/
def SADBSA.ofBytes : List Nat → SADBSA
  | [l0, l1, t0, t1, s0, s1, s2, s3, r, st, a, e, f0, f1, f2, f3] =>
    { Len := u16 l0 l1, ExtType := u16 t0 t1, SPI := u32 s0 s1 s2 s3, Replay := r,
      State := st, Auth := a, Encrypt := e, Flags := u32 f0 f1 f2 f3 }
  | _ => {}

/-- Go `(*SADBSA).readFromBuffer`. -/
def SADBSA.readFromBuffer (buf : List Nat) : Except Err (SADBSA × List Nat) :=
  match readBytes 16 buf with
  | .error e => .error e
  | .ok (bs, rest) => .ok (SADBSA.ofBytes bs, rest)

/-- The `SADBLifetime` that 32 bytes decode to. -/
def SADBLifetime.ofBytes : List Nat → SADBLifetime
  | [l0, l1, t0, t1, a0, a1, a2, a3, b0, b1, b2, b3, b4, b5, b6, b7,
     d0, d1, d2, d3, d4, d5, d6, d7, u0, u1, u2, u3, u4, u5, u6, u7] =>
    { Len := u16 l0 l1, ExtType := u16 t0 t1, Allocations := u32 a0 a1 a2 a3,
      Bytes := u64 b0 b1 b2 b3 b4 b5 b6 b7, Addtime := u64 d0 d1 d2 d3 d4 d5 d6 d7,
      Usetime := u64 u0 u1 u2 u3 u4 u5 u6 u7 }
  | _ => {}

/-- Go `(*SADBLifetime).readFromBuffer`. -/
def SADBLifetime.readFromBuffer (buf : List Nat) : Except Err (SADBLifetime × List Nat) :=
  match readBytes 32 buf with
  | .error e => .error e
  | .ok (bs, rest) => .ok (SADBLifetime.ofBytes bs, rest)

/-- The `SADBAddress` that 8 bytes decode to. -/
def SADBAddress.ofBytes : List Nat → SADBAddress
  | [l0, l1, t0, t1, p, pl, r0, r1] =>
    { Len := u16 l0 l1, ExtType := u16 t0 t1, Proto := p, PrefixLen := pl,
      Reserved := u16 r0 r1 }
  | _ => {}

/-- Go `(*SADBAddress).readFromBuffer`. -/
def SADBAddress.readFromBuffer (buf : List Nat) : Except Err (SADBAddress × List Nat) :=
  match readBytes 8 buf with
  | .error e => .error e
  | .ok (bs, rest) => .ok (SADBAddress.ofBytes bs, rest)

/-- The `sockAddrIn` that 16 bytes decode to. -/
def sockAddrIn.ofBytes : List Nat → sockAddrIn
  | [f0, f1, p0, p1, a0, a1, a2, a3, z0, z1, z2, z3, z4, z5, z6, z7] =>
    { SinFamily := i16 f0 f1, SinPort := u16 p0 p1, SinAddr := (a0, a1, a2, a3),
      SinZero := { b0 := z0, b1 := z1, b2 := z2, b3 := z3, b4 := z4, b5 := z5, b6 := z6,
                   b7 := z7 } }
  | _ => {}

/-- Go `(*sockAddrIn).readFromBuffer`. -/
def sockAddrIn.readFromBuffer (buf : List Nat) : Except Err (sockAddrIn × List Nat) :=
  match readBytes 16 buf with
  | .error e => .error e
  | .ok (bs, rest) => .ok (sockAddrIn.ofBytes bs, rest)

/-- The `SADBKey` that 8 bytes decode to. -/
def SADBKey.ofBytes : List Nat → SADBKey
  | [l0, l1, t0, t1, b0, b1, r0, r1] =>
    { Len := u16 l0 l1, ExtType := u16 t0 t1, Bits := u16 b0 b1, Reserved := u16 r0 r1 }
  | _ => {}

/-- Go `(*SADBKey).readFromBuffer`. -/
def SADBKey.readFromBuffer (buf : List Nat) : Except Err (SADBKey × List Nat) :=
  match readBytes 8 buf with
  | .error e => .error e
  | .ok (bs, rest) => .ok (SADBKey.ofBytes bs, rest)

/-- The `SADBProp` that 8 bytes decode to. -/
def SADBProp.ofBytes : List Nat → SADBProp
  | [l0, l1, t0, t1, r, x0, x1, x2] =>
    { Len := u16 l0 l1, ExtType := u16 t0 t1, Replay := r, Reserved := (x0, x1, x2) }
  | _ => {}

/-- Go `(*SADBProp).readFromBuffer`. -/
def SADBProp.readFromBuffer (buf : List Nat) : Except Err (SADBProp × List Nat) :=
  match readBytes 8 buf with
  | .error e => .error e
  | .ok (bs, rest) => .ok (SADBProp.ofBytes bs, rest)

/-- The `SADBComb` that 68 bytes decode to (bytes taken by offset: the struct is
1 + 1 + 2 + 2 + 2 + 4 + 4 + 4 + 6 * 8 bytes). -/
def SADBComb.ofBytes (bs : List Nat) : SADBComb :=
  let b := fun (i : Nat) => bs.getD i 0
  let q := fun (i : Nat) =>
    u64 (b i) (b (i + 1)) (b (i + 2)) (b (i + 3)) (b (i + 4)) (b (i + 5)) (b (i + 6)) (b (i + 7))
  { Auth := b 0, Encrypt := b 1, Flags := u16 (b 2) (b 3), AuthMinBits := u16 (b 4) (b 5),
    AuthMaxBits := u16 (b 6) (b 7), Reserved := u32 (b 8) (b 9) (b 10) (b 11),
    SoftAllocations := u32 (b 12) (b 13) (b 14) (b 15),
    HardAllocations := u32 (b 16) (b 17) (b 18) (b 19),
    SoftBytes := q 20, HardBytes := q 28, SoftAddTime := q 36, HardAddtime := q 44,
    SoftUsetime := q 52, HardUseTime := q 60 }

/-- Go `(*SADBComb).readFromBuffer` (and `readSADBComb`). -/
def SADBComb.readFromBuffer (buf : List Nat) : Except Err (SADBComb × List Nat) :=
  match readBytes 68 buf with
  | .error e => .error e
  | .ok (bs, rest) => .ok (SADBComb.ofBytes bs, rest)

/-- The `SADBXPolicy` that 16 bytes decode to. -/
def SADBXPolicy.ofBytes : List Nat → SADBXPolicy
  | [l0, l1, t0, t1, y0, y1, d, r, i0, i1, i2, i3, p0, p1, p2, p3] =>
    { Len := u16 l0 l1, ExtType := u16 t0 t1, Typ := u16 y0 y1, Dir := d, Reserved := r,
      ID := u32 i0 i1 i2 i3, Priority := u32 p0 p1 p2 p3 }
  | _ => {}

/-- Go `(*SADBXPolicy).readFromBuffer`. -/
def SADBXPolicy.readFromBuffer (buf : List Nat) : Except Err (SADBXPolicy × List Nat) :=
  match readBytes 16 buf with
  | .error e => .error e
  | .ok (bs, rest) => .ok (SADBXPolicy.ofBytes bs, rest)

/-- The `SADBSupported` that 8 bytes decode to. -/
def SADBSupported.ofBytes : List Nat → SADBSupported
  | [l0, l1, t0, t1, r0, r1, r2, r3] =>
    { Len := u16 l0 l1, ExtType := u16 t0 t1, Reserved := u32 r0 r1 r2 r3 }
  | _ => {}

/-- Go `(*SADBSupported).readFromBuffer` (and `readSADBSupported`). -/
def SADBSupported.readFromBuffer (buf : List Nat) : Except Err (SADBSupported × List Nat) :=
  match readBytes 8 buf with
  | .error e => .error e
  | .ok (bs, rest) => .ok (SADBSupported.ofBytes bs, rest)

/-- The `SADBAlg` that 8 bytes decode to. -/
def SADBAlg.ofBytes : List Nat → SADBAlg
  | [i, v, m0, m1, x0, x1, r0, r1] =>
    { ID := i, IVLen := v, MinBits := u16 m0 m1, MaxBits := u16 x0 x1, Reserved := u16 r0 r1 }
  | _ => {}

/-- Go `(*SADBAlg).readFromBuffer` (and `readSADBAlg`). -/
def SADBAlg.readFromBuffer (buf : List Nat) : Except Err (SADBAlg × List Nat) :=
  match readBytes 8 buf with
  | .error e => .error e
  | .ok (bs, rest) => .ok (SADBAlg.ofBytes bs, rest)

/-! ## `buffer_operations.go` -/

/-- Go `(*SADBSA).GetSPI`: the SPI is written in little endian into a scratch buffer and
read back in big endian. -/
def SADBSA.GetSPI (s : SADBSA) : Nat :=
  match le32 s.SPI with
  | [b0, b1, b2, b3] => u32be b0 b1 b2 b3
  | _ => 0

/-- Go `(*msgBuffer).writeStruct`, given the bytes `getBytes` made of the object. -/
def writeStruct (buf : List Nat) (msgBytes : List Nat) : List Nat := buf ++ msgBytes

/-- Go `(*msgBuffer).writeBytes`. -/
def writeBytes (buf : List Nat) (bts : List Nat) : List Nat := buf ++ bts

/-! ## `types.go`, `pfkey.go`: nodes and socket addresses -/

/-- Go `net.IPv4(a, b, c, d)`: the 16-byte form of an IPv4 address. -/
def netIPv4 (a b c d : Nat) : List Nat :=
  [0, 0, 0, 0, 0, 0, 0, 0, 0, 0, 255, 255, a, b, c, d]

/-- Go `(*Node).AddrAsArray`: bytes 12..15 of `Addr`; indexing a shorter slice panics. -/
def Node.AddrAsArray (n : Node) : Except Err Bytes4 :=
  match n.Addr[12]?, n.Addr[13]?, n.Addr[14]?, n.Addr[15]? with
  | some a, some b, some c, some d => .ok (a, b, c, d)
  | _, _, _, _ => .error .panic

/-- Go `Node.buildSockAddr`. -/
def Node.buildSockAddr (n : Node) : Except Err sockAddrIn :=
  match n.AddrAsArray with
  | .error e => .error e
  | .ok arr => .ok { SinFamily := AF_INET, SinPort := n.Port, SinAddr := arr }

/-- Go `sockAddrIn.BuildNode`: any family but `AF_INET` ends in `simplelog.Fatal`. -/
def sockAddrIn.BuildNode (s : sockAddrIn) : Except Err Node :=
  if s.SinFamily ≠ AF_INET then .error .fatal
  else .ok { Addr := netIPv4 s.SinAddr.1 s.SinAddr.2.1 s.SinAddr.2.2.1 s.SinAddr.2.2.2,
             Port := s.SinPort }

/-- Go `(*SADBKey).setLen`: `uint16((1 + (keyBits / 8) + 7) / 8)`, Go's `/` on `int`
truncating toward zero. -/
def SADBKey.setLen (s : SADBKey) (keyBits : Int) : SADBKey :=
  { s with Len := ((Int.tdiv (1 + Int.tdiv keyBits 8 + 7) 8) % 65536).toNat }

/-! ## `pfkeymsg.go`: presence queries and setters -/

/-- Go `(*Msg).HasSA`. -/
def HasSA (p : Msg) : Bool := p.Present.SA

/-- Go `(*Msg).HasLifetimeCurrent`. -/
def HasLifetimeCurrent (p : Msg) : Bool := p.Present.LifetimeCurrent

/-- Go `(*Msg).HasLifetimeHard`. -/
def HasLifetimeHard (p : Msg) : Bool := p.Present.LifetimeHard

/-- Go `(*Msg).HasLifetimeSoft`. -/
def HasLifetimeSoft (p : Msg) : Bool := p.Present.LifetimeSoft

/-- Go `(*Msg).HasAddressSrc`. -/
def HasAddressSrc (p : Msg) : Bool := p.Present.AddressSrc

/-- Go `(*Msg).HasAddressDst`. -/
def HasAddressDst (p : Msg) : Bool := p.Present.AddressDst

/-- Go `(*Msg).HasAuthKey`. -/
def HasAuthKey (p : Msg) : Bool := p.Present.AuthKey

/-- Go `(*Msg).HasEncryptKey`. -/
def HasEncryptKey (p : Msg) : Bool := p.Present.EncryptKey

/-- Go `(*Msg).HasSPIRange`. -/
def HasSPIRange (p : Msg) : Bool := p.Present.SPIRange

/-- Go `(*Msg).SetSA`. -/
def SetSA (p : Msg) (sa : SADBSA) : Msg :=
  { p with
    Extensions := { p.Extensions with SA := { sa with ExtType := SADB_EXT_SA, Len := SADBSA_LEN } }
    Present := { p.Present with SA := true } }

/-- Go `(*Msg).SetLifetimeCurrent`. -/
def SetLifetimeCurrent (p : Msg) (lt : SADBLifetime) : Msg :=
  { p with
    Extensions := { p.Extensions with
      LifetimeCurrent := { lt with ExtType := SADB_EXT_LIFETIME_CURRENT, Len := SADBLIFETIME_LEN } }
    Present := { p.Present with LifetimeCurrent := true } }

/-- Go `(*Msg).SetLifetimeHard`. -/
def SetLifetimeHard (p : Msg) (lt : SADBLifetime) : Msg :=
  { p with
    Extensions := { p.Extensions with
      LifetimeHard := { lt with ExtType := SADB_EXT_LIFETIME_HARD, Len := SADBLIFETIME_LEN } }
    Present := { p.Present with LifetimeHard := true } }

/-- Go `(*Msg).SetLifetimeSoft`. -/
def SetLifetimeSoft (p : Msg) (lt : SADBLifetime) : Msg :=
  { p with
    Extensions := { p.Extensions with
      LifetimeSoft := { lt with ExtType := SADB_EXT_LIFETIME_SOFT, Len := SADBLIFETIME_LEN } }
    Present := { p.Present with LifetimeSoft := true } }

/-- Go `(*Msg).SetAddressSrc`; it panics when `src.AddrAsArray` does. -/
def SetAddressSrc (p : Msg) (src : Node) : Except Err Msg :=
  match src.buildSockAddr with
  | .error e => .error e
  | .ok sAddr =>
    .ok { p with
          Extensions := { p.Extensions with
            AddressSrc := { Proto := 0, PrefixLen := 32, ExtType := SADB_EXT_ADDRESS_SRC,
                            Len := SADBADDRESS_LEN + SOCKADDRIN_LEN }
            SockAddrSrc := sAddr }
          Present := { p.Present with AddressSrc := true } }

/-- Go `(*Msg).SetAddressDst`; it panics when `dst.AddrAsArray` does. -/
def SetAddressDst (p : Msg) (dst : Node) : Except Err Msg :=
  match dst.buildSockAddr with
  | .error e => .error e
  | .ok sAddr =>
    .ok { p with
          Extensions := { p.Extensions with
            AddressDst := { Proto := 0, PrefixLen := 32, ExtType := SADB_EXT_ADDRESS_DST,
                            Len := SADBADDRESS_LEN + SOCKADDRIN_LEN }
            SockAddrDst := sAddr }
          Present := { p.Present with AddressDst := true } }

/-- Go `(*Msg).SetAuthKey`: `Bits` is `uint16(keySize)`, `Len` is
`SADBKEY_LEN + uint16(len(key)/WORD_SIZE)` in `uint16` arithmetic. -/
def SetAuthKey (p : Msg) (key : List Nat) (keySize : Int) : Msg :=
  { p with
    Extensions := { p.Extensions with
      AuthKey := { Bits := (keySize % 65536).toNat, ExtType := SADB_EXT_KEY_AUTH,
                   Len := (SADBKEY_LEN + (key.length / WORD_SIZE) % 65536) % 65536 }
      AuthKeyBits := key }
    Present := { p.Present with AuthKey := true } }

/-- Go `(*Msg).SetEncryptKey`. -/
def SetEncryptKey (p : Msg) (key : List Nat) (keySize : Int) : Msg :=
  { p with
    Extensions := { p.Extensions with
      EncryptKey := { Bits := (keySize % 65536).toNat, ExtType := SADB_EXT_KEY_ENCRYPT,
                      Len := (SADBKEY_LEN + (key.length / WORD_SIZE) % 65536) % 65536 }
      EncryptKeyBits := key }
    Present := { p.Present with EncryptKey := true } }

/-- Go `(*Msg).SetSPIRANGE`: `Min` and `Max` are `uint32(min)`, `uint32(max)`. -/
def SetSPIRANGE (p : Msg) (min max : Int) : Msg :=
  { p with
    Extensions := { p.Extensions with
      SPIRange := { Min := (min % 4294967296).toNat, Max := (max % 4294967296).toNat,
                    ExtType := SADB_EXT_SPIRANGE, Len := SADBSPIRANGE_LEN } }
    Present := { p.Present with SPIRange := true } }

/-- Go `(*Msg).SetProposal` (empty body in the source). -/
def SetProposal (p : Msg) : Msg := p

/-! ## `pfkeymsg.go`: `setMsgLen` and `writeToBuffer` -/

/-- Addition of two `uint16`. -/
def add16 (a b : Nat) : Nat := (a + b) % 65536

/-- The Go statement `if c { n += x }` on the `uint16` counter `n`. -/
def addIf (c : Bool) (n x : Nat) : Nat := if c then add16 n x else n

/-- Go `(*Msg).setMsgLen`, statement by statement; `n` is a `uint16`.  The two branches
that write into the message (PROPOSAL, X_POLICY) give the new value of the slot they
write, and the message is put together at the end. -/
def setMsgLen (p : Msg) : Msg :=
  let n : Nat := 0
  let n := addIf (HasSA p) n p.Extensions.SA.Len
  let n := addIf (HasLifetimeCurrent p) n p.Extensions.LifetimeCurrent.Len
  let n := addIf (HasLifetimeHard p) n p.Extensions.LifetimeHard.Len
  let n := addIf (HasLifetimeSoft p) n p.Extensions.LifetimeSoft.Len
  let n := addIf (HasAddressSrc p) n p.Extensions.AddressSrc.Len
  let n := addIf (HasAddressDst p) n p.Extensions.AddressDst.Len
  let combLen := (p.Extensions.ProposalCombs.length * SADBCOMB_LEN) % 65536
  let proposal : SADBProp :=
    if p.Present.Proposal then
      { p.Extensions.Proposal with
        ExtType := SADB_EXT_PROPOSAL, Len := add16 SADBPROP_LEN combLen }
    else p.Extensions.Proposal
  let n := addIf p.Present.Proposal n proposal.Len
  let n := addIf (HasAuthKey p) n p.Extensions.AuthKey.Len
  let n := addIf (HasEncryptKey p) n p.Extensions.EncryptKey.Len
  let n := addIf (HasSPIRange p) n p.Extensions.SPIRange.Len
  let xpolicy : SADBXPolicy :=
    if p.Present.XPolicy then
      { p.Extensions.XPolicy with ExtType := SADB_X_EXT_POLICY, Len := SADBXPOLICY_LEN }
    else p.Extensions.XPolicy
  let n := addIf p.Present.XPolicy n xpolicy.Len
  { p with
    Msg := { p.Msg with Version := PF_KEY_V2, Len := add16 n SADBMSG_LEN }
    Extensions := { p.Extensions with Proposal := proposal, XPolicy := xpolicy } }

/-- The Go statement `if c { buf.write(bytes) }`. -/
def writeIf (c : Bool) (buf bytes : List Nat) : List Nat :=
  if c then writeStruct buf bytes else buf

/-- Go `(*Msg).writeToBuffer`, statement by statement: the bytes in the buffer when it
returns `nil`; a present PROPOSAL or X_POLICY reaches `simplelog.Fatal`.  The key bytes
are written inside the `if p.HasAuthKey()` block, under `Len > 1`. -/
def writeToBuffer (p : Msg) (buf : List Nat) : Except Err (List Nat) :=
  let buf := writeStruct buf p.Msg.getBytes
  let buf := writeIf (HasSA p) buf p.Extensions.SA.getBytes
  let buf := writeIf (HasLifetimeCurrent p) buf p.Extensions.LifetimeCurrent.getBytes
  let buf := writeIf (HasLifetimeHard p) buf p.Extensions.LifetimeHard.getBytes
  let buf := writeIf (HasLifetimeSoft p) buf p.Extensions.LifetimeSoft.getBytes
  let buf := writeIf (HasAddressSrc p) buf p.Extensions.AddressSrc.getBytes
  let buf := writeIf (HasAddressSrc p) buf p.Extensions.SockAddrSrc.getBytes
  let buf := writeIf (HasAddressDst p) buf p.Extensions.AddressDst.getBytes
  let buf := writeIf (HasAddressDst p) buf p.Extensions.SockAddrDst.getBytes
  let buf := writeIf (HasAuthKey p) buf p.Extensions.AuthKey.getBytes
  let buf := writeIf (HasAuthKey p && decide (p.Extensions.AuthKey.Len > 1)) buf
    p.Extensions.AuthKeyBits
  let buf := writeIf (HasEncryptKey p) buf p.Extensions.EncryptKey.getBytes
  let buf := writeIf (HasEncryptKey p && decide (p.Extensions.EncryptKey.Len > 1)) buf
    p.Extensions.EncryptKeyBits
  let buf := writeIf (HasSPIRange p) buf p.Extensions.SPIRange.getBytes
  if p.Present.Proposal then .error .fatal
  else if p.Present.XPolicy then .error .fatal
  else .ok buf

/-- Go `(*PFKEY).SendMsg`: the bytes handed to the socket in one write (the write itself
is taken to succeed). -/
def SendMsg (msg : Msg) : Except Err (List Nat) :=
  writeToBuffer (setMsgLen msg) []

/-! ## `types_read.go`, `socket.go`: the parser -/

/-- Go `readSADBExt`: the four bytes `buf.Bytes()[:4]` decoded without advancing the
buffer.  The unread bytes are a window of the 8192-byte read buffer, `slack` zero bytes
of which lie behind the `n` bytes received; slicing up to 4 takes from them when fewer
than 4 bytes are unread and panics when the capacity is below 4. -/
def readSADBExt (slack : Nat) (buf : List Nat) : Except Err SADBExt :=
  match (buf ++ List.replicate slack 0).take 4 with
  | [l0, l1, t0, t1] => .ok { Len := u16 l0 l1, Typ := u16 t0 t1 }
  | _ => .error .panic

/-- Go `extensionNotImplemented`: `buf.Next(int(ext.Len * 8))`, the product taken in
`uint16`; `Next` stops at the end of the buffer. -/
def extensionNotImplemented (buf : List Nat) (ext : SADBExt) : List Nat :=
  buf.drop ((ext.Len * 8) % 65536)

/-- Go `readNodeFromBuffer`. -/
def readNodeFromBuffer (buf : List Nat) : Except Err (Node × List Nat) :=
  match SADBAddress.readFromBuffer buf with
  | .error e => .error e
  | .ok (_, buf) =>
    match sockAddrIn.readFromBuffer buf with
    | .error e => .error e
    | .ok (sckaddr, buf) =>
      match sckaddr.BuildNode with
      | .error e => .error e
      | .ok node => .ok (node, buf)

/-- The loop of Go `readAlgorithms`, `k` iterations left. -/
def readAlgs : Nat → List Nat → List SADBAlg → Except Err (List SADBAlg × List Nat)
  | 0, buf, algs => .ok (algs, buf)
  | k + 1, buf, algs =>
    match SADBAlg.readFromBuffer buf with
    | .error e => .error e
    | .ok (alg, buf) => readAlgs k buf (algs ++ [alg])

/-- Go `readAlgorithms`: the SUPPORTED header, then `for i := 1; i < int(supported.Len); i++`. -/
def readAlgorithms (buf : List Nat) : Except Err (List SADBAlg × List Nat) :=
  match SADBSupported.readFromBuffer buf with
  | .error e => .error e
  | .ok (supported, buf) => readAlgs (supported.Len - 1) buf []

/-- The loop of Go `readProposals`, `k` iterations left. -/
def readCombs : Nat → List Nat → List SADBComb → Except Err (List SADBComb × List Nat)
  | 0, buf, combs => .ok (combs, buf)
  | k + 1, buf, combs =>
    match SADBComb.readFromBuffer buf with
    | .error e => .error e
    | .ok (comb, buf) => readCombs k buf (combs ++ [comb])

/-- Go `readProposals`: `for i := 1; i < int(propLen); i++`. -/
def readProposals (buf : List Nat) (propLen : Nat) : Except Err (List SADBComb × List Nat) :=
  readCombs (propLen - 1) buf []

/-- One iteration of the extension loop of Go `ReadMsg`: the peek, then the `switch` on
the extension type, in the order of the source.  Returns the bytes left and the message. -/
def readExtension (slack : Nat) (buf : List Nat) (newMsg : Msg) : Except Err (List Nat × Msg) :=
  match readSADBExt slack buf with
  | .error e => .error e
  | .ok newExt =>
    if newExt.Typ = SADB_EXT_SA then
      match SADBSA.readFromBuffer buf with
      | .error e => .error e
      | .ok (newSA, buf) => .ok (buf, SetSA newMsg newSA)
    else if newExt.Typ = SADB_EXT_LIFETIME_HARD then
      match SADBLifetime.readFromBuffer buf with
      | .error e => .error e
      | .ok (newLT, buf) => .ok (buf, SetLifetimeHard newMsg newLT)
    else if newExt.Typ = SADB_EXT_LIFETIME_SOFT then
      match SADBLifetime.readFromBuffer buf with
      | .error e => .error e
      | .ok (newLT, buf) => .ok (buf, SetLifetimeSoft newMsg newLT)
    else if newExt.Typ = SADB_EXT_LIFETIME_CURRENT then
      match SADBLifetime.readFromBuffer buf with
      | .error e => .error e
      | .ok (newLT, buf) => .ok (buf, SetLifetimeCurrent newMsg newLT)
    else if newExt.Typ = SADB_EXT_ADDRESS_SRC then
      match readNodeFromBuffer buf with
      | .error e => .error e
      | .ok (newNode, buf) =>
        match SetAddressSrc newMsg newNode with
        | .error e => .error e
        | .ok m => .ok (buf, m)
    else if newExt.Typ = SADB_EXT_ADDRESS_DST then
      match readNodeFromBuffer buf with
      | .error e => .error e
      | .ok (newNode, buf) =>
        match SetAddressDst newMsg newNode with
        | .error e => .error e
        | .ok m => .ok (buf, m)
    else if newExt.Typ = SADB_EXT_SUPPORTED_AUTH then
      match readAlgorithms buf with
      | .error e => .error e
      | .ok (algs, buf) =>
        .ok (buf, { newMsg with
                    Extensions := { newMsg.Extensions with AuthAlgorithms := algs }
                    Present := { newMsg.Present with AuthAlgorithms := true } })
    else if newExt.Typ = SADB_EXT_SUPPORTED_ENCRYPT then
      match readAlgorithms buf with
      | .error e => .error e
      | .ok (algs, buf) =>
        .ok (buf, { newMsg with
                    Extensions := { newMsg.Extensions with EncryptAlgorithms := algs }
                    Present := { newMsg.Present with EncryptAlgorithms := true } })
    else if newExt.Typ = SADB_EXT_PROPOSAL then
      match SADBProp.readFromBuffer buf with
      | .error e => .error e
      | .ok (prop, buf) =>
        match readProposals buf prop.Len with
        | .error e => .error e
        | .ok (combs, buf) =>
          .ok (buf, { newMsg with
                      Extensions := { newMsg.Extensions with
                        Proposal := prop, ProposalCombs := combs }
                      Present := { newMsg.Present with Proposal := true } })
    else if newExt.Typ = SADB_EXT_ADDRESS_PROXY then
      .ok (extensionNotImplemented buf newExt, newMsg)
    else if newExt.Typ = SADB_EXT_KEY_AUTH then
      .ok (extensionNotImplemented buf newExt, newMsg)
    else if newExt.Typ = SADB_EXT_KEY_ENCRYPT then
      .ok (extensionNotImplemented buf newExt, newMsg)
    else if newExt.Typ = SADB_X_EXT_SA2 then
      .ok (extensionNotImplemented buf newExt, newMsg)
    else if newExt.Typ = SADB_X_EXT_POLICY then
      match SADBXPolicy.readFromBuffer buf with
      | .error _ => .error .fatal
      | .ok (xp, buf) =>
        .ok (buf, { newMsg with
                    Extensions := { newMsg.Extensions with XPolicy := xp }
                    Present := { newMsg.Present with XPolicy := true } })
    else .error (.unexpectedExtension newExt.Typ)

/-- The extension loop of Go `ReadMsg`, `for buf.Len() > 0 { ... }`, run for at most
`fuel` iterations; `none` when the iterations are used up with bytes still unread. -/
def readExtensions (slack : Nat) : Nat → List Nat → Msg → Option (Except Err Msg)
  | 0, buf, newMsg => if buf.length = 0 then some (.ok newMsg) else none
  | fuel + 1, buf, newMsg =>
    if buf.length = 0 then some (.ok newMsg)
    else
      match readExtension slack buf newMsg with
      | .error e => some (.error e)
      | .ok (buf, newMsg) => readExtensions slack fuel buf newMsg

/-- The body of Go `ReadMsg` once the socket read has returned the `n` bytes `data`
(`n <= 8192`): base header, extension loop, and the Base64 dump into a 500-byte slice
that the source makes when a PROPOSAL was read (it panics when the encoding is longer).
`fuel` bounds the loop iterations. -/
def parseMsg (fuel : Nat) (data : List Nat) : Option (Except Err Msg) :=
  match SADBMsg.readFromBuffer data with
  | .error e => some (.error e)
  | .ok (hdr, buf) =>
    match readExtensions (readBufSize - data.length) fuel buf { Msg := hdr } with
    | none => none
    | some (.error e) => some (.error e)
    | some (.ok newMsg) =>
      if newMsg.Present.Proposal ∧ (data.length * 8 + 5) / 6 > 500 then some (.error .panic)
      else some (.ok newMsg)

/-- What one call of `socket.Read` gives: an error, or the bytes of one datagram. -/
abbrev SocketRead := Except Err (List Nat)

/-- Equality of results is decidable. -/
instance instDecidableEqExcept {ε α : Type} [DecidableEq ε] [DecidableEq α] :
    DecidableEq (Except ε α)
  | .ok a, .ok b => if h : a = b then isTrue (by rw [h]) else isFalse (by intro h2; cases h2; exact h rfl)
  | .error a, .error b =>
    if h : a = b then isTrue (by rw [h]) else isFalse (by intro h2; cases h2; exact h rfl)
  | .ok _, .error _ => isFalse (by intro h; cases h)
  | .error _, .ok _ => isFalse (by intro h; cases h)

/-- Go `ReadMsg` on the result of its socket read.  An iteration of the extension loop
that returns no error and leaves the buffer non-empty either consumes a byte or leaves
the whole state unchanged, so `n` iterations are enough whenever the loop ends; `none`
stands for a loop that does not end. -/
def readReply (r : SocketRead) : Option (Except Err Msg) :=
  match r with
  | .error e => some (.error e)
  | .ok bytes => parseMsg (bytes.take readBufSize).length (bytes.take readBufSize)

/-- Go `PFKEY`: the socket, as the results its reads are going to give, in order. -/
structure PFKEY where
  socket : List SocketRead := []
deriving DecidableEq, Repr

/-- Go `(*PFKEY).ReadMsg`: `none` when it does not return (nothing to read, or a parser
loop that does not end), else the result and the socket afterwards. -/
def ReadMsg (p : PFKEY) : Option (Except Err Msg × PFKEY) :=
  match p.socket with
  | [] => none
  | r :: rest =>
    match readReply r with
    | none => none
    | some res => some (res, { socket := rest })

/-! ## `pfkey.go`: the DUMP loop -/

/-- How a call of `RetrieveSADBDump` ends: it returns `(messages, err)` leaving the socket
`p`, the process crashes (panic or fatal) inside `ReadMsg`, or it never returns. -/
inductive DumpOutcome where
  | returned (messages : List Msg) (err : Option Err) (p : PFKEY) : DumpOutcome
  | crashed (e : Err) : DumpOutcome
  | never : DumpOutcome
deriving DecidableEq, Repr

/-- The `for` loop of Go `RetrieveSADBDump` over the reads the socket is going to give,
`messages` being the slice collected so far. -/
def dumpLoop : List SocketRead → List Msg → DumpOutcome
  | [], _ => .never
  | r :: rest, messages =>
    match readReply r with
    | none => .never
    | some (.error e) =>
      if e.isReturned then .returned messages (some e) { socket := rest } else .crashed e
    | some (.ok msg) =>
      if msg.Msg.Errno = ENOENT then .returned messages none { socket := rest }
      else if msg.Msg.Errno ≠ 0 then
        .returned messages (some (.kernelErrno msg.Msg.Errno)) { socket := rest }
      else
        let messages := messages ++ [msg]
        if msg.Msg.Seq = 0 then .returned messages none { socket := rest }
        else dumpLoop rest messages

/-- Go `(*PFKEY).RetrieveSADBDump`. -/
def RetrieveSADBDump (p : PFKEY) : DumpOutcome := dumpLoop p.socket []

/-! ## `pfkey.go`, `socket.go`: command builders

`pid` stands for `os.Getpid()`; the header stores `uint32(pid)`. -/

/-- Go `BuildSADBGETSPI`. -/
def BuildSADBGETSPI (pid : Nat) (seq : Nat) (src dst : Node) : Except Err Msg :=
  let msg : Msg :=
    { Msg := { Version := PF_KEY_V2, Errno := 0, Typ := SADB_GETSPI, Seq := seq,
               SAType := SADB_SATYPE_ESP, PID := pid % 4294967296 } }
  match SetAddressSrc msg src with
  | .error e => .error e
  | .ok msg =>
    match SetAddressDst msg dst with
    | .error e => .error e
    | .ok msg => .ok (SetSPIRANGE msg spiRangeMin spiRangeMax)

/-- Go `(*PFKEY).SendSADBGETSPI`: the bytes sent. -/
def SendSADBGETSPI (pid : Nat) (seq : Nat) (src dst : Node) : Except Err (List Nat) :=
  match BuildSADBGETSPI pid seq src dst with
  | .error e => .error e
  | .ok msg => SendMsg msg

/-- Go `BuildSADBDELETE`. -/
def BuildSADBDELETE (pid : Nat) (spi : Nat) (src dst : Node) : Except Err Msg :=
  let p : Msg :=
    { Msg := { Typ := SADB_DELETE, SAType := SADB_SATYPE_ESP, PID := pid % 4294967296 } }
  let p := SetSA p { SPI := spi }
  match SetAddressSrc p src with
  | .error e => .error e
  | .ok p => SetAddressDst p dst

/-- Go `BuildSADBADD`. -/
def BuildSADBADD (pid : Nat) (seq spi : Nat) (src dst : Node) (encryptKey : List Nat) :
    Except Err Msg :=
  let p : Msg :=
    { Msg := { Typ := SADB_ADD, SAType := SADB_SATYPE_ESP, Seq := seq,
               PID := pid % 4294967296 } }
  let p := SetSA p { Encrypt := 12, SPI := spi, State := SADB_SASTATE_MATURE }
  let p := SetLifetimeSoft p { Addtime := 60 }
  let p := SetLifetimeHard p { Addtime := 90 }
  match SetAddressSrc p src with
  | .error e => .error e
  | .ok p =>
    match SetAddressDst p dst with
    | .error e => .error e
    | .ok p =>
      let keyBits : Int := 256
      let p := SetEncryptKey p encryptKey keyBits
      .ok (setMsgLen p)

/-- Go `BuildSADBUPDATE`. -/
def BuildSADBUPDATE (pid : Nat) (seq spi : Nat) (src dst : Node) (encryptKey : List Nat) :
    Except Err Msg :=
  match BuildSADBADD pid seq spi src dst encryptKey with
  | .error e => .error e
  | .ok m => .ok { m with Msg := { m.Msg with Typ := SADB_UPDATE } }

/-- Go `BuildSADBREGISTERMsg`. -/
def BuildSADBREGISTERMsg (pid : Nat) : Msg :=
  { Msg := { Version := PF_KEY_V2, Errno := 0, Typ := SADB_REGISTER,
             SAType := SADB_SATYPE_ESP, PID := pid % 4294967296 } }

/-- Go `BuildSADBFLUSH`. -/
def BuildSADBFLUSH (pid : Nat) : Msg :=
  { Msg := { Version := PF_KEY_V2, Typ := SADB_FLUSH, SAType := SADB_SATYPE_ESP,
             PID := pid % 4294967296 } }

/-- Go `BuildSADBDUMPMsg`. -/
def BuildSADBDUMPMsg (pid : Nat) : Msg :=
  { Msg := { Version := PF_KEY_V2, Errno := 0, Typ := SADB_DUMP, SAType := SADB_SATYPE_ESP,
             PID := pid % 4294967296 } }

/-! ## Sequences of setter calls -/

/-- One call of a public setter of `Msg`, with its arguments. -/
inductive SetterCall where
  | sa (v : SADBSA) : SetterCall
  | lifetimeCurrent (lt : SADBLifetime) : SetterCall
  | lifetimeHard (lt : SADBLifetime) : SetterCall
  | lifetimeSoft (lt : SADBLifetime) : SetterCall
  | addressSrc (src : Node) : SetterCall
  | addressDst (dst : Node) : SetterCall
  | authKey (key : List Nat) (keySize : Int) : SetterCall
  | encryptKey (key : List Nat) (keySize : Int) : SetterCall
  | spiRange (min max : Int) : SetterCall
deriving DecidableEq, Repr

/-- The extension a setter call sets, numbered in the order `writeToBuffer` writes them. -/
def SetterCall.slot : SetterCall → Nat
  | .sa _ => 0
  | .lifetimeCurrent _ => 1
  | .lifetimeHard _ => 2
  | .lifetimeSoft _ => 3
  | .addressSrc _ => 4
  | .addressDst _ => 5
  | .authKey _ _ => 6
  | .encryptKey _ _ => 7
  | .spiRange _ _ => 8

/-- Making the call on a message. -/
def SetterCall.run (p : Msg) : SetterCall → Except Err Msg
  | .sa v => .ok (SetSA p v)
  | .lifetimeCurrent lt => .ok (SetLifetimeCurrent p lt)
  | .lifetimeHard lt => .ok (SetLifetimeHard p lt)
  | .lifetimeSoft lt => .ok (SetLifetimeSoft p lt)
  | .addressSrc src => SetAddressSrc p src
  | .addressDst dst => SetAddressDst p dst
  | .authKey key keySize => .ok (SetAuthKey p key keySize)
  | .encryptKey key keySize => .ok (SetEncryptKey p key keySize)
  | .spiRange min max => .ok (SetSPIRANGE p min max)

/-- Making the calls one after the other; the first panic ends the run. -/
def runCalls (p : Msg) : List SetterCall → Except Err Msg
  | [] => .ok p
  | c :: cs =>
    match c.run p with
    | .error e => .error e
    | .ok p => runCalls p cs

/-- Setter calls, then `setMsgLen`, then `writeToBuffer` into an empty buffer. -/
def serializeAfter (p : Msg) (cs : List SetterCall) : Except Err (List Nat) :=
  match runCalls p cs with
  | .error e => .error e
  | .ok m => writeToBuffer (setMsgLen m) []

/-! ## Value ranges of the Go types -/

/-- Every field of the header has a value of its Go type. -/
def SADBMsg.inRange (s : SADBMsg) : Prop :=
  s.Version < 256 ∧ s.Typ < 256 ∧ s.Errno < 256 ∧ s.SAType < 256 ∧ s.Len < 65536
    ∧ s.Reserved < 65536 ∧ s.Seq < 4294967296 ∧ s.PID < 4294967296

/-- Every field of the SA has a value of its Go type. -/
def SADBSA.inRange (s : SADBSA) : Prop :=
  s.Len < 65536 ∧ s.ExtType < 65536 ∧ s.SPI < 4294967296 ∧ s.Replay < 256 ∧ s.State < 256
    ∧ s.Auth < 256 ∧ s.Encrypt < 256 ∧ s.Flags < 4294967296

/-- Every field of the lifetime has a value of its Go type. -/
def SADBLifetime.inRange (s : SADBLifetime) : Prop :=
  s.Len < 65536 ∧ s.ExtType < 65536 ∧ s.Allocations < 4294967296
    ∧ s.Bytes < 18446744073709551616 ∧ s.Addtime < 18446744073709551616
    ∧ s.Usetime < 18446744073709551616

/-- The port is a `uint16` and the address a slice of bytes. -/
def Node.inRange (n : Node) : Prop :=
  n.Port < 65536 ∧ ∀ b ∈ n.Addr, b < 256

/-- A setter call of an extension the parser decodes (SA, the lifetimes, the addresses),
its arguments having values of their Go types. -/
def SetterCall.decodable : SetterCall → Prop
  | .sa v => v.inRange
  | .lifetimeCurrent lt => lt.inRange
  | .lifetimeHard lt => lt.inRange
  | .lifetimeSoft lt => lt.inRange
  | .addressSrc src => src.inRange
  | .addressDst dst => dst.inRange
  | .authKey _ _ => False
  | .encryptKey _ _ => False
  | .spiRange _ _ => False

/-! ## The specification's side of the comparisons -/

/-- Modelled from the spec: `byte_swap_32` (section 8.1, law 3), the four bytes of a
32-bit value in reverse order, in shifts and masks. -/
def byteSwap32 (x : Nat) : Nat :=
  ((x &&& 255) <<< 24) ||| (((x >>> 8) &&& 255) <<< 16) ||| (((x >>> 16) &&& 255) <<< 8)
    ||| ((x >>> 24) &&& 255)

/-- Modelled from the spec: the header length as the statement on `setMsgLen` words it,
`2 +` the word length of every extension marked present, a present SUPPORTED extension
counting `1 +` its number of ALG records and a present PROPOSAL
`SADBPROP_LEN + combs * SADBCOMB_LEN`; the other extensions count their `Len` field. -/
def claimedMsgLen (p : Msg) : Nat :=
  2 + (if p.Present.SA then p.Extensions.SA.Len else 0)
    + (if p.Present.LifetimeCurrent then p.Extensions.LifetimeCurrent.Len else 0)
    + (if p.Present.LifetimeHard then p.Extensions.LifetimeHard.Len else 0)
    + (if p.Present.LifetimeSoft then p.Extensions.LifetimeSoft.Len else 0)
    + (if p.Present.AddressSrc then p.Extensions.AddressSrc.Len else 0)
    + (if p.Present.AddressDst then p.Extensions.AddressDst.Len else 0)
    + (if p.Present.Proposal then
        SADBPROP_LEN + p.Extensions.ProposalCombs.length * SADBCOMB_LEN else 0)
    + (if p.Present.AuthKey then p.Extensions.AuthKey.Len else 0)
    + (if p.Present.EncryptKey then p.Extensions.EncryptKey.Len else 0)
    + (if p.Present.AuthAlgorithms then 1 + p.Extensions.AuthAlgorithms.length else 0)
    + (if p.Present.EncryptAlgorithms then 1 + p.Extensions.EncryptAlgorithms.length else 0)
    + (if p.Present.SPIRange then p.Extensions.SPIRange.Len else 0)
    + (if p.Present.XPolicy then SADBXPOLICY_LEN else 0)

/-! ## Replies the DUMP loop accepts, and sample replies -/

/-- The read `r` parses to `m`, and `m` is a reply the DUMP loop appends and goes on
after: `errno = 0` and `seq != 0`. -/
def AcceptedReply (r : SocketRead) (m : Msg) : Prop :=
  readReply r = some (.ok m) ∧ m.Msg.Errno = 0 ∧ m.Msg.Seq ≠ 0

/-- A base-only reply of type `typ` with the given `errno` and `seq` (one byte each). -/
def baseReply (typ errno seq : Nat) : List Nat :=
  [2, typ, errno, 3, 2, 0, 0, 0, seq, 0, 0, 0, 0, 0, 0, 0]

/-- The message `baseReply typ errno seq` parses to. -/
def baseReplyMsg (typ errno seq : Nat) : Msg :=
  { Msg := { Version := 2, Typ := typ, Errno := errno, SAType := 3, Len := 2, Seq := seq } }

/-- A message as `ReadMsg` returns it for a REGISTER reply carrying one SUPPORTED_AUTH
extension with a single ALG record: only `AuthAlgorithms` is present. -/
def supportedOnlyMsg : Msg :=
  { Msg := { Version := 2, Typ := 7, SAType := 3, Len := 4 }
    Extensions := { AuthAlgorithms := [{ ID := 2, MinBits := 128, MaxBits := 128 }] }
    Present := { AuthAlgorithms := true } }

/-- A 20-byte key, the size of an HMAC-SHA1 key (160 bits). -/
def key20 : List Nat :=
  [1, 2, 3, 4, 5, 6, 7, 8, 9, 10, 11, 12, 13, 14, 15, 16, 17, 18, 19, 20]

/-- The empty message after `SetAuthKey(key20, 160)`. -/
def authKey20Msg : Msg := SetAuthKey {} key20 160

/-! ## Messages made of the extensions the parser decodes -/

/-- A socket address as `buildSockAddr` makes it: family `AF_INET`, a `uint16` port, four
address bytes, zero padding. -/
def sockAddrIn.built (s : sockAddrIn) : Prop :=
  s.SinFamily = AF_INET ∧ s.SinPort < 65536 ∧ s.SinAddr.1 < 256 ∧ s.SinAddr.2.1 < 256
    ∧ s.SinAddr.2.2.1 < 256 ∧ s.SinAddr.2.2.2 < 256 ∧ s.SinZero = {}

/-- The state of a message that the setters of SA, the lifetimes and the addresses reach
from a message with a header only: a slot marked present holds what its setter stores
(canonical `Len` and `ExtType`, values of the Go types), every other slot is zero. -/
def DecodableForm (m : Msg) : Prop :=
  m.Msg.inRange
    ∧ (if m.Present.SA = true then
        m.Extensions.SA.inRange ∧ m.Extensions.SA.ExtType = SADB_EXT_SA
          ∧ m.Extensions.SA.Len = SADBSA_LEN
       else m.Extensions.SA = {})
    ∧ (if m.Present.LifetimeCurrent = true then
        m.Extensions.LifetimeCurrent.inRange
          ∧ m.Extensions.LifetimeCurrent.ExtType = SADB_EXT_LIFETIME_CURRENT
          ∧ m.Extensions.LifetimeCurrent.Len = SADBLIFETIME_LEN
       else m.Extensions.LifetimeCurrent = {})
    ∧ (if m.Present.LifetimeHard = true then
        m.Extensions.LifetimeHard.inRange
          ∧ m.Extensions.LifetimeHard.ExtType = SADB_EXT_LIFETIME_HARD
          ∧ m.Extensions.LifetimeHard.Len = SADBLIFETIME_LEN
       else m.Extensions.LifetimeHard = {})
    ∧ (if m.Present.LifetimeSoft = true then
        m.Extensions.LifetimeSoft.inRange
          ∧ m.Extensions.LifetimeSoft.ExtType = SADB_EXT_LIFETIME_SOFT
          ∧ m.Extensions.LifetimeSoft.Len = SADBLIFETIME_LEN
       else m.Extensions.LifetimeSoft = {})
    ∧ (if m.Present.AddressSrc = true then
        m.Extensions.AddressSrc
            = { Proto := 0, PrefixLen := 32, ExtType := SADB_EXT_ADDRESS_SRC,
                Len := SADBADDRESS_LEN + SOCKADDRIN_LEN }
          ∧ m.Extensions.SockAddrSrc.built
       else m.Extensions.AddressSrc = {} ∧ m.Extensions.SockAddrSrc = {})
    ∧ (if m.Present.AddressDst = true then
        m.Extensions.AddressDst
            = { Proto := 0, PrefixLen := 32, ExtType := SADB_EXT_ADDRESS_DST,
                Len := SADBADDRESS_LEN + SOCKADDRIN_LEN }
          ∧ m.Extensions.SockAddrDst.built
       else m.Extensions.AddressDst = {} ∧ m.Extensions.SockAddrDst = {})
    ∧ m.Extensions.Proposal = {} ∧ m.Extensions.ProposalCombs = []
    ∧ m.Extensions.AuthKey = {} ∧ m.Extensions.AuthKeyBits = []
    ∧ m.Extensions.AuthAlgorithms = []
    ∧ m.Extensions.EncryptKey = {} ∧ m.Extensions.EncryptKeyBits = []
    ∧ m.Extensions.EncryptAlgorithms = []
    ∧ m.Extensions.SPIRange = {} ∧ m.Extensions.XPolicy = {}
    ∧ m.Present.Proposal = false ∧ m.Present.AuthKey = false ∧ m.Present.EncryptKey = false
    ∧ m.Present.AuthAlgorithms = false ∧ m.Present.EncryptAlgorithms = false
    ∧ m.Present.SPIRange = false ∧ m.Present.XPolicy = false

/-- An 8-byte key (64 bits). -/
def key8 : List Nat := [11, 22, 33, 44, 55, 66, 77, 88]

/-- The empty message after `SetEncryptKey(key8, 64)` and `setMsgLen`. -/
def encryptKeyMsg : Msg := setMsgLen (SetEncryptKey {} key8 64)

/-- The empty message after `SetAuthKey(key8, 64)` and `setMsgLen`. -/
def authKeyMsg : Msg := setMsgLen (SetAuthKey {} key8 64)

/-- The empty message after `SetSPIRANGE(10, 10000000)` and `setMsgLen`. -/
def spiRangeMsg : Msg := setMsgLen (SetSPIRANGE {} 10 10000000)

/-- Serializing a message with `writeToBuffer` and parsing the bytes with `ReadMsg` from a
socket that delivers them as one datagram: the result of `ReadMsg` (`none` when it does
not return), or the failure of `writeToBuffer`. -/
def reparse (m : Msg) : Option (Except Err Msg) :=
  match writeToBuffer m [] with
  | .error e => some (.error e)
  | .ok bytes => (ReadMsg { socket := [.ok bytes] }).map Prod.fst

/-- Setter calls of the kind `BuildSADBDELETE` and `BuildSADBADD` make, keys left out. -/
def sampleCalls : List SetterCall :=
  [.sa { Encrypt := 12, SPI := 31337, State := 1 }, .lifetimeSoft { Addtime := 60 },
   .lifetimeHard { Addtime := 90 }, .addressSrc { Addr := netIPv4 1 2 3 4 },
   .addressDst { Addr := netIPv4 5 6 7 8 }]

/-- The message `sampleCalls` builds from the empty message. -/
def sampleBuilt : Msg :=
  { Extensions :=
      { SA := { Len := 2, ExtType := 1, SPI := 31337, State := 1, Encrypt := 12 }
        LifetimeSoft := { Len := 4, ExtType := 4, Addtime := 60 }
        LifetimeHard := { Len := 4, ExtType := 3, Addtime := 90 }
        AddressSrc := { Len := 3, ExtType := 5, PrefixLen := 32 }
        SockAddrSrc := { SinFamily := 2, SinAddr := (1, 2, 3, 4) }
        AddressDst := { Len := 3, ExtType := 6, PrefixLen := 32 }
        SockAddrDst := { SinFamily := 2, SinAddr := (5, 6, 7, 8) } }
    Present := { SA := true, LifetimeSoft := true, LifetimeHard := true, AddressSrc := true,
                 AddressDst := true } }

/-! ## ALG records on the wire -/

/-- The eight bytes of an ALG record on the wire, the layout `binary.Read` decodes into a
`SADBAlg`: id, ivlen, then minbits, maxbits and reserved in little endian. -/
def SADBAlg.wire (s : SADBAlg) : List Nat :=
  [s.ID % 256, s.IVLen % 256] ++ le16 s.MinBits ++ le16 s.MaxBits ++ le16 s.Reserved

/-- Every field of the ALG record has a value of its Go type. -/
def SADBAlg.inRange (s : SADBAlg) : Prop :=
  s.ID < 256 ∧ s.IVLen < 256 ∧ s.MinBits < 65536 ∧ s.MaxBits < 65536 ∧ s.Reserved < 65536

/-! ## The extension loop run to its end -/

/-- The extension loop of `ReadMsg` started on the unread bytes `buf` with the message
`msg`, given as many iterations as there are unread bytes (enough whenever the loop
ends, see `readExtensions_adequate`); `none` is a loop that does not end. -/
def runLoop (slack : Nat) (buf : List Nat) (msg : Msg) : Option (Except Err Msg) :=
  readExtensions slack buf.length buf msg

/-- The last statements of Go `ReadMsg`, after the extension loop gave `r` on a read of
`n` bytes: the Base64 dump made when a PROPOSAL was read panics when `n` bytes do not
fit into 500 characters. -/
def afterLoop (n : Nat) (r : Option (Except Err Msg)) : Option (Except Err Msg) :=
  match r with
  | none => none
  | some (.error e) => some (.error e)
  | some (.ok newMsg) =>
    if newMsg.Present.Proposal ∧ (n * 8 + 5) / 6 > 500 then some (.error .panic)
    else some (.ok newMsg)

/-- The bytes `A` are a block of whole extensions: whatever follows them, the extension
loop started on `A` with the message `m` consumes exactly `A` and goes on with the
message `m1`. -/
def ConsumedWhole (A : List Nat) (m m1 : Msg) : Prop :=
  ∀ (slack : Nat) (tail : List Nat), runLoop slack (A ++ tail) m = runLoop slack tail m1

/-! ## Sample inputs -/

/-- The 16 bytes of the case `invalid_version` of `TestBasicMsgValidation`: a base header
whose version byte is 3. -/
def invalidVersionBytes : List Nat := [3, 0, 0, 0, 0, 2, 0, 0, 0, 0, 0, 0, 0, 0, 0, 0]

/-- A node whose `Addr` is the 12 bytes `ps` followed by the IPv4 address `a.b.c.d`. -/
def ipv4Node (ps : List Nat) (a b c d port : Nat) : Node :=
  { Addr := ps ++ [a, b, c, d], Port := port }

/-- The message `BuildSADBGETSPI` makes for the IPv4 addresses `a.b.c.d` and `e.f.g.h`
with port 0, with `len` in the header's length field. -/
def getspiMsg (pid seq a b c d e f g h : Nat) (len : Nat) : Msg :=
  { Msg := { Version := 2, Typ := 1, SAType := 3, Seq := seq, PID := pid % 4294967296,
             Len := len }
    Extensions :=
      { AddressSrc := { Len := 3, ExtType := 5, Proto := 0, PrefixLen := 32 }
        SockAddrSrc := { SinFamily := 2, SinPort := 0, SinAddr := (a, b, c, d) }
        AddressDst := { Len := 3, ExtType := 6, Proto := 0, PrefixLen := 32 }
        SockAddrDst := { SinFamily := 2, SinPort := 0, SinAddr := (e, f, g, h) }
        SPIRange := { Len := 2, ExtType := 16, Min := 10, Max := 10000000 } }
    Present := { AddressSrc := true, AddressDst := true, SPIRange := true } }

/-- ALG records one after the other on the wire. -/
def algsWire : List SADBAlg → List Nat
  | [] => []
  | a :: rest => a.wire ++ algsWire rest

/-- A SUPPORTED extension of type `t` on the wire: declared length `algs.length + 1`, the
type, four reserved bytes, then the ALG records. -/
def supportedExt (t r0 r1 r2 r3 : Nat) (algs : List SADBAlg) : List Nat :=
  le16 (algs.length + 1) ++ le16 t ++ [r0, r1, r2, r3] ++ algsWire algs

/-- Two AUTH algorithms of the fixture `registration_1` (ids 2 and 3). -/
def sampleAuthAlgs : List SADBAlg :=
  [{ ID := 2, IVLen := 0, MinBits := 128, MaxBits := 128 },
   { ID := 3, IVLen := 0, MinBits := 160, MaxBits := 160 }]

/-- Two ENCRYPT algorithms of the fixture `registration_1` (ids 11 and 12). -/
def sampleEncryptAlgs : List SADBAlg :=
  [{ ID := 11, IVLen := 0, MinBits := 0, MaxBits := 0 },
   { ID := 12, IVLen := 8, MinBits := 128, MaxBits := 256 }]

/-- The base header of a REGISTER reply of 8 words, on the wire. -/
def registerHdrBytes : List Nat := [2, 7, 0, 3, 8, 0, 0, 0, 0, 0, 0, 0, 52, 18, 0, 0]

/-- A REGISTER reply carrying `sampleAuthAlgs` and `sampleEncryptAlgs`. -/
def registerReplyBytes : List Nat :=
  registerHdrBytes
    ++ supportedExt SADB_EXT_SUPPORTED_AUTH 0 0 0 0 sampleAuthAlgs
    ++ supportedExt SADB_EXT_SUPPORTED_ENCRYPT 0 0 0 0 sampleEncryptAlgs

/-- An SA extension (SPI bytes 1, 2, 3, 4, state 1, encrypt 12) on the wire, with `l0`,
`l1` as its two length bytes. -/
def saExtBytes (l0 l1 : Nat) : List Nat :=
  [l0, l1, 1, 0, 1, 2, 3, 4, 0, 1, 0, 12, 0, 0, 0, 0]

/-- A base header (type ADD, satype ESP) that declares `len` words, on the wire. -/
def hdrBytes (len : Nat) : List Nat :=
  [2, 3, 0, 3] ++ le16 len ++ [0, 0, 0, 0, 0, 0, 52, 18, 0, 0]

/-- A 32-byte message whose header declares 2 words (16 bytes) and is followed by an SA
extension. -/
def trailingSABytes : List Nat := hdrBytes 2 ++ saExtBytes 2 0

/-- A 32-byte message whose SA extension declares `word_len = 0`. -/
def zeroLenSABytes : List Nat := hdrBytes 4 ++ saExtBytes 0 0

/-- The message both of them parse to, up to the header's `Len`. -/
def saOnlyMsg (len : Nat) : Msg :=
  { Msg := { Version := 2, Typ := 3, SAType := 3, Len := len, PID := 4660 }
    Extensions := { SA := { Len := 2, ExtType := 1, SPI := 67305985, State := 1, Encrypt := 12 } }
    Present := { SA := true } }

/-- A base header of type ACQUIRE (6) with seq 1, on the wire. -/
def acquireHdrBytes : List Nat := [2, 6, 0, 3, 47, 0, 0, 0, 1, 0, 0, 0, 0, 0, 0, 0]

/-- A KEY_ENCRYPT extension of one word. -/
def keyEncryptExtBytes : List Nat := [1, 0, 9, 0, 0, 0, 0, 0]

/-- An ADDRESS_PROXY extension of 43 words (344 bytes). -/
def proxyExtBytes : List Nat := [43, 0, 7, 0] ++ List.replicate 340 0

/-- A PROPOSAL extension without combinations. -/
def proposalExtBytes : List Nat := [1, 0, 13, 0, 32, 0, 0, 0]

/-- A 376-byte ACQUIRE message: KEY_ENCRYPT, ADDRESS_PROXY, PROPOSAL. -/
def acquireWithKeyBytes : List Nat :=
  acquireHdrBytes ++ (keyEncryptExtBytes ++ proxyExtBytes) ++ proposalExtBytes

/-- The same message with the 8 bytes of the KEY_ENCRYPT extension removed (368 bytes). -/
def acquireWithoutKeyBytes : List Nat :=
  acquireHdrBytes ++ proxyExtBytes ++ proposalExtBytes

/-- The message the header and the PROPOSAL extension of these two parse to. -/
def acquireMsg : Msg :=
  { Msg := { Version := 2, Typ := 6, SAType := 3, Len := 47, Seq := 1 }
    Extensions := { Proposal := { Len := 1, ExtType := 13, Replay := 32 } }
    Present := { Proposal := true } }

/-! ## The builders for UPDATE and DELETE -/

/-- The UPDATE message in the words of the spec, "identical to ADD but with
`type = UPDATE`": the construction of `BuildSADBADD` carried out on a header whose type
is `SADB_UPDATE` from the start. -/
def specBuildUPDATE (pid : Nat) (seq spi : Nat) (src dst : Node) (encryptKey : List Nat) :
    Except Err Msg :=
  let p : Msg :=
    { Msg := { Typ := SADB_UPDATE, SAType := SADB_SATYPE_ESP, Seq := seq,
               PID := pid % 4294967296 } }
  let p := SetSA p { Encrypt := 12, SPI := spi, State := SADB_SASTATE_MATURE }
  let p := SetLifetimeSoft p { Addtime := 60 }
  let p := SetLifetimeHard p { Addtime := 90 }
  match SetAddressSrc p src with
  | .error e => .error e
  | .ok p =>
    match SetAddressDst p dst with
    | .error e => .error e
    | .ok p => .ok (setMsgLen (SetEncryptKey p encryptKey 256))

/-- The key of `TestBuildSADBADD` (32 bytes). -/
def testKey32 : List Nat :=
  [40, 141, 178, 141, 242, 74, 142, 67, 237, 231, 145, 81, 148, 10, 249, 253, 77, 164, 119,
   141, 106, 73, 193, 49, 35, 84, 139, 157, 95, 216, 244, 48]

/-- The message `BuildSADBDELETE` makes for the SPI `spi` and the IPv4 addresses `a.b.c.d`
(port `sp`) and `e.f.g.h` (port `dp`), with `ver` and `len` in the header's version and
length fields. -/
def deleteMsg (pid spi a b c d sp e f g h dp : Nat) (ver len : Nat) : Msg :=
  { Msg := { Version := ver, Typ := 4, SAType := 3, PID := pid % 4294967296, Len := len }
    Extensions :=
      { SA := { Len := 2, ExtType := 1, SPI := spi }
        AddressSrc := { Len := 3, ExtType := 5, Proto := 0, PrefixLen := 32 }
        SockAddrSrc := { SinFamily := 2, SinPort := sp, SinAddr := (a, b, c, d) }
        AddressDst := { Len := 3, ExtType := 6, Proto := 0, PrefixLen := 32 }
        SockAddrDst := { SinFamily := 2, SinPort := dp, SinAddr := (e, f, g, h) } }
    Present := { SA := true, AddressSrc := true, AddressDst := true } }

/-! ## The header values the setters store -/

/-- Every extension among SA, the lifetimes and the addresses that is marked present in
`m` carries the canonical `Len` and `ExtType` of its kind. -/
def CanonicalPresent (m : Msg) : Prop :=
  (m.Present.SA = true → m.Extensions.SA.Len = 2 ∧ m.Extensions.SA.ExtType = 1)
  ∧ (m.Present.LifetimeCurrent = true →
      m.Extensions.LifetimeCurrent.Len = 4 ∧ m.Extensions.LifetimeCurrent.ExtType = 2)
  ∧ (m.Present.LifetimeHard = true →
      m.Extensions.LifetimeHard.Len = 4 ∧ m.Extensions.LifetimeHard.ExtType = 3)
  ∧ (m.Present.LifetimeSoft = true →
      m.Extensions.LifetimeSoft.Len = 4 ∧ m.Extensions.LifetimeSoft.ExtType = 4)
  ∧ (m.Present.AddressSrc = true →
      m.Extensions.AddressSrc.Len = 3 ∧ m.Extensions.AddressSrc.ExtType = 5)
  ∧ (m.Present.AddressDst = true →
      m.Extensions.AddressDst.Len = 3 ∧ m.Extensions.AddressDst.ExtType = 6)

/-- The empty message after `SetAddressSrc` of 1.2.3.4. -/
def addressSrcMsg : Msg :=
  { Extensions :=
      { AddressSrc := { Len := 3, ExtType := 5, Proto := 0, PrefixLen := 32 }
        SockAddrSrc := { SinFamily := 2, SinPort := 0, SinAddr := (1, 2, 3, 4) } }
    Present := { AddressSrc := true } }

/-- The empty message after `SetAddressDst` of 5.6.7.8. -/
def addressDstMsg : Msg :=
  { Extensions :=
      { AddressDst := { Len := 3, ExtType := 6, Proto := 0, PrefixLen := 32 }
        SockAddrDst := { SinFamily := 2, SinPort := 0, SinAddr := (5, 6, 7, 8) } }
    Present := { AddressDst := true } }

/-! ## Sample PROPOSAL and truncated extensions -/

/-- A PROPOSAL extension that declares 2 words (16 bytes), followed by 68 zero bytes. -/
def proposalTwoWordsBytes : List Nat := [2, 0, 13, 0, 32, 0, 0, 0] ++ List.replicate 68 0

/-- The message a header followed by `proposalTwoWordsBytes` parses to: one combination
made of the 68 zero bytes. -/
def proposalTwoWordsMsg (hdr : SADBMsg) : Msg :=
  { Msg := hdr
    Extensions := { Proposal := { Len := 2, ExtType := 13, Replay := 32 }, ProposalCombs := [{}] }
    Present := { Proposal := true } }

/-- A KEY_ENCRYPT extension that declares 2 words (16 bytes) and has 8 bytes. -/
def truncatedKeyExtBytes : List Nat := [2, 0, 9, 0, 0, 1, 0, 0]

/-- An SA extension of 16 bytes that declares 3 words (24 bytes). -/
def overDeclaredSABytes : List Nat := saExtBytes 3 0

/-- The number of bytes the decoder of an extension of type `t` reads when the extension
declares `len` words: the fixed record for SA (16), the lifetimes (32) and the addresses
(24, with the `sockaddr_in`), the header and `len - 1` records of 8 bytes for SUPPORTED,
the header and `len - 1` records of 68 bytes for PROPOSAL. -/
def decoderReads (t len : Nat) : Nat :=
  if t = SADB_EXT_SA then 16
  else if t = SADB_EXT_LIFETIME_CURRENT ∨ t = SADB_EXT_LIFETIME_HARD
      ∨ t = SADB_EXT_LIFETIME_SOFT then 32
  else if t = SADB_EXT_ADDRESS_SRC ∨ t = SADB_EXT_ADDRESS_DST then 24
  else if t = SADB_EXT_SUPPORTED_AUTH ∨ t = SADB_EXT_SUPPORTED_ENCRYPT then 8 + 8 * (len - 1)
  else if t = SADB_EXT_PROPOSAL then 8 + 68 * (len - 1)
  else 0

/-! ## Sample inputs: a skipped extension of length 0, short addresses, ADDRESS on the wire -/

/-- A KEY_ENCRYPT extension that declares `word_len = 0`. -/
def zeroLenKeyExtBytes : List Nat := [0, 0, 9, 0, 0, 0, 0, 0]

/-- A node whose `Addr` is the 4-byte form of 1.2.3.4 (what `net.IP{1, 2, 3, 4}` is). -/
def shortNode : Node := { Addr := [1, 2, 3, 4] }

/-- An ADDRESS extension on the wire, byte by byte: the 8-byte header (length bytes
`l0 l1`, type bytes `t0 t1`, proto `pr`, prefix length `pl`, reserved bytes `r0 r1`),
then a `sockaddr_in` (family bytes `f0 f1`, port bytes `p0 p1`, address `a.b.c.d`) and
its padding `z`. -/
def addressExt (l0 l1 t0 t1 pr pl r0 r1 f0 f1 p0 p1 a b c d : Nat) (z : List Nat) : List Nat :=
  [l0, l1, t0, t1, pr, pl, r0, r1] ++ [f0, f1, p0, p1, a, b, c, d] ++ z

/-! # Theorems -/

/-! ## SPI byte order -/

theorem land_255 (x : Nat) : x &&& 255 = x % 256 := by
  have := Nat.and_pow_two_sub_one_eq_mod x 8
  simpa using this

theorem byteSwap32_arith (x : Nat) :
    byteSwap32 x
      = 16777216 * (x % 256) + 65536 * (x / 256 % 256) + 256 * (x / 65536 % 256)
          + x / 16777216 % 256 := by
  unfold byteSwap32
  simp only [land_255, Nat.shiftLeft_eq, Nat.shiftRight_eq_div_pow]
  have h1 : x / 2 ^ 24 % 256 < 2 ^ 8 := by omega
  have e1 := Nat.mul_add_lt_is_or h1 (x / 2 ^ 16 % 256)
  have h2 : 2 ^ 8 * (x / 2 ^ 16 % 256) + x / 2 ^ 24 % 256 < 2 ^ 16 := by omega
  have e2 := Nat.mul_add_lt_is_or h2 (x / 2 ^ 8 % 256)
  have h3 : 2 ^ 16 * (x / 2 ^ 8 % 256) + (2 ^ 8 * (x / 2 ^ 16 % 256) + x / 2 ^ 24 % 256)
      < 2 ^ 24 := by omega
  have e3 := Nat.mul_add_lt_is_or h3 (x % 256)
  rw [Nat.mul_comm (x % 256), Nat.mul_comm (x / 2 ^ 8 % 256), Nat.mul_comm (x / 2 ^ 16 % 256),
    Nat.lor_assoc, Nat.lor_assoc, ← e1, ← e2, ← e3]
  norm_num
  omega

/-- C3. `GetSPI` returns the 32-bit byte swap of the stored SPI, whatever the SPI is;
in particular `421321321` is returned as `1775901721`. -/
theorem GetSPI_eq_byteSwap32 (s : SADBSA) :
    s.GetSPI = byteSwap32 s.SPI
      ∧ SADBSA.GetSPI { SPI := 421321321 } = 1775901721 := by
  refine ⟨?_, by decide⟩
  rw [byteSwap32_arith]
  simp only [SADBSA.GetSPI, le32, u32be]


/-! ## The DUMP loop -/

theorem dumpLoop_accepted (rpre : List SocketRead) (pre : List Msg)
    (hpre : List.Forall₂ AcceptedReply rpre pre) (tail : List SocketRead) (acc : List Msg) :
    dumpLoop (rpre ++ tail) acc = dumpLoop tail (acc ++ pre) := by
  induction hpre generalizing acc with
  | nil => simp
  | @cons r m rs ms hrm _ ih =>
    obtain ⟨hr, he, hs⟩ := hrm
    have h0 : ¬ (0 = ENOENT) := by decide
    simp only [List.cons_append, dumpLoop, hr, he, h0, hs, if_false, ne_eq, not_true_eq_false]
    show dumpLoop (rs ++ tail) (acc ++ [m]) = _
    rw [ih]
    simp

theorem dumpLoop_error_inv (rs : List SocketRead) :
    ∀ (acc ms : List Msg) (e : Err) (p : PFKEY),
      dumpLoop rs acc = .returned ms (some e) p →
      ∃ rpre pre rbad, rs = rpre ++ rbad :: p.socket ∧ ms = acc ++ pre
        ∧ List.Forall₂ AcceptedReply rpre pre
        ∧ (readReply rbad = some (.error e)
            ∨ ∃ bad, readReply rbad = some (.ok bad) ∧ bad.Msg.Errno ≠ 0
                ∧ bad.Msg.Errno ≠ ENOENT ∧ e = .kernelErrno bad.Msg.Errno) := by
  induction rs with
  | nil => intro acc ms e p h; simp [dumpLoop] at h
  | cons r rest ih =>
    intro acc ms e p h
    unfold dumpLoop at h
    split at h
    · cases h
    · rename_i e1 hr
      split at h
      · simp only [DumpOutcome.returned.injEq, Option.some.injEq] at h
        obtain ⟨h1, h2, h3⟩ := h
        subst h1 h2 h3
        exact ⟨[], [], r, by simp, by simp, List.Forall₂.nil, Or.inl hr⟩
      · cases h
    · rename_i msg hr
      split at h
      · simp at h
      · split at h
        · rename_i hne hnz
          simp only [DumpOutcome.returned.injEq, Option.some.injEq] at h
          obtain ⟨h1, h2, h3⟩ := h
          subst h1 h2 h3
          exact ⟨[], [], r, by simp, by simp, List.Forall₂.nil,
            Or.inr ⟨msg, hr, hnz, hne, rfl⟩⟩
        · rename_i hne hz
          simp only [ne_eq, Decidable.not_not] at hz
          split at h
          · simp at h
          · rename_i hseq
            obtain ⟨rpre, pre, rbad, h1, h2, h3, h4⟩ := ih _ _ _ _ h
            refine ⟨r :: rpre, msg :: pre, rbad, by simp [h1], by simp [h2], ?_, h4⟩
            exact List.Forall₂.cons ⟨hr, hz, hseq⟩ h3

/-- C6. DUMP ends on `seq = 0`: when the socket gives `N >= 1` reads that parse, all
with `errno = 0`, the first `N - 1` with `seq != 0` and the last with `seq = 0`,
`RetrieveSADBDump` returns exactly those `N` messages in arrival order, the `seq = 0`
one last, with no error, and leaves every later read on the socket. -/
theorem RetrieveSADBDump_seq_zero (rpre : List SocketRead) (pre : List Msg)
    (rlast : SocketRead) (last : Msg) (rest : List SocketRead)
    (hpre : List.Forall₂ AcceptedReply rpre pre)
    (hlast : readReply rlast = some (.ok last))
    (herrno : last.Msg.Errno = 0) (hseq : last.Msg.Seq = 0) :
    RetrieveSADBDump { socket := rpre ++ rlast :: rest }
      = .returned (pre ++ [last]) none { socket := rest } := by
  have h0 : ¬ (0 = ENOENT) := by decide
  simp [RetrieveSADBDump, dumpLoop_accepted rpre pre hpre, dumpLoop, hlast, herrno, hseq, h0]

theorem RetrieveSADBDump_seq_zero_witness :
    RetrieveSADBDump
        { socket := [.ok (baseReply 10 0 2), .ok (baseReply 10 0 1)] ++
            .ok (baseReply 10 0 0) :: [.ok (baseReply 10 0 7)] }
      = .returned ([baseReplyMsg 10 0 2, baseReplyMsg 10 0 1] ++ [baseReplyMsg 10 0 0]) none
          { socket := [.ok (baseReply 10 0 7)] } :=
  RetrieveSADBDump_seq_zero [.ok (baseReply 10 0 2), .ok (baseReply 10 0 1)]
    [baseReplyMsg 10 0 2, baseReplyMsg 10 0 1] (.ok (baseReply 10 0 0)) (baseReplyMsg 10 0 0)
    [.ok (baseReply 10 0 7)]
    (List.Forall₂.cons ⟨by decide, by decide, by decide⟩
      (List.Forall₂.cons ⟨by decide, by decide, by decide⟩ List.Forall₂.nil))
    (by decide) (by decide) (by decide)

/-- C7. Empty DUMP: when the first reply read has `errno = ENOENT`, `RetrieveSADBDump`
returns the empty list and no error, whatever the other fields of that reply are. -/
theorem RetrieveSADBDump_enoent_first (r : SocketRead) (m : Msg) (rest : List SocketRead)
    (hr : readReply r = some (.ok m)) (herrno : m.Msg.Errno = ENOENT) :
    RetrieveSADBDump { socket := r :: rest } = .returned [] none { socket := rest } := by
  simp [RetrieveSADBDump, dumpLoop, hr, herrno]

theorem RetrieveSADBDump_enoent_first_witness :
    RetrieveSADBDump { socket := .ok [2, 10, 2, 3, 2, 0, 0, 0, 0, 0, 0, 0, 147, 13, 0, 0] :: [] }
      = .returned [] none { socket := [] } :=
  RetrieveSADBDump_enoent_first (.ok [2, 10, 2, 3, 2, 0, 0, 0, 0, 0, 0, 0, 147, 13, 0, 0])
    { Msg := { Version := 2, Typ := 10, Errno := 2, SAType := 3, Len := 2, PID := 3475 } } []
    (by decide) (by decide)

/-- C8, as stated, fails: a reply with `errno = 0` and `seq = 1` followed by a reply
with `errno = ENOENT` makes `RetrieveSADBDump` return the first reply, not the empty list. -/
theorem RetrieveSADBDump_enoent_after_reply_nonempty :
    RetrieveSADBDump { socket := [.ok (baseReply 10 0 1), .ok (baseReply 10 2 0)] }
        = .returned [baseReplyMsg 10 0 1] none { socket := [] }
      ∧ [baseReplyMsg 10 0 1] ≠ ([] : List Msg) := by
  decide

/-- C8, amended. When replies with `errno = 0` and `seq != 0` are followed by a reply
with `errno = ENOENT`, `RetrieveSADBDump` returns with no error the list of the replies
that came before the `ENOENT` one, in arrival order, and leaves the later reads on the
socket; the list is empty exactly when the `ENOENT` reply is the first one. -/
theorem RetrieveSADBDump_enoent_returns_collected (rpre : List SocketRead) (pre : List Msg)
    (rlast : SocketRead) (last : Msg) (rest : List SocketRead)
    (hpre : List.Forall₂ AcceptedReply rpre pre)
    (hlast : readReply rlast = some (.ok last)) (herrno : last.Msg.Errno = ENOENT) :
    RetrieveSADBDump { socket := rpre ++ rlast :: rest } = .returned pre none { socket := rest }
      ∧ (pre = [] ↔ rpre = []) := by
  refine ⟨?_, ?_⟩
  · simp [RetrieveSADBDump, dumpLoop_accepted rpre pre hpre, dumpLoop, hlast, herrno]
  · cases hpre <;> simp

theorem RetrieveSADBDump_enoent_returns_collected_witness :
    RetrieveSADBDump
        { socket := [.ok (baseReply 10 0 5)] ++ .ok (baseReply 10 2 0) :: [] }
      = .returned [baseReplyMsg 10 0 5] none { socket := [] } :=
  (RetrieveSADBDump_enoent_returns_collected [.ok (baseReply 10 0 5)] [baseReplyMsg 10 0 5]
    (.ok (baseReply 10 2 0)) (baseReplyMsg 10 2 0) []
    (List.Forall₂.cons ⟨by decide, by decide, by decide⟩ List.Forall₂.nil)
    (by decide) (by decide)).1

/-- C9. DUMP error policy.  After any replies with `errno = 0` and `seq != 0`: a reply
whose `errno` is neither `0` nor `ENOENT` makes `RetrieveSADBDump` return the error
carrying that `errno`, and a read on which `ReadMsg` returns an error makes it return that
error, in both cases with the replies accepted before as the list.  Conversely, whenever
`RetrieveSADBDump` returns an error, the list returned with it is exactly the replies
accepted before the failing read, in arrival order. -/
theorem RetrieveSADBDump_error_policy (rpre : List SocketRead) (pre : List Msg)
    (hpre : List.Forall₂ AcceptedReply rpre pre) (rbad : SocketRead) (rest : List SocketRead) :
    (∀ bad, readReply rbad = some (.ok bad) → bad.Msg.Errno ≠ 0 → bad.Msg.Errno ≠ ENOENT →
        RetrieveSADBDump { socket := rpre ++ rbad :: rest }
          = .returned pre (some (.kernelErrno bad.Msg.Errno)) { socket := rest })
      ∧ (∀ e, readReply rbad = some (.error e) → e.isReturned = true →
        RetrieveSADBDump { socket := rpre ++ rbad :: rest }
          = .returned pre (some e) { socket := rest })
      ∧ (∀ (p p1 : PFKEY) (ms : List Msg) (e : Err),
          RetrieveSADBDump p = .returned ms (some e) p1 →
          ∃ rs rfail, p.socket = rs ++ rfail :: p1.socket
            ∧ List.Forall₂ AcceptedReply rs ms
            ∧ (readReply rfail = some (.error e)
                ∨ ∃ bad, readReply rfail = some (.ok bad) ∧ bad.Msg.Errno ≠ 0
                    ∧ bad.Msg.Errno ≠ ENOENT ∧ e = .kernelErrno bad.Msg.Errno)) := by
  refine ⟨?_, ?_, ?_⟩
  · intro bad hr h0 h2
    simp [RetrieveSADBDump, dumpLoop_accepted rpre pre hpre, dumpLoop, hr, h0, h2]
  · intro e hr he
    simp [RetrieveSADBDump, dumpLoop_accepted rpre pre hpre, dumpLoop, hr, he]
  · intro p p1 ms e h
    obtain ⟨rs, pre1, rfail, h1, h2, h3, h4⟩ := dumpLoop_error_inv p.socket [] ms e p1 h
    simp only [List.nil_append] at h2
    subst h2
    exact ⟨rs, rfail, h1, h3, h4⟩

theorem RetrieveSADBDump_error_policy_witness :
    RetrieveSADBDump
        { socket := [.ok (baseReply 10 0 3)] ++ .ok (baseReply 10 22 0) :: [] }
      = .returned [baseReplyMsg 10 0 3] (some (.kernelErrno 22)) { socket := [] } :=
  (RetrieveSADBDump_error_policy [.ok (baseReply 10 0 3)] [baseReplyMsg 10 0 3]
    (List.Forall₂.cons ⟨by decide, by decide, by decide⟩ List.Forall₂.nil)
    (.ok (baseReply 10 22 0)) []).1 (baseReplyMsg 10 22 0) (by decide) (by decide) (by decide)

/-- C10, at the failing input: a single reply of type `SADB_REGISTER` (7) with
`errno = 0` and `seq = 0` is returned by `RetrieveSADBDump` in its list, although its
type is not `SADB_DUMP` (10). -/
theorem RetrieveSADBDump_keeps_other_types :
    RetrieveSADBDump { socket := [.ok (baseReply 7 0 0)] }
        = .returned [baseReplyMsg 7 0 0] none { socket := [] }
      ∧ (baseReplyMsg 7 0 0).Msg.Typ ≠ SADB_DUMP := by
  decide


/-! ## `setMsgLen` -/

theorem addIf_mod (c : Bool) (n x y s : Nat) (h : n % 65536 = s % 65536)
    (hx : c = true → x % 65536 = y % 65536) :
    addIf c n x % 65536 = (s + if c = true then y else 0) % 65536 := by
  unfold addIf add16
  split
  · rename_i hc
    have := hx hc
    omega
  · omega

/-- C5, as stated, fails: for a message in which only SUPPORTED_AUTH (one ALG record) is
marked present, `setMsgLen` stores `Len = 2`, while the claimed length is `2 + (1 + 1) = 4`. -/
theorem setMsgLen_ignores_supported :
    (setMsgLen supportedOnlyMsg).Msg.Len = 2 ∧ claimedMsgLen supportedOnlyMsg = 4
      ∧ (setMsgLen supportedOnlyMsg).Msg.Len ≠ claimedMsgLen supportedOnlyMsg := by
  decide

/-- C5, amended. For every `Msg`, after `setMsgLen` the header has `Version = 2` and
`Len` is, modulo `2^16` (the counter is a `uint16`), `2 +` the sum of the stored `Len`
fields of the extensions marked present among SA, LIFETIME_CURRENT, LIFETIME_HARD,
LIFETIME_SOFT, ADDRESS_SRC, ADDRESS_DST, KEY_AUTH, KEY_ENCRYPT and SPIRANGE, plus
`SADBPROP_LEN + combs * SADBCOMB_LEN` for a present PROPOSAL and `SADBXPOLICY_LEN` for a
present X_POLICY; the SUPPORTED extensions are not counted. -/
theorem setMsgLen_version_len (p : Msg) :
    (setMsgLen p).Msg.Version = 2
      ∧ (setMsgLen p).Msg.Len
          = (2 + (if p.Present.SA = true then p.Extensions.SA.Len else 0)
              + (if p.Present.LifetimeCurrent = true then p.Extensions.LifetimeCurrent.Len else 0)
              + (if p.Present.LifetimeHard = true then p.Extensions.LifetimeHard.Len else 0)
              + (if p.Present.LifetimeSoft = true then p.Extensions.LifetimeSoft.Len else 0)
              + (if p.Present.AddressSrc = true then p.Extensions.AddressSrc.Len else 0)
              + (if p.Present.AddressDst = true then p.Extensions.AddressDst.Len else 0)
              + (if p.Present.Proposal = true then
                  SADBPROP_LEN + p.Extensions.ProposalCombs.length * SADBCOMB_LEN else 0)
              + (if p.Present.AuthKey = true then p.Extensions.AuthKey.Len else 0)
              + (if p.Present.EncryptKey = true then p.Extensions.EncryptKey.Len else 0)
              + (if p.Present.SPIRange = true then p.Extensions.SPIRange.Len else 0)
              + (if p.Present.XPolicy = true then SADBXPOLICY_LEN else 0)) % 65536 := by
  refine ⟨rfl, ?_⟩
  simp only [setMsgLen, HasSA, HasLifetimeCurrent, HasLifetimeHard, HasLifetimeSoft,
    HasAddressSrc, HasAddressDst, HasAuthKey, HasEncryptKey, HasSPIRange]
  have h1 := addIf_mod p.Present.SA 0 p.Extensions.SA.Len _ 0 rfl (fun _ => rfl)
  have h2 := addIf_mod p.Present.LifetimeCurrent _ p.Extensions.LifetimeCurrent.Len _ _ h1
    (fun _ => rfl)
  have h3 := addIf_mod p.Present.LifetimeHard _ p.Extensions.LifetimeHard.Len _ _ h2
    (fun _ => rfl)
  have h4 := addIf_mod p.Present.LifetimeSoft _ p.Extensions.LifetimeSoft.Len _ _ h3
    (fun _ => rfl)
  have h5 := addIf_mod p.Present.AddressSrc _ p.Extensions.AddressSrc.Len _ _ h4 (fun _ => rfl)
  have h6 := addIf_mod p.Present.AddressDst _ p.Extensions.AddressDst.Len _ _ h5 (fun _ => rfl)
  have h7 := addIf_mod p.Present.Proposal _
    (if p.Present.Proposal = true then
        ({ p.Extensions.Proposal with
            ExtType := SADB_EXT_PROPOSAL
            Len := add16 SADBPROP_LEN (p.Extensions.ProposalCombs.length * SADBCOMB_LEN % 65536) }
          : SADBProp)
      else p.Extensions.Proposal).Len
    (SADBPROP_LEN + p.Extensions.ProposalCombs.length * SADBCOMB_LEN) _ h6
    (fun hc => by simp only [hc, if_true, add16]; omega)
  have h8 := addIf_mod p.Present.AuthKey _ p.Extensions.AuthKey.Len _ _ h7 (fun _ => rfl)
  have h9 := addIf_mod p.Present.EncryptKey _ p.Extensions.EncryptKey.Len _ _ h8 (fun _ => rfl)
  have h10 := addIf_mod p.Present.SPIRange _ p.Extensions.SPIRange.Len _ _ h9 (fun _ => rfl)
  have h11 := addIf_mod p.Present.XPolicy _
    (if p.Present.XPolicy = true then
        ({ p.Extensions.XPolicy with ExtType := SADB_X_EXT_POLICY, Len := SADBXPOLICY_LEN }
          : SADBXPolicy)
      else p.Extensions.XPolicy).Len
    SADBXPOLICY_LEN _ h10 (fun hc => by simp only [hc, if_true])
  have key : ∀ N S : Nat, N % 65536 = S % 65536 → add16 N SADBMSG_LEN = (2 + S) % 65536 := by
    intro N S h
    unfold add16 SADBMSG_LEN
    omega
  refine (key _ _ h11).trans ?_
  congr 1
  simp only [Nat.zero_add, Nat.add_assoc]


/-! ## Length of the serialized message -/

/-- C2, at the failing input: for the empty message with `SetAuthKey` of a 20-byte key,
`setMsgLen` stores `Len = 5` (40 bytes), and `writeToBuffer` writes 44 bytes: the
16-byte header, the 8-byte key header and the 20 key bytes, without padding. -/
theorem writeToBuffer_length_key20 :
    (setMsgLen authKey20Msg).Msg.Len = 5
      ∧ (writeToBuffer (setMsgLen authKey20Msg) []).map List.length = .ok 44
      ∧ writeToBuffer (setMsgLen authKey20Msg) []
          = .ok ([2, 0, 0, 0, 5, 0, 0, 0, 0, 0, 0, 0, 0, 0, 0, 0,
                  3, 0, 8, 0, 160, 0, 0, 0] ++ key20) := by
  decide


/-! ## Canonical order of `writeToBuffer` -/

theorem writeIf_eq (c : Bool) (buf bytes : List Nat) :
    writeIf c buf bytes = buf ++ (if c = true then bytes else []) := by
  cases c <;> simp [writeIf, writeStruct]

theorem ite_append_ite (c : Bool) (a b : List Nat) :
    (if c = true then a else []) ++ (if c = true then b else [])
      = if c = true then a ++ b else [] := by
  cases c <;> simp

theorem ite_and_decide (c : Bool) (q : Prop) [Decidable q] (b : List Nat) :
    (if (c && decide q) = true then b else [])
      = if c = true then (if q then b else []) else [] := by
  cases c <;> simp

theorem writeToBuffer_layout (m : Msg) (hP : m.Present.Proposal = false)
    (hX : m.Present.XPolicy = false) :
    writeToBuffer m []
      = .ok (m.Msg.getBytes
          ++ (if m.Present.SA = true then m.Extensions.SA.getBytes else [])
          ++ (if m.Present.LifetimeCurrent = true then m.Extensions.LifetimeCurrent.getBytes
              else [])
          ++ (if m.Present.LifetimeHard = true then m.Extensions.LifetimeHard.getBytes else [])
          ++ (if m.Present.LifetimeSoft = true then m.Extensions.LifetimeSoft.getBytes else [])
          ++ (if m.Present.AddressSrc = true then
                m.Extensions.AddressSrc.getBytes ++ m.Extensions.SockAddrSrc.getBytes else [])
          ++ (if m.Present.AddressDst = true then
                m.Extensions.AddressDst.getBytes ++ m.Extensions.SockAddrDst.getBytes else [])
          ++ (if m.Present.AuthKey = true then
                m.Extensions.AuthKey.getBytes
                  ++ (if m.Extensions.AuthKey.Len > 1 then m.Extensions.AuthKeyBits else [])
              else [])
          ++ (if m.Present.EncryptKey = true then
                m.Extensions.EncryptKey.getBytes
                  ++ (if m.Extensions.EncryptKey.Len > 1 then m.Extensions.EncryptKeyBits else [])
              else [])
          ++ (if m.Present.SPIRange = true then m.Extensions.SPIRange.getBytes else [])) := by
  simp only [writeToBuffer, writeIf_eq, writeStruct, HasSA, HasLifetimeCurrent, HasLifetimeHard,
    HasLifetimeSoft, HasAddressSrc, HasAddressDst, HasAuthKey, HasEncryptKey, HasSPIRange,
    hP, hX, List.nil_append, ite_and_decide, Bool.false_eq_true, if_false]
  simp only [List.append_assoc, ← ite_append_ite]

theorem runCalls_cons (p : Msg) (c : SetterCall) (cs : List SetterCall) :
    runCalls p (c :: cs) = (c.run p).bind (fun q => runCalls q cs) := by
  rw [runCalls]
  cases h : c.run p with
  | error e => rfl
  | ok q => rfl

theorem buildSockAddr_cases (n : Node) :
    n.buildSockAddr = .error .panic ∨ ∃ s, n.buildSockAddr = .ok s := by
  unfold Node.buildSockAddr Node.AddrAsArray
  split
  · rename_i e h
    split at h
    · cases h
    · cases h; exact Or.inl rfl
  · exact Or.inr ⟨_, rfl⟩

theorem run_comm (p : Msg) (a b : SetterCall) (h : a.slot ≠ b.slot) :
    (a.run p).bind (fun q => b.run q) = (b.run p).bind (fun q => a.run q) := by
  cases a with
  | addressSrc n1 =>
    rcases buildSockAddr_cases n1 with h1 | ⟨s1, h1⟩ <;>
    cases b with
    | addressSrc n2 => exact absurd rfl h
    | addressDst n2 =>
      rcases buildSockAddr_cases n2 with h2 | ⟨s2, h2⟩ <;>
        simp only [SetterCall.run, SetAddressSrc, SetAddressDst, h1, h2, Except.bind]
    | _ =>
      simp only [SetterCall.run, SetAddressSrc, h1, Except.bind, SetSA, SetLifetimeCurrent,
        SetLifetimeHard, SetLifetimeSoft, SetAuthKey, SetEncryptKey, SetSPIRANGE]
  | addressDst n1 =>
    rcases buildSockAddr_cases n1 with h1 | ⟨s1, h1⟩ <;>
    cases b with
    | addressDst n2 => exact absurd rfl h
    | addressSrc n2 =>
      rcases buildSockAddr_cases n2 with h2 | ⟨s2, h2⟩ <;>
        simp only [SetterCall.run, SetAddressSrc, SetAddressDst, h1, h2, Except.bind]
    | _ =>
      simp only [SetterCall.run, SetAddressDst, h1, Except.bind, SetSA, SetLifetimeCurrent,
        SetLifetimeHard, SetLifetimeSoft, SetAuthKey, SetEncryptKey, SetSPIRANGE]
  | _ =>
    cases b with
    | addressSrc n2 =>
      rcases buildSockAddr_cases n2 with h2 | ⟨s2, h2⟩ <;>
        simp only [SetterCall.run, SetAddressSrc, h2, Except.bind, SetSA, SetLifetimeCurrent,
          SetLifetimeHard, SetLifetimeSoft, SetAuthKey, SetEncryptKey, SetSPIRANGE]
    | addressDst n2 =>
      rcases buildSockAddr_cases n2 with h2 | ⟨s2, h2⟩ <;>
        simp only [SetterCall.run, SetAddressDst, h2, Except.bind, SetSA, SetLifetimeCurrent,
          SetLifetimeHard, SetLifetimeSoft, SetAuthKey, SetEncryptKey, SetSPIRANGE]
    | _ =>
      first
      | exact absurd rfl h
      | rfl

theorem except_bind_assoc {α β γ : Type} (x : Except Err α) (f : α → Except Err β)
    (g : β → Except Err γ) :
    (x.bind f).bind g = x.bind (fun a => (f a).bind g) := by
  cases x <;> rfl

theorem runCalls_perm (cs cs1 : List SetterCall) (hperm : cs.Perm cs1) :
    (cs.map SetterCall.slot).Nodup → ∀ p : Msg, runCalls p cs = runCalls p cs1 := by
  induction hperm with
  | nil => intro _ p; rfl
  | cons c _ ih =>
    intro hnd p
    rw [List.map_cons, List.nodup_cons] at hnd
    rw [runCalls_cons, runCalls_cons]
    congr 1
    funext q
    exact ih hnd.2 q
  | swap a b l =>
    intro hnd p
    have hab : b.slot ≠ a.slot := by
      simp only [List.map_cons, List.nodup_cons, List.mem_cons, not_or] at hnd
      exact hnd.1.1
    have hc := run_comm p b a hab
    have e1 : runCalls p (b :: a :: l)
        = ((b.run p).bind (fun q => a.run q)).bind (fun r => runCalls r l) := by
      rw [runCalls_cons, except_bind_assoc]
      congr 1
      funext q
      rw [runCalls_cons]
    have e2 : runCalls p (a :: b :: l)
        = ((a.run p).bind (fun q => b.run q)).bind (fun r => runCalls r l) := by
      rw [runCalls_cons, except_bind_assoc]
      congr 1
      funext q
      rw [runCalls_cons]
    rw [e1, e2, hc]
  | trans h1 _ ih1 ih2 =>
    intro hnd p
    rw [ih1 hnd p]
    exact ih2 (((h1.map SetterCall.slot).nodup_iff).1 hnd) p

/-- C4, as stated, fails.  After `SetAuthKey` with the 3-byte key `[1, 2, 3]` the
KEY_AUTH extension is present with `Len = 1` and holds the three key bytes, and
`writeToBuffer` writes the base header and the 8-byte key header only (24 bytes): the
key bytes do not follow.  For a message in which PROPOSAL or X_POLICY is present
`writeToBuffer` ends in `simplelog.Fatal` and gives no bytes. -/
theorem writeToBuffer_short_key_header_only :
    (SetAuthKey {} [1, 2, 3] 24).Present.AuthKey = true
      ∧ (SetAuthKey {} [1, 2, 3] 24).Extensions.AuthKeyBits = [1, 2, 3]
      ∧ (SetAuthKey {} [1, 2, 3] 24).Extensions.AuthKey.Len = 1
      ∧ writeToBuffer (SetAuthKey {} [1, 2, 3] 24) []
          = .ok ([0, 0, 0, 0, 0, 0, 0, 0, 0, 0, 0, 0, 0, 0, 0, 0] ++ [1, 0, 8, 0, 24, 0, 0, 0])
      ∧ writeToBuffer (SetAuthKey {} [1, 2, 3] 24) []
          ≠ .ok ([0, 0, 0, 0, 0, 0, 0, 0, 0, 0, 0, 0, 0, 0, 0, 0] ++ [1, 0, 8, 0, 24, 0, 0, 0]
                  ++ [1, 2, 3])
      ∧ writeToBuffer { Present := { Proposal := true } } [] = .error .fatal
      ∧ writeToBuffer { Present := { XPolicy := true } } [] = .error .fatal := by
  decide

/-- C4, amended.  Canonical ordering.  For a message in which neither PROPOSAL nor
X_POLICY is present, the bytes `writeToBuffer` writes are the base header followed by the
encodings of the present extensions in the fixed order SA, LIFETIME_CURRENT,
LIFETIME_HARD, LIFETIME_SOFT, ADDRESS_SRC with its sockaddr, ADDRESS_DST with its
sockaddr, KEY_AUTH, KEY_ENCRYPT, SPIRANGE, a present key being its 8-byte header
followed by its key bytes only when its `Len` exceeds 1.  Hence setter calls, one per
extension, made in two different orders on the same message give the same bytes, with
and without `setMsgLen` before the serialization. -/
theorem writeToBuffer_canonical_order (m : Msg) (hP : m.Present.Proposal = false)
    (hX : m.Present.XPolicy = false) (p0 : Msg) (cs cs1 : List SetterCall)
    (hperm : cs.Perm cs1) (hnodup : (cs.map SetterCall.slot).Nodup) :
    writeToBuffer m []
        = .ok (m.Msg.getBytes
            ++ (if m.Present.SA = true then m.Extensions.SA.getBytes else [])
            ++ (if m.Present.LifetimeCurrent = true then m.Extensions.LifetimeCurrent.getBytes
                else [])
            ++ (if m.Present.LifetimeHard = true then m.Extensions.LifetimeHard.getBytes else [])
            ++ (if m.Present.LifetimeSoft = true then m.Extensions.LifetimeSoft.getBytes else [])
            ++ (if m.Present.AddressSrc = true then
                  m.Extensions.AddressSrc.getBytes ++ m.Extensions.SockAddrSrc.getBytes else [])
            ++ (if m.Present.AddressDst = true then
                  m.Extensions.AddressDst.getBytes ++ m.Extensions.SockAddrDst.getBytes else [])
            ++ (if m.Present.AuthKey = true then
                  m.Extensions.AuthKey.getBytes
                    ++ (if m.Extensions.AuthKey.Len > 1 then m.Extensions.AuthKeyBits else [])
                else [])
            ++ (if m.Present.EncryptKey = true then
                  m.Extensions.EncryptKey.getBytes
                    ++ (if m.Extensions.EncryptKey.Len > 1 then m.Extensions.EncryptKeyBits
                        else [])
                else [])
            ++ (if m.Present.SPIRange = true then m.Extensions.SPIRange.getBytes else []))
      ∧ (runCalls p0 cs).bind (fun q => writeToBuffer q [])
          = (runCalls p0 cs1).bind (fun q => writeToBuffer q [])
      ∧ serializeAfter p0 cs = serializeAfter p0 cs1 := by
  refine ⟨writeToBuffer_layout m hP hX, ?_, ?_⟩
  · rw [runCalls_perm cs cs1 hperm hnodup p0]
  · unfold serializeAfter
    rw [runCalls_perm cs cs1 hperm hnodup p0]

/-- The message with SPIRANGE set first and then `SetAuthKey` of an 8-byte key is written
as the header, the key header, the 8 key bytes, then the SPIRANGE; and three setter calls
made in two orders give the same 80 bytes, source address first. -/
theorem writeToBuffer_canonical_order_witness :
    writeToBuffer (SetAuthKey (SetSPIRANGE {} 10 20) key8 64) []
        = .ok ([0, 0, 0, 0, 0, 0, 0, 0, 0, 0, 0, 0, 0, 0, 0, 0]
                ++ [2, 0, 8, 0, 64, 0, 0, 0] ++ key8
                ++ [2, 0, 16, 0, 10, 0, 0, 0, 20, 0, 0, 0, 0, 0, 0, 0])
      ∧ serializeAfter {} [.spiRange 10 10000000, .addressDst { Addr := netIPv4 5 6 7 8 },
            .addressSrc { Addr := netIPv4 1 2 3 4 }]
          = serializeAfter {} [.addressSrc { Addr := netIPv4 1 2 3 4 },
              .addressDst { Addr := netIPv4 5 6 7 8 }, .spiRange 10 10000000]
      ∧ serializeAfter {} [.spiRange 10 10000000, .addressDst { Addr := netIPv4 5 6 7 8 },
            .addressSrc { Addr := netIPv4 1 2 3 4 }]
          = .ok ([2, 0, 0, 0, 10, 0, 0, 0, 0, 0, 0, 0, 0, 0, 0, 0]
                  ++ [3, 0, 5, 0, 0, 32, 0, 0] ++ [2, 0, 0, 0, 1, 2, 3, 4, 0, 0, 0, 0, 0, 0, 0, 0]
                  ++ [3, 0, 6, 0, 0, 32, 0, 0] ++ [2, 0, 0, 0, 5, 6, 7, 8, 0, 0, 0, 0, 0, 0, 0, 0]
                  ++ [2, 0, 16, 0, 10, 0, 0, 0, 128, 150, 152, 0, 0, 0, 0, 0]) :=
  have w := writeToBuffer_canonical_order (SetAuthKey (SetSPIRANGE {} 10 20) key8 64)
    (by decide) (by decide) {}
    [.spiRange 10 10000000, .addressDst { Addr := netIPv4 5 6 7 8 },
      .addressSrc { Addr := netIPv4 1 2 3 4 }]
    [.addressSrc { Addr := netIPv4 1 2 3 4 }, .addressDst { Addr := netIPv4 5 6 7 8 },
      .spiRange 10 10000000]
    (by decide) (by decide)
  ⟨w.1.trans (by decide), w.2.2, w.2.2.trans (by decide)⟩


/-! ## Codec lemmas -/

theorem readBytes_append (n : Nat) (bs rest : List Nat) (h : bs.length = n) (hn : 0 < n) :
    readBytes n (bs ++ rest) = .ok (bs, rest) := by
  unfold readBytes
  have hl : (bs ++ rest).length = n + rest.length := by rw [List.length_append, h]
  have h1 : ¬ (bs ++ rest).length = 0 := by omega
  have h2 : ¬ (bs ++ rest).length < n := by omega
  simp only [h1, h2, if_false]
  subst h
  simp

theorem u16_le16 (x : Nat) (h : x < 65536) : u16 (x % 256) (x / 256 % 256) = x := by
  unfold u16; omega

theorem u32_le32 (x : Nat) (h : x < 4294967296) :
    u32 (x % 256) (x / 256 % 256) (x / 65536 % 256) (x / 16777216 % 256) = x := by
  unfold u32; omega

theorem u64_le64 (x : Nat) (h : x < 18446744073709551616) :
    u64 (x % 256) (x / 256 % 256) (x / 65536 % 256) (x / 16777216 % 256)
      (x / 4294967296 % 256) (x / 1099511627776 % 256) (x / 281474976710656 % 256)
      (x / 72057594037927936 % 256) = x := by
  unfold u64; omega

theorem SADBMsg_ofBytes_getBytes (s : SADBMsg) (h : s.inRange) :
    SADBMsg.ofBytes s.getBytes = s := by
  obtain ⟨h1, h2, h3, h4, h5, h6, h7, h8⟩ := h
  cases s
  simp only [SADBMsg.getBytes, le16, le32, List.cons_append, List.nil_append, SADBMsg.ofBytes] at *
  simp only [u16_le16 _ h5, u16_le16 _ h6, u32_le32 _ h7, u32_le32 _ h8, Nat.mod_eq_of_lt h1,
    Nat.mod_eq_of_lt h2, Nat.mod_eq_of_lt h3, Nat.mod_eq_of_lt h4]

theorem SADBSA_ofBytes_getBytes (s : SADBSA) (h : s.inRange) :
    SADBSA.ofBytes s.getBytes = s := by
  obtain ⟨h1, h2, h3, h4, h5, h6, h7, h8⟩ := h
  cases s
  simp only [SADBSA.getBytes, le16, le32, List.cons_append, List.nil_append, SADBSA.ofBytes] at *
  simp only [u16_le16 _ h1, u16_le16 _ h2, u32_le32 _ h3, u32_le32 _ h8, Nat.mod_eq_of_lt h4,
    Nat.mod_eq_of_lt h5, Nat.mod_eq_of_lt h6, Nat.mod_eq_of_lt h7]

theorem SADBLifetime_ofBytes_getBytes (s : SADBLifetime) (h : s.inRange) :
    SADBLifetime.ofBytes s.getBytes = s := by
  obtain ⟨h1, h2, h3, h4, h5, h6⟩ := h
  cases s
  simp only [SADBLifetime.getBytes, le16, le32, le64, List.cons_append, List.nil_append,
    SADBLifetime.ofBytes] at *
  simp only [u16_le16 _ h1, u16_le16 _ h2, u32_le32 _ h3, u64_le64 _ h4, u64_le64 _ h5,
    u64_le64 _ h6]

theorem SADBMsg_length_getBytes (s : SADBMsg) : s.getBytes.length = 16 := by
  simp [SADBMsg.getBytes, le16, le32]

theorem SADBSA_length_getBytes (s : SADBSA) : s.getBytes.length = 16 := by
  simp [SADBSA.getBytes, le16, le32]

theorem SADBLifetime_length_getBytes (s : SADBLifetime) : s.getBytes.length = 32 := by
  simp [SADBLifetime.getBytes, le16, le32, le64]

theorem SADBAddress_length_getBytes (s : SADBAddress) : s.getBytes.length = 8 := by
  simp [SADBAddress.getBytes, le16]

theorem sockAddrIn_length_getBytes (s : sockAddrIn) : s.getBytes.length = 16 := by
  simp [sockAddrIn.getBytes, le16, le16i]

theorem readSADBExt_cons4 (slack l0 l1 t0 t1 : Nat) (rest : List Nat) :
    readSADBExt slack (l0 :: l1 :: t0 :: t1 :: rest)
      = .ok { Len := u16 l0 l1, Typ := u16 t0 t1 } := by
  simp [readSADBExt]


/-! ## One iteration of the parser on an encoded extension -/

theorem readExtensions_succ (slack fuel : Nat) (buf : List Nat) (msg : Msg)
    (r : Except Err Msg) (h : readExtensions slack fuel buf msg = some r) :
    readExtensions slack (fuel + 1) buf msg = some r := by
  induction fuel generalizing buf msg with
  | zero =>
    unfold readExtensions at h ⊢
    split at h
    · rename_i h0; simp only [h0, if_true]; exact h
    · cases h
  | succ k ih =>
    rw [readExtensions] at h
    rw [readExtensions]
    split
    · rename_i h0; simp only [h0, if_true] at h; exact h
    · rename_i h0
      simp only [h0, if_false] at h
      split
      · rename_i e he; simp only [he] at h; exact h
      · rename_i b1 m1 he
        simp only [he] at h
        exact ih _ _ h

theorem readExtensions_le (slack fuel fuel1 : Nat) (buf : List Nat) (msg : Msg)
    (r : Except Err Msg) (h : readExtensions slack fuel buf msg = some r) (hle : fuel ≤ fuel1) :
    readExtensions slack fuel1 buf msg = some r := by
  induction hle with
  | refl => exact h
  | step _ ih => exact readExtensions_succ _ _ _ _ _ ih

theorem readExtensions_step (slack fuel : Nat) (buf buf1 : List Nat) (msg msg1 : Msg)
    (r : Except Err Msg) (hne : buf.length ≠ 0)
    (hstep : readExtension slack buf msg = .ok (buf1, msg1))
    (h : readExtensions slack fuel buf1 msg1 = some r) :
    readExtensions slack (fuel + 1) buf msg = some r := by
  rw [readExtensions]
  simp only [hne, if_false, hstep]
  exact h

theorem readExtension_SA (slack : Nat) (rest : List Nat) (msg : Msg) (sa : SADBSA)
    (h : sa.inRange) (ht : sa.ExtType = SADB_EXT_SA) :
    readExtension slack (sa.getBytes ++ rest) msg = .ok (rest, SetSA msg sa) := by
  have hread : SADBSA.readFromBuffer (sa.getBytes ++ rest) = .ok (sa, rest) := by
    unfold SADBSA.readFromBuffer
    rw [readBytes_append 16 _ _ (SADBSA_length_getBytes sa) (by decide)]
    simp only [SADBSA_ofBytes_getBytes sa h]
  have hpeek : readSADBExt slack (sa.getBytes ++ rest)
      = .ok { Len := sa.Len, Typ := sa.ExtType } := by
    simp only [SADBSA.getBytes, le16, List.cons_append, List.nil_append, readSADBExt_cons4,
      u16_le16 _ h.1, u16_le16 _ h.2.1]
  unfold readExtension
  rw [hpeek]
  simp only [ht, hread, if_true]


theorem SADBLifetime_readFromBuffer_getBytes (lt : SADBLifetime) (h : lt.inRange)
    (rest : List Nat) :
    SADBLifetime.readFromBuffer (lt.getBytes ++ rest) = .ok (lt, rest) := by
  unfold SADBLifetime.readFromBuffer
  rw [readBytes_append 32 _ _ (SADBLifetime_length_getBytes lt) (by decide)]
  simp only [SADBLifetime_ofBytes_getBytes lt h]

theorem SADBLifetime_peek_getBytes (slack : Nat) (lt : SADBLifetime) (h : lt.inRange)
    (rest : List Nat) :
    readSADBExt slack (lt.getBytes ++ rest) = .ok { Len := lt.Len, Typ := lt.ExtType } := by
  simp only [SADBLifetime.getBytes, le16, List.cons_append, List.nil_append, readSADBExt_cons4,
    u16_le16 _ h.1, u16_le16 _ h.2.1]

theorem readExtension_LifetimeCurrent (slack : Nat) (rest : List Nat) (msg : Msg)
    (lt : SADBLifetime) (h : lt.inRange) (ht : lt.ExtType = SADB_EXT_LIFETIME_CURRENT) :
    readExtension slack (lt.getBytes ++ rest) msg = .ok (rest, SetLifetimeCurrent msg lt) := by
  unfold readExtension
  rw [SADBLifetime_peek_getBytes slack lt h rest]
  simp [ht, SADBLifetime_readFromBuffer_getBytes lt h rest, SADB_EXT_SA,
    SADB_EXT_LIFETIME_CURRENT, SADB_EXT_LIFETIME_HARD, SADB_EXT_LIFETIME_SOFT]

theorem readExtension_LifetimeHard (slack : Nat) (rest : List Nat) (msg : Msg)
    (lt : SADBLifetime) (h : lt.inRange) (ht : lt.ExtType = SADB_EXT_LIFETIME_HARD) :
    readExtension slack (lt.getBytes ++ rest) msg = .ok (rest, SetLifetimeHard msg lt) := by
  unfold readExtension
  rw [SADBLifetime_peek_getBytes slack lt h rest]
  simp [ht, SADBLifetime_readFromBuffer_getBytes lt h rest, SADB_EXT_SA,
    SADB_EXT_LIFETIME_CURRENT, SADB_EXT_LIFETIME_HARD, SADB_EXT_LIFETIME_SOFT]

theorem readExtension_LifetimeSoft (slack : Nat) (rest : List Nat) (msg : Msg)
    (lt : SADBLifetime) (h : lt.inRange) (ht : lt.ExtType = SADB_EXT_LIFETIME_SOFT) :
    readExtension slack (lt.getBytes ++ rest) msg = .ok (rest, SetLifetimeSoft msg lt) := by
  unfold readExtension
  rw [SADBLifetime_peek_getBytes slack lt h rest]
  simp [ht, SADBLifetime_readFromBuffer_getBytes lt h rest, SADB_EXT_SA,
    SADB_EXT_LIFETIME_CURRENT, SADB_EXT_LIFETIME_HARD, SADB_EXT_LIFETIME_SOFT]

theorem sockAddrIn_ofBytes_getBytes (s : sockAddrIn) (h : s.built) :
    sockAddrIn.ofBytes s.getBytes = s := by
  obtain ⟨fam, port, ⟨a, b, c, d⟩, z⟩ := s
  obtain ⟨h1, h2, h3, h4, h5, h6, h7⟩ := h
  simp only at h1 h2 h3 h4 h5 h6 h7
  subst h1 h7
  simp only [sockAddrIn.getBytes, le16i, le16, AF_INET, List.cons_append, List.nil_append,
    sockAddrIn.ofBytes]
  simp [i16, u16, u16_le16 _ h2, Nat.mod_eq_of_lt h3, Nat.mod_eq_of_lt h4, Nat.mod_eq_of_lt h5,
    Nat.mod_eq_of_lt h6]
  omega

theorem readNodeFromBuffer_getBytes (a : SADBAddress) (s : sockAddrIn) (hs : s.built)
    (rest : List Nat) :
    readNodeFromBuffer (a.getBytes ++ s.getBytes ++ rest)
      = .ok ({ Addr := netIPv4 s.SinAddr.1 s.SinAddr.2.1 s.SinAddr.2.2.1 s.SinAddr.2.2.2,
               Port := s.SinPort }, rest) := by
  unfold readNodeFromBuffer SADBAddress.readFromBuffer sockAddrIn.readFromBuffer
  rw [List.append_assoc, readBytes_append 8 _ _ (SADBAddress_length_getBytes a) (by decide)]
  simp only
  rw [readBytes_append 16 _ _ (sockAddrIn_length_getBytes s) (by decide)]
  simp only [sockAddrIn_ofBytes_getBytes s hs, sockAddrIn.BuildNode, hs.1, ne_eq,
    not_true_eq_false, if_false]


theorem readExtension_AddressSrc (slack : Nat) (rest : List Nat) (msg : Msg)
    (a : SADBAddress) (s : sockAddrIn)
    (ha : a = { Proto := 0, PrefixLen := 32, ExtType := SADB_EXT_ADDRESS_SRC,
                Len := SADBADDRESS_LEN + SOCKADDRIN_LEN })
    (hs : s.built) :
    readExtension slack (a.getBytes ++ s.getBytes ++ rest) msg
      = .ok (rest, { msg with
                     Extensions := { msg.Extensions with AddressSrc := a, SockAddrSrc := s }
                     Present := { msg.Present with AddressSrc := true } }) := by
  have hpeek : readSADBExt slack (a.getBytes ++ s.getBytes ++ rest)
      = .ok { Len := 3, Typ := 5 } := by
    subst ha
    simp [SADBAddress.getBytes, le16, readSADBExt_cons4, u16, SADB_EXT_ADDRESS_SRC,
      SADBADDRESS_LEN, SOCKADDRIN_LEN]
  have e1 : ¬ ((5 : Nat) = SADB_EXT_SA) := by decide
  have e2 : ¬ ((5 : Nat) = SADB_EXT_LIFETIME_HARD) := by decide
  have e3 : ¬ ((5 : Nat) = SADB_EXT_LIFETIME_SOFT) := by decide
  have e4 : ¬ ((5 : Nat) = SADB_EXT_LIFETIME_CURRENT) := by decide
  have e5 : (5 : Nat) = SADB_EXT_ADDRESS_SRC := by decide
  unfold readExtension
  rw [hpeek]
  simp only [e1, e2, e3, e4, ← e5, if_false, if_true]
  rw [readNodeFromBuffer_getBytes a s hs rest]
  obtain ⟨fam, port, ⟨a0, a1, a2, a3⟩, z⟩ := s
  obtain ⟨h1, h2, h3, h4, h5, h6, h7⟩ := hs
  simp only at h1 h2 h3 h4 h5 h6 h7
  subst h1 h7 ha
  simp [SetAddressSrc, Node.buildSockAddr, Node.AddrAsArray, netIPv4, ← e5]

theorem readExtension_AddressDst (slack : Nat) (rest : List Nat) (msg : Msg)
    (a : SADBAddress) (s : sockAddrIn)
    (ha : a = { Proto := 0, PrefixLen := 32, ExtType := SADB_EXT_ADDRESS_DST,
                Len := SADBADDRESS_LEN + SOCKADDRIN_LEN })
    (hs : s.built) :
    readExtension slack (a.getBytes ++ s.getBytes ++ rest) msg
      = .ok (rest, { msg with
                     Extensions := { msg.Extensions with AddressDst := a, SockAddrDst := s }
                     Present := { msg.Present with AddressDst := true } }) := by
  have hpeek : readSADBExt slack (a.getBytes ++ s.getBytes ++ rest)
      = .ok { Len := 3, Typ := 6 } := by
    subst ha
    simp [SADBAddress.getBytes, le16, readSADBExt_cons4, u16, SADB_EXT_ADDRESS_DST,
      SADBADDRESS_LEN, SOCKADDRIN_LEN]
  have e1 : ¬ ((6 : Nat) = SADB_EXT_SA) := by decide
  have e2 : ¬ ((6 : Nat) = SADB_EXT_LIFETIME_HARD) := by decide
  have e3 : ¬ ((6 : Nat) = SADB_EXT_LIFETIME_SOFT) := by decide
  have e4 : ¬ ((6 : Nat) = SADB_EXT_LIFETIME_CURRENT) := by decide
  have e5 : ¬ ((6 : Nat) = SADB_EXT_ADDRESS_SRC) := by decide
  have e6 : (6 : Nat) = SADB_EXT_ADDRESS_DST := by decide
  unfold readExtension
  rw [hpeek]
  simp only [e1, e2, e3, e4, e5, ← e6, if_false, if_true]
  rw [readNodeFromBuffer_getBytes a s hs rest]
  obtain ⟨fam, port, ⟨a0, a1, a2, a3⟩, z⟩ := s
  obtain ⟨h1, h2, h3, h4, h5, h6, h7⟩ := hs
  simp only at h1 h2 h3 h4 h5 h6 h7
  subst h1 h7 ha
  simp [SetAddressDst, Node.buildSockAddr, Node.AddrAsArray, netIPv4, ← e6]


/-! ## Round trip of the decodable extensions -/

theorem readExtensions_opt (slack k : Nat) (c : Bool) (enc rest : List Nat) (msg msg1 : Msg)
    (r : Except Err Msg) (hlen : 0 < enc.length)
    (hstep : c = true → readExtension slack (enc ++ rest) msg = .ok (rest, msg1))
    (h : readExtensions slack k rest (if c = true then msg1 else msg) = some r) :
    readExtensions slack (k + 1) ((if c = true then enc else []) ++ rest) msg = some r := by
  cases c with
  | false =>
    simp only [Bool.false_eq_true, if_false, List.nil_append] at h ⊢
    exact readExtensions_succ _ _ _ _ _ h
  | true =>
    simp only [if_true] at h ⊢
    refine readExtensions_step slack k _ rest msg msg1 r ?_ (hstep rfl) h
    rw [List.length_append]
    omega

theorem length_ite_le (c : Bool) (enc : List Nat) (n : Nat) (h : enc.length ≤ n) :
    (if c = true then enc else []).length ≤ n := by
  cases c <;> simp [h]

theorem DecodableForm_rebuild (m : Msg) (h : DecodableForm m) :
    (let m0 : Msg := { Msg := m.Msg }
     let m1 := if m.Present.SA = true then SetSA m0 m.Extensions.SA else m0
     let m2 := if m.Present.LifetimeCurrent = true then
       SetLifetimeCurrent m1 m.Extensions.LifetimeCurrent else m1
     let m3 := if m.Present.LifetimeHard = true then
       SetLifetimeHard m2 m.Extensions.LifetimeHard else m2
     let m4 := if m.Present.LifetimeSoft = true then
       SetLifetimeSoft m3 m.Extensions.LifetimeSoft else m3
     let m5 : Msg := if m.Present.AddressSrc = true then
       { m4 with
         Extensions := { m4.Extensions with
           AddressSrc := m.Extensions.AddressSrc, SockAddrSrc := m.Extensions.SockAddrSrc }
         Present := { m4.Present with AddressSrc := true } } else m4
     let m6 : Msg := if m.Present.AddressDst = true then
       { m5 with
         Extensions := { m5.Extensions with
           AddressDst := m.Extensions.AddressDst, SockAddrDst := m.Extensions.SockAddrDst }
         Present := { m5.Present with AddressDst := true } } else m5
     m6) = m := by
  obtain ⟨hdr, ⟨sa, lc, ls, lh, asrc, ssrc, adst, sdst, prop, combs, ak, akb, aalg, ek, ekb,
    ealg, spr, xp⟩, ⟨pSA, pLC, pLS, pLH, pSrc, pDst, pProp, pAK, pEK, pAA, pEA, pSPR, pXP⟩⟩ := m
  obtain ⟨_, hSA, hLC, hLH, hLS, hSrc, hDst, h1, h2, h3, h4, h5, h6, h7, h8, h9, h10, h11, h12,
    h13, h14, h15, h16, h17⟩ := h
  simp only at hSA hLC hLH hLS hSrc hDst h1 h2 h3 h4 h5 h6 h7 h8 h9 h10 h11 h12 h13 h14 h15 h16 h17
  subst h1 h2 h3 h4 h5 h6 h7 h8 h9 h10 h11 h12 h13 h14 h15 h16 h17
  cases sa
  cases lc
  cases lh
  cases ls
  cases pSA <;> cases pLC <;> cases pLH <;> cases pLS <;> cases pSrc <;> cases pDst <;>
    simp only [Bool.false_eq_true, if_false, if_true] at hSA hLC hLH hLS hSrc hDst ⊢ <;>
    simp_all [SetSA, SetLifetimeCurrent, SetLifetimeHard, SetLifetimeSoft]


theorem roundtrip_of_DecodableForm (m : Msg) (h : DecodableForm m) :
    ∃ bytes, writeToBuffer m [] = .ok bytes ∧ bytes.length ≤ 176
      ∧ readReply (.ok bytes) = some (.ok m) := by
  have hreb := DecodableForm_rebuild m h
  obtain ⟨hh, hSA, hLC, hLH, hLS, hSrc, hDst, -, -, -, -, -, -, -, -, -, -, hP, hAK, hEK, -, -,
    hSPR, hX⟩ := h
  have hlay := writeToBuffer_layout m hP hX
  simp only [hAK, hEK, hSPR, Bool.false_eq_true, if_false, List.append_nil,
    List.append_assoc] at hlay
  generalize hexts :
    ((if m.Present.SA = true then m.Extensions.SA.getBytes else []) ++
      ((if m.Present.LifetimeCurrent = true then m.Extensions.LifetimeCurrent.getBytes
          else []) ++
        ((if m.Present.LifetimeHard = true then m.Extensions.LifetimeHard.getBytes else []) ++
          ((if m.Present.LifetimeSoft = true then m.Extensions.LifetimeSoft.getBytes
              else []) ++
            ((if m.Present.AddressSrc = true then
                m.Extensions.AddressSrc.getBytes ++ m.Extensions.SockAddrSrc.getBytes
              else []) ++
              (if m.Present.AddressDst = true then
                m.Extensions.AddressDst.getBytes ++ m.Extensions.SockAddrDst.getBytes
              else [])))))) = exts at hlay
  have hel : exts.length ≤ 160 := by
    rw [← hexts]
    simp only [List.length_append]
    have l1 := length_ite_le m.Present.SA m.Extensions.SA.getBytes 16
      (le_of_eq (SADBSA_length_getBytes m.Extensions.SA))
    have l2 := length_ite_le m.Present.LifetimeCurrent m.Extensions.LifetimeCurrent.getBytes 32
      (le_of_eq (SADBLifetime_length_getBytes m.Extensions.LifetimeCurrent))
    have l3 := length_ite_le m.Present.LifetimeHard m.Extensions.LifetimeHard.getBytes 32
      (le_of_eq (SADBLifetime_length_getBytes m.Extensions.LifetimeHard))
    have l4 := length_ite_le m.Present.LifetimeSoft m.Extensions.LifetimeSoft.getBytes 32
      (le_of_eq (SADBLifetime_length_getBytes m.Extensions.LifetimeSoft))
    have l5 := length_ite_le m.Present.AddressSrc
      (m.Extensions.AddressSrc.getBytes ++ m.Extensions.SockAddrSrc.getBytes) 24
      (by simp [SADBAddress_length_getBytes, sockAddrIn_length_getBytes])
    have l6 := length_ite_le m.Present.AddressDst
      (m.Extensions.AddressDst.getBytes ++ m.Extensions.SockAddrDst.getBytes) 24
      (by simp [SADBAddress_length_getBytes, sockAddrIn_length_getBytes])
    omega
  have hloop : ∀ slack, readExtensions slack 6 exts { Msg := m.Msg } = some (.ok m) := by
    intro slack
    rw [← hexts]
    refine readExtensions_opt slack 5 _ _ _ _ (SetSA { Msg := m.Msg } m.Extensions.SA) _
      (by rw [SADBSA_length_getBytes]; decide)
      (fun hc => by
        rw [if_pos hc] at hSA
        exact readExtension_SA slack _ _ _ hSA.1 hSA.2.1) ?_
    refine readExtensions_opt slack 4 _ _ _ _ (SetLifetimeCurrent _ m.Extensions.LifetimeCurrent)
      _ (by rw [SADBLifetime_length_getBytes]; decide)
      (fun hc => by
        rw [if_pos hc] at hLC
        exact readExtension_LifetimeCurrent slack _ _ _ hLC.1 hLC.2.1) ?_
    refine readExtensions_opt slack 3 _ _ _ _ (SetLifetimeHard _ m.Extensions.LifetimeHard)
      _ (by rw [SADBLifetime_length_getBytes]; decide)
      (fun hc => by
        rw [if_pos hc] at hLH
        exact readExtension_LifetimeHard slack _ _ _ hLH.1 hLH.2.1) ?_
    refine readExtensions_opt slack 2 _ _ _ _ (SetLifetimeSoft _ m.Extensions.LifetimeSoft)
      _ (by rw [SADBLifetime_length_getBytes]; decide)
      (fun hc => by
        rw [if_pos hc] at hLS
        exact readExtension_LifetimeSoft slack _ _ _ hLS.1 hLS.2.1) ?_
    refine readExtensions_opt slack 1 _ _ _ _ _ _
      (by rw [List.length_append, SADBAddress_length_getBytes]; omega)
      (fun hc => by
        rw [if_pos hc] at hSrc
        exact readExtension_AddressSrc slack _ _ _ _ hSrc.1 hSrc.2) ?_
    have hnil : ∀ (x : List Nat), x = x ++ [] := fun x => (List.append_nil x).symm
    rw [hnil (if m.Present.AddressDst = true then _ else _)]
    refine readExtensions_opt slack 0 _ _ _ _ _ _
      (by rw [List.length_append, SADBAddress_length_getBytes]; omega)
      (fun hc => by
        rw [if_pos hc] at hDst
        exact readExtension_AddressDst slack _ _ _ _ hDst.1 hDst.2) ?_
    rw [readExtensions]
    simp only [List.length_nil, if_true]
    exact congrArg (fun x => some (Except.ok x)) hreb
  have hlen : (m.Msg.getBytes ++ exts).length = 16 + exts.length := by
    rw [List.length_append, SADBMsg_length_getBytes]
  have hhdr : SADBMsg.readFromBuffer (m.Msg.getBytes ++ exts) = .ok (m.Msg, exts) := by
    unfold SADBMsg.readFromBuffer
    rw [readBytes_append 16 _ _ (SADBMsg_length_getBytes m.Msg) (by decide)]
    simp only [SADBMsg_ofBytes_getBytes m.Msg hh]
  have htake : (m.Msg.getBytes ++ exts).take readBufSize = m.Msg.getBytes ++ exts :=
    List.take_of_length_le (by rw [hlen]; unfold readBufSize; omega)
  refine ⟨_, hlay, by rw [hlen]; omega, ?_⟩
  unfold readReply
  simp only [htake]
  unfold parseMsg
  rw [hhdr]
  simp only
  rw [readExtensions_le _ 6 _ _ _ _ (hloop _) (by rw [hlen]; omega)]
  simp [hP]


theorem DecodableForm_header (h : SADBMsg) (hh : h.inRange) : DecodableForm { Msg := h } := by
  unfold DecodableForm
  simp [hh]

theorem AddrAsArray_inRange (n : Node) (hn : n.inRange) (arr : Bytes4)
    (h : n.AddrAsArray = .ok arr) :
    arr.1 < 256 ∧ arr.2.1 < 256 ∧ arr.2.2.1 < 256 ∧ arr.2.2.2 < 256 := by
  unfold Node.AddrAsArray at h
  split at h
  · rename_i a b c d ha hb hc hd
    cases h
    exact ⟨hn.2 a (List.getElem?_mem ha), hn.2 b (List.getElem?_mem hb),
      hn.2 c (List.getElem?_mem hc), hn.2 d (List.getElem?_mem hd)⟩
  · cases h

theorem buildSockAddr_built (n : Node) (hn : n.inRange) (s : sockAddrIn)
    (h : n.buildSockAddr = .ok s) : s.built := by
  unfold Node.buildSockAddr at h
  split at h
  · cases h
  · rename_i arr harr
    cases h
    obtain ⟨h1, h2, h3, h4⟩ := AddrAsArray_inRange n hn arr harr
    exact ⟨rfl, hn.1, h1, h2, h3, h4, rfl⟩

theorem DecodableForm_run (p q : Msg) (c : SetterCall) (hp : DecodableForm p)
    (hc : c.decodable) (h : c.run p = .ok q) : DecodableForm q := by
  unfold DecodableForm at hp ⊢
  cases c with
  | sa v =>
    cases h
    obtain ⟨h1, h2, h3, h4, h5, h6, h7, h8⟩ := hc
    refine ⟨hp.1, ?_, hp.2.2⟩
    simp [SetSA, SADBSA.inRange, SADBSA_LEN, SADB_EXT_SA, h3, h4, h5, h6, h7, h8]
  | lifetimeCurrent lt =>
    cases h
    obtain ⟨h1, h2, h3, h4, h5, h6⟩ := hc
    refine ⟨hp.1, hp.2.1, ?_, hp.2.2.2⟩
    simp [SetLifetimeCurrent, SADBLifetime.inRange, SADBLIFETIME_LEN,
      SADB_EXT_LIFETIME_CURRENT, h3, h4, h5, h6]
  | lifetimeHard lt =>
    cases h
    obtain ⟨h1, h2, h3, h4, h5, h6⟩ := hc
    refine ⟨hp.1, hp.2.1, hp.2.2.1, ?_, hp.2.2.2.2⟩
    simp [SetLifetimeHard, SADBLifetime.inRange, SADBLIFETIME_LEN,
      SADB_EXT_LIFETIME_HARD, h3, h4, h5, h6]
  | lifetimeSoft lt =>
    cases h
    obtain ⟨h1, h2, h3, h4, h5, h6⟩ := hc
    refine ⟨hp.1, hp.2.1, hp.2.2.1, hp.2.2.2.1, ?_, hp.2.2.2.2.2⟩
    simp [SetLifetimeSoft, SADBLifetime.inRange, SADBLIFETIME_LEN,
      SADB_EXT_LIFETIME_SOFT, h3, h4, h5, h6]
  | addressSrc n =>
    simp only [SetterCall.run, SetAddressSrc] at h
    split at h
    · cases h
    · rename_i s hs
      cases h
      refine ⟨hp.1, hp.2.1, hp.2.2.1, hp.2.2.2.1, hp.2.2.2.2.1, ?_, hp.2.2.2.2.2.2⟩
      simp [buildSockAddr_built n hc s hs]
  | addressDst n =>
    simp only [SetterCall.run, SetAddressDst] at h
    split at h
    · cases h
    · rename_i s hs
      cases h
      refine ⟨hp.1, hp.2.1, hp.2.2.1, hp.2.2.2.1, hp.2.2.2.2.1, hp.2.2.2.2.2.1, ?_,
        hp.2.2.2.2.2.2.2⟩
      simp [buildSockAddr_built n hc s hs]
  | authKey k z => exact absurd hc (by simp [SetterCall.decodable])
  | encryptKey k z => exact absurd hc (by simp [SetterCall.decodable])
  | spiRange x y => exact absurd hc (by simp [SetterCall.decodable])

theorem DecodableForm_runCalls (cs : List SetterCall) :
    ∀ (p q : Msg), DecodableForm p → (∀ c ∈ cs, c.decodable) → runCalls p cs = .ok q →
      DecodableForm q := by
  induction cs with
  | nil =>
    intro p q hp _ h
    cases h
    exact hp
  | cons c cs ih =>
    intro p q hp hcs h
    rw [runCalls] at h
    split at h
    · cases h
    · rename_i p1 hrun
      exact ih p1 q (DecodableForm_run p p1 c hp (hcs c (List.mem_cons_self _ _)) hrun)
        (fun c1 hc1 => hcs c1 (List.mem_cons_of_mem _ hc1)) h

theorem DecodableForm_setMsgLen (m : Msg) (h : DecodableForm m) :
    DecodableForm (setMsgLen m) := by
  obtain ⟨hh, hrest⟩ := h
  have hP : m.Present.Proposal = false := hrest.2.2.2.2.2.2.2.2.2.2.2.2.2.2.2.2.1
  have hX : m.Present.XPolicy = false := hrest.2.2.2.2.2.2.2.2.2.2.2.2.2.2.2.2.2.2.2.2.2.2
  have e1 : (setMsgLen m).Extensions = m.Extensions := by
    simp [setMsgLen, hP, hX]
  have e2 : (setMsgLen m).Present = m.Present := rfl
  obtain ⟨g1, g2, g3, g4, g5, g6, g7, g8⟩ := hh
  unfold DecodableForm
  rw [e1, e2]
  refine ⟨⟨?_, g2, g3, g4, ?_, g6, g7, g8⟩, hrest⟩
  · show PF_KEY_V2 < 256
    decide
  · show add16 _ _ < 65536
    unfold add16
    exact Nat.mod_lt _ (by decide)

/-- C1, as stated, fails.  A message built with `SetEncryptKey` (or `SetAuthKey`) and
`setMsgLen` is serialized and parsed back without error, but the parsed message has no
key (the parser skips the key extensions); a message built with `SetSPIRANGE` is
serialized to bytes on which `ReadMsg` returns the error "unexpected extension 16". -/
theorem roundtrip_fails_keys_spirange :
    (reparse encryptKeyMsg = some (.ok { Msg := encryptKeyMsg.Msg })
        ∧ reparse encryptKeyMsg ≠ some (.ok encryptKeyMsg))
      ∧ (reparse authKeyMsg = some (.ok { Msg := authKeyMsg.Msg })
        ∧ reparse authKeyMsg ≠ some (.ok authKeyMsg))
      ∧ (reparse spiRangeMsg = some (.error (.unexpectedExtension 16))
        ∧ reparse spiRangeMsg ≠ some (.ok spiRangeMsg)) := by
  decide

/-- C1, amended.  For every message built from a message holding only a header (in
particular the empty `Msg`) with the setters `SetSA`, `SetLifetimeCurrent`,
`SetLifetimeSoft`, `SetLifetimeHard`, `SetAddressSrc` and `SetAddressDst`, called any
number of times in any order with arguments of their Go types, and then given its length
by `setMsgLen`: `writeToBuffer` succeeds, and `ReadMsg` on the bytes it produced succeeds
and returns a message equal to the one serialized (same header, same presence flags,
same extension slots). -/
theorem roundtrip_decodable_setters (h : SADBMsg) (cs : List SetterCall) (m : Msg)
    (rest : List SocketRead) (hh : h.inRange) (hcs : ∀ c ∈ cs, c.decodable)
    (hbuilt : runCalls { Msg := h } cs = .ok m) :
    reparse (setMsgLen m) = some (.ok (setMsgLen m))
      ∧ ∃ bytes, writeToBuffer (setMsgLen m) [] = .ok bytes
          ∧ ReadMsg { socket := .ok bytes :: rest }
              = some (.ok (setMsgLen m), { socket := rest }) := by
  have hform : DecodableForm (setMsgLen m) :=
    DecodableForm_setMsgLen m
      (DecodableForm_runCalls cs _ m (DecodableForm_header h hh) hcs hbuilt)
  obtain ⟨bytes, hw, _, hr⟩ := roundtrip_of_DecodableForm (setMsgLen m) hform
  refine ⟨?_, bytes, hw, ?_⟩
  · simp [reparse, hw, ReadMsg, hr]
  · simp [ReadMsg, hr]

theorem roundtrip_decodable_setters_witness :
    reparse (setMsgLen sampleBuilt) = some (.ok (setMsgLen sampleBuilt)) :=
  (roundtrip_decodable_setters {} sampleCalls sampleBuilt []
    (by unfold SADBMsg.inRange; decide)
    (by
      intro c hc
      simp only [sampleCalls, List.mem_cons, List.mem_singleton, List.not_mem_nil,
        or_false] at hc
      rcases hc with rfl | rfl | rfl | rfl | rfl <;>
        simp [SetterCall.decodable, SADBSA.inRange, SADBLifetime.inRange, Node.inRange, netIPv4])
    (by decide)).1

/-! ## What one iteration of the parser consumes -/

theorem readBytes_ok (n : Nat) (buf bs rest : List Nat) (h : readBytes n buf = .ok (bs, rest)) :
    bs = buf.take n ∧ rest = buf.drop n ∧ n ≤ buf.length ∧ buf.length ≠ 0 := by
  unfold readBytes at h
  split at h
  · cases h
  · split at h
    · cases h
    · cases h
      refine ⟨rfl, rfl, by omega, by assumption⟩

theorem SADBSA_read_ok (buf rest : List Nat) (v : SADBSA)
    (h : SADBSA.readFromBuffer buf = .ok (v, rest)) :
    rest = buf.drop 16 ∧ 16 ≤ buf.length := by
  unfold SADBSA.readFromBuffer at h
  split at h
  · cases h
  · rename_i bs r hb
    cases h
    exact ⟨(readBytes_ok _ _ _ _ hb).2.1, (readBytes_ok _ _ _ _ hb).2.2.1⟩

theorem SADBLifetime_read_ok (buf rest : List Nat) (v : SADBLifetime)
    (h : SADBLifetime.readFromBuffer buf = .ok (v, rest)) :
    rest = buf.drop 32 ∧ 32 ≤ buf.length := by
  unfold SADBLifetime.readFromBuffer at h
  split at h
  · cases h
  · rename_i bs r hb
    cases h
    exact ⟨(readBytes_ok _ _ _ _ hb).2.1, (readBytes_ok _ _ _ _ hb).2.2.1⟩

theorem SADBAddress_read_ok (buf rest : List Nat) (v : SADBAddress)
    (h : SADBAddress.readFromBuffer buf = .ok (v, rest)) :
    rest = buf.drop 8 ∧ 8 ≤ buf.length := by
  unfold SADBAddress.readFromBuffer at h
  split at h
  · cases h
  · rename_i bs r hb
    cases h
    exact ⟨(readBytes_ok _ _ _ _ hb).2.1, (readBytes_ok _ _ _ _ hb).2.2.1⟩

theorem sockAddrIn_read_ok (buf rest : List Nat) (v : sockAddrIn)
    (h : sockAddrIn.readFromBuffer buf = .ok (v, rest)) :
    rest = buf.drop 16 ∧ 16 ≤ buf.length := by
  unfold sockAddrIn.readFromBuffer at h
  split at h
  · cases h
  · rename_i bs r hb
    cases h
    exact ⟨(readBytes_ok _ _ _ _ hb).2.1, (readBytes_ok _ _ _ _ hb).2.2.1⟩

theorem SADBSupported_read_ok (buf rest : List Nat) (v : SADBSupported)
    (h : SADBSupported.readFromBuffer buf = .ok (v, rest)) :
    rest = buf.drop 8 ∧ 8 ≤ buf.length := by
  unfold SADBSupported.readFromBuffer at h
  split at h
  · cases h
  · rename_i bs r hb
    cases h
    exact ⟨(readBytes_ok _ _ _ _ hb).2.1, (readBytes_ok _ _ _ _ hb).2.2.1⟩

theorem SADBAlg_read_ok (buf rest : List Nat) (v : SADBAlg)
    (h : SADBAlg.readFromBuffer buf = .ok (v, rest)) :
    rest = buf.drop 8 ∧ 8 ≤ buf.length := by
  unfold SADBAlg.readFromBuffer at h
  split at h
  · cases h
  · rename_i bs r hb
    cases h
    exact ⟨(readBytes_ok _ _ _ _ hb).2.1, (readBytes_ok _ _ _ _ hb).2.2.1⟩

theorem SADBProp_read_ok (buf rest : List Nat) (v : SADBProp)
    (h : SADBProp.readFromBuffer buf = .ok (v, rest)) :
    rest = buf.drop 8 ∧ 8 ≤ buf.length := by
  unfold SADBProp.readFromBuffer at h
  split at h
  · cases h
  · rename_i bs r hb
    cases h
    exact ⟨(readBytes_ok _ _ _ _ hb).2.1, (readBytes_ok _ _ _ _ hb).2.2.1⟩

theorem SADBComb_read_ok (buf rest : List Nat) (v : SADBComb)
    (h : SADBComb.readFromBuffer buf = .ok (v, rest)) :
    rest = buf.drop 68 ∧ 68 ≤ buf.length := by
  unfold SADBComb.readFromBuffer at h
  split at h
  · cases h
  · rename_i bs r hb
    cases h
    exact ⟨(readBytes_ok _ _ _ _ hb).2.1, (readBytes_ok _ _ _ _ hb).2.2.1⟩

theorem SADBXPolicy_read_ok (buf rest : List Nat) (v : SADBXPolicy)
    (h : SADBXPolicy.readFromBuffer buf = .ok (v, rest)) :
    rest = buf.drop 16 ∧ 16 ≤ buf.length := by
  unfold SADBXPolicy.readFromBuffer at h
  split at h
  · cases h
  · rename_i bs r hb
    cases h
    exact ⟨(readBytes_ok _ _ _ _ hb).2.1, (readBytes_ok _ _ _ _ hb).2.2.1⟩

theorem readAlgs_ok (k : Nat) :
    ∀ (buf rest : List Nat) (acc algs : List SADBAlg),
      readAlgs k buf acc = .ok (algs, rest) → rest = buf.drop (8 * k) ∧ 8 * k ≤ buf.length := by
  induction k with
  | zero => intro buf rest acc algs h; cases h; simp
  | succ k ih =>
    intro buf rest acc algs h
    rw [readAlgs] at h
    split at h
    · cases h
    · rename_i alg b1 ha
      obtain ⟨h1, h2⟩ := SADBAlg_read_ok _ _ _ ha
      obtain ⟨h3, h4⟩ := ih _ _ _ _ h
      subst h1
      rw [List.length_drop] at h4
      refine ⟨?_, by omega⟩
      rw [h3, List.drop_drop]
      congr 1
      omega

theorem readCombs_ok (k : Nat) :
    ∀ (buf rest : List Nat) (acc combs : List SADBComb),
      readCombs k buf acc = .ok (combs, rest) →
        rest = buf.drop (68 * k) ∧ 68 * k ≤ buf.length := by
  induction k with
  | zero => intro buf rest acc algs h; cases h; simp
  | succ k ih =>
    intro buf rest acc algs h
    rw [readCombs] at h
    split at h
    · cases h
    · rename_i alg b1 ha
      obtain ⟨h1, h2⟩ := SADBComb_read_ok _ _ _ ha
      obtain ⟨h3, h4⟩ := ih _ _ _ _ h
      subst h1
      rw [List.length_drop] at h4
      refine ⟨?_, by omega⟩
      rw [h3, List.drop_drop]
      congr 1
      omega

theorem readNodeFromBuffer_ok (buf rest : List Nat) (n : Node)
    (h : readNodeFromBuffer buf = .ok (n, rest)) :
    rest = buf.drop 24 ∧ 24 ≤ buf.length := by
  unfold readNodeFromBuffer at h
  split at h
  · cases h
  · rename_i a b1 ha
    split at h
    · cases h
    · rename_i s b2 hs
      split at h
      · cases h
      · cases h
        obtain ⟨h1, h2⟩ := SADBAddress_read_ok _ _ _ ha
        obtain ⟨h3, h4⟩ := sockAddrIn_read_ok _ _ _ hs
        subst h1
        rw [List.length_drop] at h4
        refine ⟨?_, by omega⟩
        rw [h3, List.drop_drop]

theorem readAlgorithms_ok (buf rest : List Nat) (algs : List SADBAlg)
    (h : readAlgorithms buf = .ok (algs, rest)) :
    ∃ j, rest = buf.drop j ∧ j % 4 = 0 ∧ 0 < j := by
  unfold readAlgorithms at h
  split at h
  · cases h
  · rename_i s b1 hs
    obtain ⟨h1, h2⟩ := SADBSupported_read_ok _ _ _ hs
    obtain ⟨h3, h4⟩ := readAlgs_ok _ _ _ _ _ h
    subst h1
    refine ⟨8 + 8 * (s.Len - 1), ?_, by omega, by omega⟩
    rw [h3, List.drop_drop]

theorem readExtension_shape (slack : Nat) (buf buf1 : List Nat) (m m1 : Msg)
    (h : readExtension slack buf m = .ok (buf1, m1)) :
    ∃ j, buf1 = buf.drop j ∧ j % 4 = 0 ∧ (j = 0 → m1 = m) := by
  unfold readExtension at h
  split at h
  · cases h
  · rename_i ext hext
    by_cases c0 : ext.Typ = SADB_EXT_SA
    · rw [if_pos c0] at h
      split at h
      · cases h
      · rename_i v b hv
        cases h
        exact ⟨16, (SADBSA_read_ok _ _ _ hv).1, rfl, by omega⟩
    rw [if_neg c0] at h
    by_cases c1 : ext.Typ = SADB_EXT_LIFETIME_HARD
    · rw [if_pos c1] at h
      split at h
      · cases h
      · rename_i v b hv
        cases h
        exact ⟨32, (SADBLifetime_read_ok _ _ _ hv).1, rfl, by omega⟩
    rw [if_neg c1] at h
    by_cases c2 : ext.Typ = SADB_EXT_LIFETIME_SOFT
    · rw [if_pos c2] at h
      split at h
      · cases h
      · rename_i v b hv
        cases h
        exact ⟨32, (SADBLifetime_read_ok _ _ _ hv).1, rfl, by omega⟩
    rw [if_neg c2] at h
    by_cases c3 : ext.Typ = SADB_EXT_LIFETIME_CURRENT
    · rw [if_pos c3] at h
      split at h
      · cases h
      · rename_i v b hv
        cases h
        exact ⟨32, (SADBLifetime_read_ok _ _ _ hv).1, rfl, by omega⟩
    rw [if_neg c3] at h
    by_cases c4 : ext.Typ = SADB_EXT_ADDRESS_SRC
    · rw [if_pos c4] at h
      split at h
      · cases h
      · rename_i v b hv
        split at h
        · cases h
        · cases h
          exact ⟨24, (readNodeFromBuffer_ok _ _ _ hv).1, rfl, by omega⟩
    rw [if_neg c4] at h
    by_cases c5 : ext.Typ = SADB_EXT_ADDRESS_DST
    · rw [if_pos c5] at h
      split at h
      · cases h
      · rename_i v b hv
        split at h
        · cases h
        · cases h
          exact ⟨24, (readNodeFromBuffer_ok _ _ _ hv).1, rfl, by omega⟩
    rw [if_neg c5] at h
    by_cases c6 : ext.Typ = SADB_EXT_SUPPORTED_AUTH
    · rw [if_pos c6] at h
      split at h
      · cases h
      · rename_i v b hv
        cases h
        obtain ⟨j, h1, h2, h3⟩ := readAlgorithms_ok _ _ _ hv
        exact ⟨j, h1, h2, by omega⟩
    rw [if_neg c6] at h
    by_cases c7 : ext.Typ = SADB_EXT_SUPPORTED_ENCRYPT
    · rw [if_pos c7] at h
      split at h
      · cases h
      · rename_i v b hv
        cases h
        obtain ⟨j, h1, h2, h3⟩ := readAlgorithms_ok _ _ _ hv
        exact ⟨j, h1, h2, by omega⟩
    rw [if_neg c7] at h
    by_cases c8 : ext.Typ = SADB_EXT_PROPOSAL
    · rw [if_pos c8] at h
      split at h
      · cases h
      · rename_i v b hv
        split at h
        · cases h
        · rename_i cs b2 hc
          cases h
          obtain ⟨h1, h2⟩ := SADBProp_read_ok _ _ _ hv
          obtain ⟨h3, h4⟩ := readCombs_ok _ _ _ _ _ hc
          subst h1
          refine ⟨8 + 68 * (v.Len - 1), ?_, by omega, by omega⟩
          rw [h3, List.drop_drop]
    rw [if_neg c8] at h
    by_cases c9 : ext.Typ = SADB_EXT_ADDRESS_PROXY
    · rw [if_pos c9] at h
      cases h
      exact ⟨ext.Len * 8 % 65536, rfl, by omega, fun _ => rfl⟩
    rw [if_neg c9] at h
    by_cases c10 : ext.Typ = SADB_EXT_KEY_AUTH
    · rw [if_pos c10] at h
      cases h
      exact ⟨ext.Len * 8 % 65536, rfl, by omega, fun _ => rfl⟩
    rw [if_neg c10] at h
    by_cases c11 : ext.Typ = SADB_EXT_KEY_ENCRYPT
    · rw [if_pos c11] at h
      cases h
      exact ⟨ext.Len * 8 % 65536, rfl, by omega, fun _ => rfl⟩
    rw [if_neg c11] at h
    by_cases c12 : ext.Typ = SADB_X_EXT_SA2
    · rw [if_pos c12] at h
      cases h
      exact ⟨ext.Len * 8 % 65536, rfl, by omega, fun _ => rfl⟩
    rw [if_neg c12] at h
    by_cases c13 : ext.Typ = SADB_X_EXT_POLICY
    · rw [if_pos c13] at h
      split at h
      · cases h
      · rename_i v b hv
        cases h
        exact ⟨16, (SADBXPolicy_read_ok _ _ _ hv).1, rfl, by omega⟩
    rw [if_neg c13] at h
    cases h

/-! ## Enough iterations: the loop run to its end -/

theorem readExtensions_stuck (slack : Nat) (buf : List Nat) (m : Msg) (hne : buf.length ≠ 0)
    (hstep : readExtension slack buf m = .ok (buf, m)) (fuel : Nat) :
    readExtensions slack fuel buf m = none := by
  induction fuel with
  | zero => rw [readExtensions]; simp only [hne, if_false]
  | succ k ih => rw [readExtensions]; simp only [hne, if_false, hstep]; exact ih

theorem readExtensions_adequate (slack fuel : Nat) :
    ∀ (buf : List Nat) (m : Msg) (r : Except Err Msg),
      readExtensions slack fuel buf m = some r → runLoop slack buf m = some r := by
  induction fuel with
  | zero =>
    intro buf m r h
    rw [readExtensions] at h
    split at h
    · rename_i h0
      unfold runLoop
      rw [h0, readExtensions]
      simp only [h0, if_true]
      exact h
    · cases h
  | succ f ih =>
    intro buf m r h
    rw [readExtensions] at h
    split at h
    · rename_i h0
      unfold runLoop
      rw [h0, readExtensions]
      simp only [h0, if_true]
      exact h
    · rename_i h0
      unfold runLoop
      obtain ⟨k, hk⟩ : ∃ k, buf.length = k + 1 := ⟨buf.length - 1, by omega⟩
      rw [hk, readExtensions]
      simp only [h0, if_false]
      split at h
      · rename_i e he
        try simp only [he]
        exact h
      · rename_i b1 m1 he
        try simp only [he]
        obtain ⟨j, hj1, hj2, hj3⟩ := readExtension_shape _ _ _ _ _ he
        by_cases hj : j = 0
        · have hm := hj3 hj
          subst hj hm
          simp only [List.drop_zero] at hj1
          subst hj1
          rw [readExtensions_stuck slack b1 m1 h0 he f] at h
          cases h
        · have hlen : b1.length ≤ k := by
            rw [hj1, List.length_drop]
            omega
          exact readExtensions_le slack _ _ _ _ _ (ih _ _ _ h) hlen

theorem readExtensions_eq_runLoop (slack fuel : Nat) (buf : List Nat) (m : Msg)
    (h : buf.length ≤ fuel) : readExtensions slack fuel buf m = runLoop slack buf m := by
  cases hr : runLoop slack buf m with
  | some r => exact readExtensions_le slack _ _ _ _ _ hr h
  | none =>
    cases hf : readExtensions slack fuel buf m with
    | none => rfl
    | some r =>
      rw [readExtensions_adequate slack fuel buf m r hf] at hr
      cases hr

theorem runLoop_nil (slack : Nat) (m : Msg) : runLoop slack [] m = some (.ok m) := by
  unfold runLoop
  rw [List.length_nil, readExtensions]
  simp

theorem runLoop_error (slack : Nat) (buf : List Nat) (m : Msg) (e : Err)
    (hne : buf.length ≠ 0) (hstep : readExtension slack buf m = .error e) :
    runLoop slack buf m = some (.error e) := by
  unfold runLoop
  obtain ⟨k, hk⟩ : ∃ k, buf.length = k + 1 := ⟨buf.length - 1, by omega⟩
  rw [hk, readExtensions]
  simp only [hne, if_false, hstep]

theorem runLoop_step (slack : Nat) (buf buf1 : List Nat) (m m1 : Msg)
    (hne : buf.length ≠ 0) (hstep : readExtension slack buf m = .ok (buf1, m1)) :
    runLoop slack buf m = runLoop slack buf1 m1 := by
  obtain ⟨k, hk⟩ : ∃ k, buf.length = k + 1 := ⟨buf.length - 1, by omega⟩
  have h1 : runLoop slack buf m = readExtensions slack k buf1 m1 := by
    unfold runLoop
    rw [hk, readExtensions]
    simp only [hne, if_false, hstep]
  rw [h1]
  obtain ⟨j, hj1, hj2, hj3⟩ := readExtension_shape _ _ _ _ _ hstep
  by_cases hj : j = 0
  · have hm := hj3 hj
    subst hj hm
    simp only [List.drop_zero] at hj1
    subst hj1
    unfold runLoop
    rw [readExtensions_stuck slack _ _ hne hstep, readExtensions_stuck slack _ _ hne hstep]
  · exact readExtensions_eq_runLoop slack k buf1 m1 (by rw [hj1, List.length_drop]; omega)

theorem runLoop_congr (slack : Nat) (buf buf1 : List Nat) (m m1 : Msg)
    (hne : buf.length ≠ 0) (hne1 : buf1.length ≠ 0)
    (h : readExtension slack buf m = readExtension slack buf1 m1) :
    runLoop slack buf m = runLoop slack buf1 m1 := by
  cases hs : readExtension slack buf1 m1 with
  | error e =>
    rw [runLoop_error slack buf m e hne (h.trans hs), runLoop_error slack buf1 m1 e hne1 hs]
  | ok p =>
    obtain ⟨b2, m2⟩ := p
    rw [runLoop_step slack buf b2 m m2 hne (h.trans hs), runLoop_step slack buf1 b2 m1 m2 hne1 hs]

theorem parseMsg_eq_afterLoop (H buf : List Nat) (fuel : Nat) (hH : H.length = 16)
    (hf : buf.length ≤ fuel) :
    parseMsg fuel (H ++ buf)
      = afterLoop (16 + buf.length)
          (runLoop (readBufSize - (16 + buf.length)) buf { Msg := SADBMsg.ofBytes H }) := by
  unfold parseMsg SADBMsg.readFromBuffer
  rw [readBytes_append 16 H buf hH (by decide)]
  simp only [List.length_append, hH]
  rw [readExtensions_eq_runLoop _ fuel buf _ hf]
  unfold afterLoop
  rfl

theorem readReply_eq_afterLoop (H buf : List Nat) (hH : H.length = 16)
    (hn : 16 + buf.length ≤ readBufSize) :
    readReply (.ok (H ++ buf))
      = afterLoop (16 + buf.length)
          (runLoop (readBufSize - (16 + buf.length)) buf { Msg := SADBMsg.ofBytes H }) := by
  have hlen : (H ++ buf).length = 16 + buf.length := by rw [List.length_append, hH]
  have htake : (H ++ buf).take readBufSize = H ++ buf :=
    List.take_of_length_le (by rw [hlen]; exact hn)
  unfold readReply
  simp only [htake]
  exact parseMsg_eq_afterLoop H buf _ hH (by rw [hlen]; omega)

/-! ## The capacity behind the bytes received does not matter -/

theorem readSADBExt_slack (s1 s2 : Nat) (buf : List Nat) (hne : buf.length ≠ 0)
    (h1 : (buf.length + s1) % 4 = 0) (h2 : (buf.length + s2) % 4 = 0) :
    readSADBExt s1 buf = readSADBExt s2 buf := by
  unfold readSADBExt
  match buf, hne, h1, h2 with
  | [a], _, h1, h2 =>
    obtain ⟨t1, rfl⟩ : ∃ t, s1 = t + 3 := ⟨s1 - 3, by simp at h1; omega⟩
    obtain ⟨t2, rfl⟩ : ∃ t, s2 = t + 3 := ⟨s2 - 3, by simp at h2; omega⟩
    simp [List.replicate_succ]
  | [a, b], _, h1, h2 =>
    obtain ⟨t1, rfl⟩ : ∃ t, s1 = t + 2 := ⟨s1 - 2, by simp at h1; omega⟩
    obtain ⟨t2, rfl⟩ : ∃ t, s2 = t + 2 := ⟨s2 - 2, by simp at h2; omega⟩
    simp [List.replicate_succ]
  | [a, b, c], _, h1, h2 =>
    obtain ⟨t1, rfl⟩ : ∃ t, s1 = t + 1 := ⟨s1 - 1, by simp at h1; omega⟩
    obtain ⟨t2, rfl⟩ : ∃ t, s2 = t + 1 := ⟨s2 - 1, by simp at h2; omega⟩
    simp [List.replicate_succ]
  | a :: b :: c :: d :: rest, _, _, _ => simp

theorem readExtension_slack (s1 s2 : Nat) (buf : List Nat) (m : Msg) (hne : buf.length ≠ 0)
    (h1 : (buf.length + s1) % 4 = 0) (h2 : (buf.length + s2) % 4 = 0) :
    readExtension s1 buf m = readExtension s2 buf m := by
  unfold readExtension
  rw [readSADBExt_slack s1 s2 buf hne h1 h2]

theorem readExtensions_slack (s1 s2 fuel : Nat) :
    ∀ (buf : List Nat) (m : Msg), (buf.length + s1) % 4 = 0 → (buf.length + s2) % 4 = 0 →
      readExtensions s1 fuel buf m = readExtensions s2 fuel buf m := by
  induction fuel with
  | zero => intro buf m _ _; rw [readExtensions, readExtensions]
  | succ f ih =>
    intro buf m h1 h2
    rw [readExtensions, readExtensions]
    by_cases h0 : buf.length = 0
    · simp only [h0, if_true]
    · simp only [h0, if_false]
      rw [readExtension_slack s1 s2 buf m h0 h1 h2]
      cases hs : readExtension s2 buf m with
      | error e => rfl
      | ok p =>
        obtain ⟨b1, m1⟩ := p
        simp only
        obtain ⟨j, hj1, hj2, -⟩ := readExtension_shape _ _ _ _ _ hs
        by_cases hb : b1.length = 0
        · cases f with
          | zero => rw [readExtensions, readExtensions]
          | succ g =>
            rw [readExtensions, readExtensions]
            simp only [hb, if_true]
        · have hjl : j < buf.length := by
            rw [hj1, List.length_drop] at hb
            omega
          have hl : b1.length = buf.length - j := by rw [hj1, List.length_drop]
          exact ih b1 m1 (by rw [hl]; omega) (by rw [hl]; omega)

theorem runLoop_slack (s1 s2 : Nat) (buf : List Nat) (m : Msg)
    (h1 : (buf.length + s1) % 4 = 0) (h2 : (buf.length + s2) % 4 = 0) :
    runLoop s1 buf m = runLoop s2 buf m :=
  readExtensions_slack s1 s2 _ buf m h1 h2

/-! ## The header is carried through the extension loop untouched -/

theorem readExtension_header (slack : Nat) (buf : List Nat) (m : Msg) (h1 : SADBMsg) :
    readExtension slack buf { m with Msg := h1 }
      = (readExtension slack buf m).map (fun p => (p.1, { p.2 with Msg := h1 })) := by
  unfold readExtension
  cases readSADBExt slack buf with
  | error e => rfl
  | ok ext =>
    simp only
    by_cases c0 : ext.Typ = SADB_EXT_SA
    · rw [if_pos c0, if_pos c0]
      cases SADBSA.readFromBuffer buf <;> rfl
    rw [if_neg c0, if_neg c0]
    by_cases c1 : ext.Typ = SADB_EXT_LIFETIME_HARD
    · rw [if_pos c1, if_pos c1]
      cases SADBLifetime.readFromBuffer buf <;> rfl
    rw [if_neg c1, if_neg c1]
    by_cases c2 : ext.Typ = SADB_EXT_LIFETIME_SOFT
    · rw [if_pos c2, if_pos c2]
      cases SADBLifetime.readFromBuffer buf <;> rfl
    rw [if_neg c2, if_neg c2]
    by_cases c3 : ext.Typ = SADB_EXT_LIFETIME_CURRENT
    · rw [if_pos c3, if_pos c3]
      cases SADBLifetime.readFromBuffer buf <;> rfl
    rw [if_neg c3, if_neg c3]
    by_cases c4 : ext.Typ = SADB_EXT_ADDRESS_SRC
    · rw [if_pos c4, if_pos c4]
      cases readNodeFromBuffer buf with
      | error e => rfl
      | ok q =>
        obtain ⟨node, b⟩ := q
        simp only [SetAddressSrc]
        cases node.buildSockAddr <;> rfl
    rw [if_neg c4, if_neg c4]
    by_cases c5 : ext.Typ = SADB_EXT_ADDRESS_DST
    · rw [if_pos c5, if_pos c5]
      cases readNodeFromBuffer buf with
      | error e => rfl
      | ok q =>
        obtain ⟨node, b⟩ := q
        simp only [SetAddressDst]
        cases node.buildSockAddr <;> rfl
    rw [if_neg c5, if_neg c5]
    by_cases c6 : ext.Typ = SADB_EXT_SUPPORTED_AUTH
    · rw [if_pos c6, if_pos c6]
      cases readAlgorithms buf <;> rfl
    rw [if_neg c6, if_neg c6]
    by_cases c7 : ext.Typ = SADB_EXT_SUPPORTED_ENCRYPT
    · rw [if_pos c7, if_pos c7]
      cases readAlgorithms buf <;> rfl
    rw [if_neg c7, if_neg c7]
    by_cases c8 : ext.Typ = SADB_EXT_PROPOSAL
    · rw [if_pos c8, if_pos c8]
      cases SADBProp.readFromBuffer buf with
      | error e => rfl
      | ok q =>
        obtain ⟨prop, b⟩ := q
        simp only
        cases readProposals b prop.Len <;> rfl
    rw [if_neg c8, if_neg c8]
    by_cases c9 : ext.Typ = SADB_EXT_ADDRESS_PROXY
    · rw [if_pos c9, if_pos c9]
      rfl
    rw [if_neg c9, if_neg c9]
    by_cases c10 : ext.Typ = SADB_EXT_KEY_AUTH
    · rw [if_pos c10, if_pos c10]
      rfl
    rw [if_neg c10, if_neg c10]
    by_cases c11 : ext.Typ = SADB_EXT_KEY_ENCRYPT
    · rw [if_pos c11, if_pos c11]
      rfl
    rw [if_neg c11, if_neg c11]
    by_cases c12 : ext.Typ = SADB_X_EXT_SA2
    · rw [if_pos c12, if_pos c12]
      rfl
    rw [if_neg c12, if_neg c12]
    by_cases c13 : ext.Typ = SADB_X_EXT_POLICY
    · rw [if_pos c13, if_pos c13]
      cases SADBXPolicy.readFromBuffer buf <;> rfl
    rw [if_neg c13, if_neg c13]
    rfl

theorem readExtensions_header (slack fuel : Nat) (h1 : SADBMsg) :
    ∀ (buf : List Nat) (m : Msg),
      readExtensions slack fuel buf { m with Msg := h1 }
        = (readExtensions slack fuel buf m).map
            (fun r => r.map (fun x => { x with Msg := h1 })) := by
  induction fuel with
  | zero =>
    intro buf m
    rw [readExtensions, readExtensions]
    split <;> rfl
  | succ f ih =>
    intro buf m
    rw [readExtensions, readExtensions]
    split
    · rfl
    · rw [readExtension_header]
      cases readExtension slack buf m with
      | error e => rfl
      | ok p =>
        obtain ⟨b, x⟩ := p
        exact ih b x

/-! ## Reads shorter than the base header -/

/-- C11: `ReadMsg` on an empty read fails with `io.EOF`, and on every read of `n` bytes
with `0 < n < 16` fails with `io.ErrUnexpectedEOF`; the read is taken off the socket. -/
theorem ReadMsg_garbage (bytes : List Nat) (rest : List SocketRead)
    (h0 : 0 < bytes.length) (h16 : bytes.length < 16) :
    ReadMsg { socket := .ok [] :: rest } = some (.error .EOF, { socket := rest })
    ∧ ReadMsg { socket := .ok bytes :: rest }
        = some (.error .ErrUnexpectedEOF, { socket := rest }) := by
  constructor
  · rfl
  · have hl : (bytes.take readBufSize).length = bytes.length := by
      rw [List.length_take]; unfold readBufSize; omega
    have hp : parseMsg (bytes.take readBufSize).length (bytes.take readBufSize)
        = some (.error .ErrUnexpectedEOF) := by
      unfold parseMsg SADBMsg.readFromBuffer readBytes
      rw [hl, if_neg (by omega), if_pos h16]
    simp only [ReadMsg, readReply, hp]

/-- The 6 bytes of `TestReceiveGarbageMsg` give `io.ErrUnexpectedEOF`, the empty read
`io.EOF`. -/
theorem ReadMsg_garbage_witness :
    ReadMsg { socket := [.ok []] } = some (.error .EOF, { socket := [] })
    ∧ ReadMsg { socket := [.ok [1, 23, 4, 5, 6, 7]] }
        = some (.error .ErrUnexpectedEOF, { socket := [] }) :=
  ReadMsg_garbage [1, 23, 4, 5, 6, 7] [] (by decide) (by decide)

/-! ## The version byte on receive -/

/-- C12: on the 16-byte header with version byte 3 of the test case `invalid_version`,
`ReadMsg` returns no error but a parsed message whose header has `Version = 3`. -/
theorem ReadMsg_accepts_version_3 :
    ReadMsg { socket := [.ok invalidVersionBytes] }
      = some (.ok { Msg := { Version := 3, Len := 512 } }, { socket := [] }) := by
  decide

/-! ## `ReadMsg` on a message whose first extensions are whole -/

theorem ReadMsg_cons (r : SocketRead) (rest : List SocketRead) :
    ReadMsg { socket := r :: rest }
      = (readReply r).map (fun res => (res, { socket := rest })) := by
  show (match readReply r with
    | none => none
    | some res => some (res, ({ socket := rest } : PFKEY))) = _
  cases readReply r <;> rfl

theorem ConsumedWhole_nil (m : Msg) : ConsumedWhole [] m m :=
  fun _ _ => rfl

theorem ConsumedWhole_of_step (A : List Nat) (m m1 : Msg) (hne : A ≠ [])
    (h : ∀ (slack : Nat) (tail : List Nat), readExtension slack (A ++ tail) m = .ok (tail, m1)) :
    ConsumedWhole A m m1 := by
  intro slack tail
  refine runLoop_step slack (A ++ tail) tail m m1 ?_ (h slack tail)
  rw [List.length_append]
  have : A.length ≠ 0 := fun h0 => hne (List.length_eq_zero.mp h0)
  omega

theorem ConsumedWhole_append (A B : List Nat) (m m1 m2 : Msg)
    (hA : ConsumedWhole A m m1) (hB : ConsumedWhole B m1 m2) :
    ConsumedWhole (A ++ B) m m2 := by
  intro slack tail
  rw [List.append_assoc, hA slack (B ++ tail), hB slack tail]

theorem readReply_after_whole (H A X : List Nat) (m1 : Msg) (hH : H.length = 16)
    (hA : ConsumedWhole A { Msg := SADBMsg.ofBytes H } m1)
    (hn : 16 + A.length + X.length ≤ readBufSize) :
    readReply (.ok (H ++ A ++ X))
      = afterLoop (16 + A.length + X.length)
          (runLoop (readBufSize - (16 + A.length + X.length)) X m1) := by
  rw [List.append_assoc, readReply_eq_afterLoop H (A ++ X) hH
    (by rw [List.length_append]; omega), List.length_append, hA, Nat.add_assoc]


/-! ## The declared length of the base header -/

theorem readExtensions_keeps_header (slack fuel : Nat) (buf : List Nat) (m x : Msg)
    (h : readExtensions slack fuel buf m = some (.ok x)) : x.Msg = m.Msg := by
  have e := readExtensions_header slack fuel m.Msg buf m
  have hm : ({ m with Msg := m.Msg } : Msg) = m := rfl
  rw [hm, h] at e
  simp only [Option.map_some', Except.map, Option.some.injEq, Except.ok.injEq] at e
  rw [e]

theorem parseMsg_header (fuel : Nat) (H K D : List Nat) (hH : H.length = 16)
    (hK : K.length = 16) :
    parseMsg fuel (H ++ D)
      = (parseMsg fuel (K ++ D)).map
          (fun r => r.map (fun x => { x with Msg := SADBMsg.ofBytes H })) := by
  unfold parseMsg SADBMsg.readFromBuffer
  rw [readBytes_append 16 H D hH (by decide), readBytes_append 16 K D hK (by decide)]
  simp only [List.length_append, hH, hK]
  have e := readExtensions_header (readBufSize - (16 + D.length)) fuel (SADBMsg.ofBytes H) D
    { Msg := SADBMsg.ofBytes K }
  have hm : ({ ({ Msg := SADBMsg.ofBytes K } : Msg) with Msg := SADBMsg.ofBytes H } : Msg)
      = { Msg := SADBMsg.ofBytes H } := rfl
  rw [hm] at e
  rw [e]
  cases readExtensions (readBufSize - (16 + D.length)) fuel D { Msg := SADBMsg.ofBytes K } with
  | none => rfl
  | some r =>
    cases r with
    | error err => rfl
    | ok x =>
      simp only [Option.map_some', Except.map]
      split <;> rfl

theorem parseMsg_keeps_header (fuel : Nat) (K D : List Nat) (x : Msg) (hK : K.length = 16)
    (hp : parseMsg fuel (K ++ D) = some (.ok x)) : x.Msg = SADBMsg.ofBytes K := by
  unfold parseMsg SADBMsg.readFromBuffer at hp
  rw [readBytes_append 16 K D hK (by decide)] at hp
  simp only at hp
  split at hp
  · cases hp
  · cases hp
  · rename_i y hy
    have hk := readExtensions_keeps_header _ _ _ _ _ hy
    split at hp
    · cases hp
    · cases hp
      exact hk

theorem take_header_append (H body : List Nat) (hH : H.length = 16) :
    (H ++ body).take readBufSize = H ++ body.take (readBufSize - 16) := by
  rw [List.take_append_eq_append_take, List.take_of_length_le (by rw [hH]; decide), hH]

theorem readReply_header (H K body : List Nat) (hH : H.length = 16) (hK : K.length = 16) :
    readReply (.ok (H ++ body))
      = (readReply (.ok (K ++ body))).map
          (fun r => r.map (fun x => { x with Msg := SADBMsg.ofBytes H })) := by
  unfold readReply
  simp only [take_header_append H body hH, take_header_append K body hK]
  have hl : (H ++ body.take (readBufSize - 16)).length
      = (K ++ body.take (readBufSize - 16)).length := by
    rw [List.length_append, List.length_append, hH, hK]
  rw [hl]
  exact parseMsg_header _ H K _ hH hK

theorem readReply_keeps_header (K body : List Nat) (x : Msg) (hK : K.length = 16)
    (hp : readReply (.ok (K ++ body)) = some (.ok x)) : x.Msg = SADBMsg.ofBytes K := by
  unfold readReply at hp
  simp only [take_header_append K body hK] at hp
  exact parseMsg_keeps_header _ K _ x hK hp

/-- C13, at the failing input: the header of the 32-byte message `trailingSABytes`
declares 2 words (16 bytes); `ReadMsg` parses the SA extension that follows the declared
end, and on the message truncated to its first 16 bytes it returns a message without SA. -/
theorem ReadMsg_parses_past_declared_end :
    (SADBMsg.ofBytes (trailingSABytes.take 16)).Len * 8 = 16
      ∧ ReadMsg { socket := [.ok trailingSABytes] } = some (.ok (saOnlyMsg 2), { socket := [] })
      ∧ ReadMsg { socket := [.ok (trailingSABytes.take 16)] }
          = some (.ok { Msg := (saOnlyMsg 2).Msg }, { socket := [] })
      ∧ ReadMsg { socket := [.ok trailingSABytes] }
          ≠ ReadMsg { socket := [.ok (trailingSABytes.take 16)] } := by
  decide

/-- `ReadMsg` does not consult the length the base header declares: it parses the bytes
received to their end, and its result is the same for every value of the two length
bytes of the header, except that the header of the returned message carries the value
received. -/
theorem ReadMsg_ignores_declared_length
    (v t e s l0 l1 k0 k1 r0 r1 q0 q1 q2 q3 p0 p1 p2 p3 : Nat) (body : List Nat)
    (rest : List SocketRead) :
    ReadMsg
        { socket :=
            .ok ([v, t, e, s, l0, l1, r0, r1, q0, q1, q2, q3, p0, p1, p2, p3] ++ body) :: rest }
      = (ReadMsg
          { socket :=
              .ok ([v, t, e, s, k0, k1, r0, r1, q0, q1, q2, q3, p0, p1, p2, p3] ++ body)
                :: rest }).map
          (fun r =>
            (r.1.map (fun x => { x with Msg := { x.Msg with Len := u16 l0 l1 } }), r.2)) := by
  rw [ReadMsg_cons, ReadMsg_cons,
    readReply_header [v, t, e, s, l0, l1, r0, r1, q0, q1, q2, q3, p0, p1, p2, p3]
      [v, t, e, s, k0, k1, r0, r1, q0, q1, q2, q3, p0, p1, p2, p3] body rfl rfl]
  cases hp : readReply
      (.ok ([v, t, e, s, k0, k1, r0, r1, q0, q1, q2, q3, p0, p1, p2, p3] ++ body)) with
  | none => rfl
  | some r =>
    cases r with
    | error err => rfl
    | ok x =>
      have hx := readReply_keeps_header
        [v, t, e, s, k0, k1, r0, r1, q0, q1, q2, q3, p0, p1, p2, p3] body x rfl hp
      simp only [Option.map_some', Except.map]
      rw [hx]
      rfl

/-! ## The declared length of a decoded fixed-size extension is not consulted -/

theorem SetSA_ofBytes_len (m : Msg) (l0 l1 k0 k1 : Nat) (xs : List Nat) :
    SetSA m (SADBSA.ofBytes (l0 :: l1 :: xs)) = SetSA m (SADBSA.ofBytes (k0 :: k1 :: xs)) := by
  rcases xs with _ | ⟨_, _ | ⟨_, _ | ⟨_, _ | ⟨_, _ | ⟨_, _ | ⟨_, _ | ⟨_, _ | ⟨_, _ | ⟨_, _ | ⟨_, _ | ⟨_, _ | ⟨_, _ | ⟨_, _ | ⟨_, _ | ⟨_, _⟩⟩⟩⟩⟩⟩⟩⟩⟩⟩⟩⟩⟩⟩⟩ <;> rfl

theorem SADBLifetime_ofBytes_len (l0 l1 k0 k1 : Nat) (xs : List Nat) :
    { SADBLifetime.ofBytes (l0 :: l1 :: xs) with Len := SADBLIFETIME_LEN }
      = { SADBLifetime.ofBytes (k0 :: k1 :: xs) with Len := SADBLIFETIME_LEN } := by
  rcases xs with _ | ⟨_, _ | ⟨_, _ | ⟨_, _ | ⟨_, _ | ⟨_, _ | ⟨_, _ | ⟨_, _ | ⟨_, _ | ⟨_, _ | ⟨_, _ | ⟨_, _ | ⟨_, _ | ⟨_, _ | ⟨_, _ | ⟨_, _ | ⟨_, _ | ⟨_, _ | ⟨_, _ | ⟨_, _ | ⟨_, _ | ⟨_, _ | ⟨_, _ | ⟨_, _ | ⟨_, _ | ⟨_, _ | ⟨_, _ | ⟨_, _ | ⟨_, _ | ⟨_, _ | ⟨_, _ | ⟨_, _⟩⟩⟩⟩⟩⟩⟩⟩⟩⟩⟩⟩⟩⟩⟩⟩⟩⟩⟩⟩⟩⟩⟩⟩⟩⟩⟩⟩⟩⟩⟩ <;> rfl

theorem readBytes_cons2 (n l0 l1 : Nat) (xs : List Nat) :
    readBytes (n + 2) (l0 :: l1 :: xs)
      = (if xs.length < n then .error .ErrUnexpectedEOF
         else .ok (l0 :: l1 :: xs.take n, xs.drop n)) := by
  unfold readBytes
  simp only [List.length_cons, Nat.add_one_ne_zero, if_false, Nat.add_lt_add_iff_right,
    List.take_succ_cons, List.drop_succ_cons]

theorem SADBSA_step_len (m : Msg) (l0 l1 k0 k1 : Nat) (xs : List Nat) :
    (match SADBSA.readFromBuffer (l0 :: l1 :: xs) with
      | .error e => (.error e : Except Err (List Nat × Msg))
      | .ok (newSA, buf) => .ok (buf, SetSA m newSA))
    = (match SADBSA.readFromBuffer (k0 :: k1 :: xs) with
      | .error e => .error e
      | .ok (newSA, buf) => .ok (buf, SetSA m newSA)) := by
  unfold SADBSA.readFromBuffer
  rw [readBytes_cons2 14 l0 l1, readBytes_cons2 14 k0 k1]
  by_cases hx : xs.length < 14
  · rw [if_pos hx, if_pos hx]
  · rw [if_neg hx, if_neg hx]
    simp only [SetSA_ofBytes_len m l0 l1 k0 k1]

theorem SADBLifetime_step_len (f : SADBLifetime → Msg) (l0 l1 k0 k1 : Nat) (xs : List Nat)
    (hf : ∀ a b : SADBLifetime,
      { a with Len := SADBLIFETIME_LEN } = { b with Len := SADBLIFETIME_LEN } → f a = f b) :
    (match SADBLifetime.readFromBuffer (l0 :: l1 :: xs) with
      | .error e => (.error e : Except Err (List Nat × Msg))
      | .ok (newLT, buf) => .ok (buf, f newLT))
    = (match SADBLifetime.readFromBuffer (k0 :: k1 :: xs) with
      | .error e => .error e
      | .ok (newLT, buf) => .ok (buf, f newLT)) := by
  unfold SADBLifetime.readFromBuffer
  rw [readBytes_cons2 30 l0 l1, readBytes_cons2 30 k0 k1]
  by_cases hx : xs.length < 30
  · rw [if_pos hx, if_pos hx]
  · rw [if_neg hx, if_neg hx]
    simp only [hf _ _ (SADBLifetime_ofBytes_len l0 l1 k0 k1 (xs.take 30))]

theorem readNodeFromBuffer_len (l0 l1 k0 k1 : Nat) (xs : List Nat) :
    readNodeFromBuffer (l0 :: l1 :: xs) = readNodeFromBuffer (k0 :: k1 :: xs) := by
  unfold readNodeFromBuffer SADBAddress.readFromBuffer
  rw [readBytes_cons2 6 l0 l1, readBytes_cons2 6 k0 k1]
  by_cases hx : xs.length < 6
  · rw [if_pos hx, if_pos hx]
  · rw [if_neg hx, if_neg hx]

theorem SetLifetime_len_irrelevant (m : Msg) (a b : SADBLifetime)
    (h : { a with Len := SADBLIFETIME_LEN } = { b with Len := SADBLIFETIME_LEN }) :
    SetLifetimeHard m a = SetLifetimeHard m b ∧ SetLifetimeSoft m a = SetLifetimeSoft m b
      ∧ SetLifetimeCurrent m a = SetLifetimeCurrent m b := by
  obtain ⟨a1, a2, a3, a4, a5, a6⟩ := a
  obtain ⟨b1, b2, b3, b4, b5, b6⟩ := b
  simp only [SADBLifetime.mk.injEq] at h
  obtain ⟨-, h2, h3, h4, h5, h6⟩ := h
  subst h2 h3 h4 h5 h6
  exact ⟨rfl, rfl, rfl⟩

theorem readExtension_len (slack l0 l1 k0 k1 t0 t1 : Nat) (tail : List Nat) (m : Msg)
    (ht : u16 t0 t1 ∈ [SADB_EXT_SA, SADB_EXT_LIFETIME_CURRENT, SADB_EXT_LIFETIME_HARD,
      SADB_EXT_LIFETIME_SOFT, SADB_EXT_ADDRESS_SRC, SADB_EXT_ADDRESS_DST]) :
    readExtension slack (l0 :: l1 :: t0 :: t1 :: tail) m
      = readExtension slack (k0 :: k1 :: t0 :: t1 :: tail) m := by
  unfold readExtension
  rw [readSADBExt_cons4, readSADBExt_cons4]
  simp only [List.mem_cons, List.mem_singleton, List.mem_nil_iff, or_false] at ht
  simp only
  rcases ht with h | h | h | h | h | h <;> rw [h]
  · rw [if_pos rfl, if_pos rfl]
    exact SADBSA_step_len m l0 l1 k0 k1 _
  · rw [if_neg (by decide), if_neg (by decide), if_neg (by decide), if_pos rfl,
      if_neg (by decide), if_neg (by decide), if_neg (by decide), if_pos rfl]
    exact SADBLifetime_step_len _ l0 l1 k0 k1 _
      (fun a b hab => (SetLifetime_len_irrelevant m a b hab).2.2)
  · rw [if_neg (by decide), if_pos rfl, if_neg (by decide), if_pos rfl]
    exact SADBLifetime_step_len _ l0 l1 k0 k1 _
      (fun a b hab => (SetLifetime_len_irrelevant m a b hab).1)
  · rw [if_neg (by decide), if_neg (by decide), if_pos rfl,
      if_neg (by decide), if_neg (by decide), if_pos rfl]
    exact SADBLifetime_step_len _ l0 l1 k0 k1 _
      (fun a b hab => (SetLifetime_len_irrelevant m a b hab).2.1)
  · rw [if_neg (by decide), if_neg (by decide), if_neg (by decide), if_neg (by decide),
      if_pos rfl, if_neg (by decide), if_neg (by decide), if_neg (by decide),
      if_neg (by decide), if_pos rfl, readNodeFromBuffer_len l0 l1 k0 k1]
  · rw [if_neg (by decide), if_neg (by decide), if_neg (by decide), if_neg (by decide),
      if_neg (by decide), if_pos rfl, if_neg (by decide), if_neg (by decide),
      if_neg (by decide), if_neg (by decide), if_neg (by decide), if_pos rfl,
      readNodeFromBuffer_len l0 l1 k0 k1]

/-- C14, as stated, fails: the 32-byte message `zeroLenSABytes` contains an SA extension
whose declared `word_len` is 0, and `ReadMsg` returns no error but the message with that
SA. -/
theorem ReadMsg_accepts_zero_len_SA :
    readSADBExt 0 (zeroLenSABytes.drop 16) = .ok { Len := 0, Typ := SADB_EXT_SA }
      ∧ ReadMsg { socket := [.ok zeroLenSABytes] }
          = some (.ok (saOnlyMsg 4), { socket := [] }) := by
  decide

/-- C14, amended. When the extension that `ReadMsg` comes to parse next is of a type
decoded as a fixed-size record (SA, LIFETIME_CURRENT, LIFETIME_HARD, LIFETIME_SOFT,
ADDRESS_SRC, ADDRESS_DST), its declared `word_len` is not consulted: `ReadMsg` returns
the same result whatever the two length bytes are, zero included. -/
theorem ReadMsg_declared_len_ignored (H A : List Nat) (m1 : Msg)
    (l0 l1 k0 k1 t0 t1 : Nat) (tail : List Nat) (rest : List SocketRead)
    (hH : H.length = 16) (hA : ConsumedWhole A { Msg := SADBMsg.ofBytes H } m1)
    (hn : 16 + A.length + (l0 :: l1 :: t0 :: t1 :: tail).length ≤ readBufSize)
    (ht : u16 t0 t1 ∈ [SADB_EXT_SA, SADB_EXT_LIFETIME_CURRENT, SADB_EXT_LIFETIME_HARD,
      SADB_EXT_LIFETIME_SOFT, SADB_EXT_ADDRESS_SRC, SADB_EXT_ADDRESS_DST]) :
    ReadMsg { socket := .ok (H ++ A ++ l0 :: l1 :: t0 :: t1 :: tail) :: rest }
      = ReadMsg { socket := .ok (H ++ A ++ k0 :: k1 :: t0 :: t1 :: tail) :: rest } := by
  have hn2 : 16 + A.length + (k0 :: k1 :: t0 :: t1 :: tail).length ≤ readBufSize := hn
  rw [ReadMsg_cons, ReadMsg_cons, readReply_after_whole H A _ m1 hH hA hn,
    readReply_after_whole H A _ m1 hH hA hn2]
  have hl : (l0 :: l1 :: t0 :: t1 :: tail).length = (k0 :: k1 :: t0 :: t1 :: tail).length := rfl
  rw [hl, runLoop_congr _ (l0 :: l1 :: t0 :: t1 :: tail) (k0 :: k1 :: t0 :: t1 :: tail) m1 m1
    (by simp) (by simp) (readExtension_len _ l0 l1 k0 k1 t0 t1 tail m1 ht)]

/-- The SA extension of `zeroLenSABytes` with its length bytes 0, 0 gives what it gives
with the length bytes 2, 0. -/
theorem ReadMsg_declared_len_ignored_witness :
    ReadMsg { socket := [.ok (hdrBytes 4 ++ [] ++ 0 :: 0 :: 1 :: 0 :: (saExtBytes 0 0).drop 4)] }
      = ReadMsg
          { socket := [.ok (hdrBytes 4 ++ [] ++ 2 :: 0 :: 1 :: 0 :: (saExtBytes 0 0).drop 4)] } :=
  ReadMsg_declared_len_ignored (hdrBytes 4) [] _ 0 0 2 0 1 0 ((saExtBytes 0 0).drop 4) []
    (by decide) (ConsumedWhole_nil _) (by decide) (by decide)

/-! ## An extension type without a case -/

theorem readExtension_unknown (slack l0 l1 t0 t1 : Nat) (tail : List Nat) (m : Msg)
    (ht : u16 t0 t1 ∉ [SADB_EXT_SA, SADB_EXT_LIFETIME_HARD, SADB_EXT_LIFETIME_SOFT,
      SADB_EXT_LIFETIME_CURRENT, SADB_EXT_ADDRESS_SRC, SADB_EXT_ADDRESS_DST,
      SADB_EXT_SUPPORTED_AUTH, SADB_EXT_SUPPORTED_ENCRYPT, SADB_EXT_PROPOSAL,
      SADB_EXT_ADDRESS_PROXY, SADB_EXT_KEY_AUTH, SADB_EXT_KEY_ENCRYPT, SADB_X_EXT_SA2,
      SADB_X_EXT_POLICY]) :
    readExtension slack (l0 :: l1 :: t0 :: t1 :: tail) m
      = .error (.unexpectedExtension (u16 t0 t1)) := by
  simp only [List.mem_cons, List.mem_singleton, not_or, List.mem_nil_iff, not_false_eq_true,
    and_true] at ht
  obtain ⟨c0, c1, c2, c3, c4, c5, c6, c7, c8, c9, c10, c11, c12, c13⟩ := ht
  unfold readExtension
  rw [readSADBExt_cons4]
  simp only [if_neg c0, if_neg c1, if_neg c2, if_neg c3, if_neg c4, if_neg c5, if_neg c6,
    if_neg c7, if_neg c8, if_neg c9, if_neg c10, if_neg c11, if_neg c12, if_neg c13]

/-- C15: when the extension header that `ReadMsg` comes to parse next (after the base
header and any number of whole extensions) carries a type for which the `switch` has no
case (neither decoded nor skipped), `ReadMsg` returns the error reporting that type,
whatever follows the header. -/
theorem ReadMsg_unknown_extension (H A : List Nat) (m1 : Msg) (l0 l1 t0 t1 : Nat)
    (tail : List Nat) (rest : List SocketRead) (hH : H.length = 16)
    (hA : ConsumedWhole A { Msg := SADBMsg.ofBytes H } m1)
    (hn : 16 + A.length + (l0 :: l1 :: t0 :: t1 :: tail).length ≤ readBufSize)
    (ht : u16 t0 t1 ∉ [SADB_EXT_SA, SADB_EXT_LIFETIME_HARD, SADB_EXT_LIFETIME_SOFT,
      SADB_EXT_LIFETIME_CURRENT, SADB_EXT_ADDRESS_SRC, SADB_EXT_ADDRESS_DST,
      SADB_EXT_SUPPORTED_AUTH, SADB_EXT_SUPPORTED_ENCRYPT, SADB_EXT_PROPOSAL,
      SADB_EXT_ADDRESS_PROXY, SADB_EXT_KEY_AUTH, SADB_EXT_KEY_ENCRYPT, SADB_X_EXT_SA2,
      SADB_X_EXT_POLICY]) :
    ReadMsg { socket := .ok (H ++ A ++ l0 :: l1 :: t0 :: t1 :: tail) :: rest }
      = some (.error (.unexpectedExtension (u16 t0 t1)), { socket := rest }) := by
  rw [ReadMsg_cons, readReply_after_whole H A _ m1 hH hA hn,
    runLoop_error _ _ m1 _ (by simp) (readExtension_unknown _ l0 l1 t0 t1 tail m1 ht)]
  rfl

/-- An SA extension followed by an extension header of type 11. -/
theorem ReadMsg_unknown_extension_witness :
    ReadMsg { socket := [.ok (hdrBytes 3 ++ [] ++ 1 :: 0 :: 11 :: 0 :: [0, 0, 0, 0])] }
      = some (.error (.unexpectedExtension 11), { socket := [] }) :=
  ReadMsg_unknown_extension (hdrBytes 3) [] _ 1 0 11 0 [0, 0, 0, 0] [] (by decide)
    (ConsumedWhole_nil _) (by decide) (by decide)

/-! ## Extensions that are skipped -/

theorem readExtension_skipped (slack l0 l1 t0 t1 : Nat) (body B : List Nat) (m : Msg)
    (ht : u16 t0 t1 ∈ [SADB_EXT_ADDRESS_PROXY, SADB_EXT_KEY_AUTH, SADB_EXT_KEY_ENCRYPT,
      SADB_X_EXT_SA2])
    (hlen : (l0 :: l1 :: t0 :: t1 :: body).length = u16 l0 l1 * 8)
    (hsmall : u16 l0 l1 * 8 < 65536) :
    readExtension slack (l0 :: l1 :: t0 :: t1 :: body ++ B) m = .ok (B, m) := by
  have hdrop : extensionNotImplemented (l0 :: l1 :: t0 :: t1 :: body ++ B)
      { Len := u16 l0 l1, Typ := u16 t0 t1 } = B := by
    unfold extensionNotImplemented
    simp only [Nat.mod_eq_of_lt hsmall]
    rw [← hlen]
    exact List.drop_left' rfl
  unfold readExtension
  rw [show l0 :: l1 :: t0 :: t1 :: body ++ B = l0 :: l1 :: t0 :: t1 :: (body ++ B) from rfl,
    readSADBExt_cons4]
  rw [show l0 :: l1 :: t0 :: t1 :: (body ++ B) = l0 :: l1 :: t0 :: t1 :: body ++ B from rfl]
  simp only [List.mem_cons, List.mem_singleton, List.mem_nil_iff, or_false] at ht
  simp only
  rcases ht with h | h | h | h <;> rw [h] at hdrop ⊢
  · rw [if_neg (by decide), if_neg (by decide), if_neg (by decide), if_neg (by decide),
      if_neg (by decide), if_neg (by decide), if_neg (by decide), if_neg (by decide),
      if_neg (by decide), if_pos rfl, hdrop]
  · rw [if_neg (by decide), if_neg (by decide), if_neg (by decide), if_neg (by decide),
      if_neg (by decide), if_neg (by decide), if_neg (by decide), if_neg (by decide),
      if_neg (by decide), if_neg (by decide), if_pos rfl, hdrop]
  · rw [if_neg (by decide), if_neg (by decide), if_neg (by decide), if_neg (by decide),
      if_neg (by decide), if_neg (by decide), if_neg (by decide), if_neg (by decide),
      if_neg (by decide), if_neg (by decide), if_neg (by decide), if_pos rfl, hdrop]
  · rw [if_neg (by decide), if_neg (by decide), if_neg (by decide), if_neg (by decide),
      if_neg (by decide), if_neg (by decide), if_neg (by decide), if_neg (by decide),
      if_neg (by decide), if_neg (by decide), if_neg (by decide), if_neg (by decide),
      if_pos rfl, hdrop]

theorem afterLoop_threshold (n1 n2 : Nat) (r : Option (Except Err Msg))
    (h : n1 < 376 ∨ 376 ≤ n2) (hle : n2 ≤ n1) : afterLoop n1 r = afterLoop n2 r := by
  unfold afterLoop
  have e : ((n1 * 8 + 5) / 6 > 500) ↔ ((n2 * 8 + 5) / 6 > 500) := by omega
  cases r with
  | none => rfl
  | some x =>
    cases x with
    | error err => rfl
    | ok y => simp only [e]

theorem ConsumedWhole_skipped (l0 l1 t0 t1 : Nat) (body : List Nat) (m : Msg)
    (ht : u16 t0 t1 ∈ [SADB_EXT_ADDRESS_PROXY, SADB_EXT_KEY_AUTH, SADB_EXT_KEY_ENCRYPT,
      SADB_X_EXT_SA2])
    (hlen : (l0 :: l1 :: t0 :: t1 :: body).length = u16 l0 l1 * 8)
    (hsmall : u16 l0 l1 * 8 < 65536) :
    ConsumedWhole (l0 :: l1 :: t0 :: t1 :: body) m m :=
  ConsumedWhole_of_step _ m m (by simp)
    (fun slack tail => readExtension_skipped slack l0 l1 t0 t1 body tail m ht hlen hsmall)

theorem ConsumedWhole_keyEncryptExt (m : Msg) : ConsumedWhole keyEncryptExtBytes m m :=
  ConsumedWhole_skipped 1 0 9 0 [0, 0, 0, 0] m (by decide) (by decide) (by decide)

theorem ConsumedWhole_proxyExt (m : Msg) : ConsumedWhole proxyExtBytes m m :=
  ConsumedWhole_skipped 43 0 7 0 (List.replicate 340 0) m (by decide)
    (by simp only [List.length_cons, List.length_replicate]; decide) (by decide)

theorem length_proxyExtBytes : proxyExtBytes.length = 344 := by
  simp only [proxyExtBytes, List.length_append, List.length_replicate, List.length_cons,
    List.length_nil]

/-- C16, at the failing input: `ReadMsg` on the 376-byte message `acquireWithKeyBytes`
(KEY_ENCRYPT of one word, ADDRESS_PROXY, PROPOSAL) panics in its Base64 dump, while on
the same message with the 8 bytes of the KEY_ENCRYPT extension removed it returns the
parsed message. -/
theorem ReadMsg_skipped_extension_changes_result :
    acquireWithKeyBytes.length = 376
      ∧ acquireWithoutKeyBytes.length = 368
      ∧ ReadMsg { socket := [.ok acquireWithKeyBytes] } = some (.error .panic, { socket := [] })
      ∧ ReadMsg { socket := [.ok acquireWithoutKeyBytes] }
          = some (.ok acquireMsg, { socket := [] }) := by
  have hlA : (keyEncryptExtBytes ++ proxyExtBytes).length = 352 := by
    rw [List.length_append, length_proxyExtBytes]; rfl
  refine ⟨?_, ?_, ?_, ?_⟩
  · simp [acquireWithKeyBytes, acquireHdrBytes, keyEncryptExtBytes, proposalExtBytes,
      length_proxyExtBytes]
  · simp [acquireWithoutKeyBytes, acquireHdrBytes, proposalExtBytes, length_proxyExtBytes]
  · rw [ReadMsg_cons]
    unfold acquireWithKeyBytes
    rw [readReply_after_whole acquireHdrBytes (keyEncryptExtBytes ++ proxyExtBytes) proposalExtBytes
      _ rfl (ConsumedWhole_append _ _ _ _ _ (ConsumedWhole_keyEncryptExt _)
        (ConsumedWhole_proxyExt _)) (by rw [hlA]; decide), hlA]
    decide
  · rw [ReadMsg_cons]
    unfold acquireWithoutKeyBytes
    rw [readReply_after_whole acquireHdrBytes proxyExtBytes proposalExtBytes
      _ rfl (ConsumedWhole_proxyExt _) (by rw [length_proxyExtBytes]; decide),
      length_proxyExtBytes]
    decide

/-- An extension of type ADDRESS_PROXY, KEY_AUTH, KEY_ENCRYPT or SA2 with declared length
`L >= 1` that lies wholly inside the buffer, after the base header and whole extensions,
is skipped by one iteration that changes nothing in the message, and `ReadMsg` returns
what it returns on the buffer without these `L * 8` bytes, provided the two buffers lie on
the same side of the 376 bytes from which the Base64 dump of a PROPOSAL panics. -/
theorem ReadMsg_skipped_extension_transparent (H A : List Nat) (m1 : Msg)
    (l0 l1 t0 t1 : Nat) (body B : List Nat) (rest : List SocketRead)
    (hH : H.length = 16) (hA : ConsumedWhole A { Msg := SADBMsg.ofBytes H } m1)
    (hA4 : A.length % 4 = 0)
    (ht : u16 t0 t1 ∈ [SADB_EXT_ADDRESS_PROXY, SADB_EXT_KEY_AUTH, SADB_EXT_KEY_ENCRYPT,
      SADB_X_EXT_SA2])
    (hlen : (l0 :: l1 :: t0 :: t1 :: body).length = u16 l0 l1 * 8)
    (hn : 16 + A.length + ((l0 :: l1 :: t0 :: t1 :: body).length + B.length) ≤ readBufSize)
    (hside : 16 + A.length + ((l0 :: l1 :: t0 :: t1 :: body).length + B.length) < 376
      ∨ 376 ≤ 16 + A.length + B.length) :
    (∀ slack, readExtension slack (l0 :: l1 :: t0 :: t1 :: body ++ B) m1 = .ok (B, m1))
      ∧ ReadMsg { socket := .ok (H ++ A ++ (l0 :: l1 :: t0 :: t1 :: body ++ B)) :: rest }
          = ReadMsg { socket := .ok (H ++ A ++ B) :: rest } := by
  have hsmall : u16 l0 l1 * 8 < 65536 := by
    unfold readBufSize at hn
    omega
  have hstep := fun slack =>
    readExtension_skipped slack l0 l1 t0 t1 body B m1 ht hlen hsmall
  refine ⟨hstep, ?_⟩
  have hn1 : 16 + A.length + (l0 :: l1 :: t0 :: t1 :: body ++ B).length ≤ readBufSize := by
    rw [List.length_append]; exact hn
  have hn2 : 16 + A.length + B.length ≤ readBufSize := by omega
  rw [ReadMsg_cons, ReadMsg_cons, readReply_after_whole H A _ m1 hH hA hn1,
    readReply_after_whole H A B m1 hH hA hn2,
    runLoop_step _ _ B m1 m1 (by simp) (hstep _)]
  have hS : (l0 :: l1 :: t0 :: t1 :: body ++ B).length
      = (l0 :: l1 :: t0 :: t1 :: body).length + B.length := List.length_append _ _
  rw [hS]
  rw [runLoop_slack _ (readBufSize - (16 + A.length + B.length)) B m1
    (by unfold readBufSize at hn ⊢; omega) (by unfold readBufSize at hn ⊢; omega)]
  rw [afterLoop_threshold _ (16 + A.length + B.length) _ hside (by omega)]

/-- A KEY_ENCRYPT extension of one word between a header and an SA extension. -/
theorem ReadMsg_skipped_extension_transparent_witness :
    ReadMsg { socket := [.ok (hdrBytes 5 ++ [] ++ (1 :: 0 :: 9 :: 0 :: [0, 0, 0, 0]
        ++ saExtBytes 2 0))] }
      = ReadMsg { socket := [.ok (hdrBytes 5 ++ [] ++ saExtBytes 2 0)] } :=
  (ReadMsg_skipped_extension_transparent (hdrBytes 5) [] _ 1 0 9 0 [0, 0, 0, 0]
    (saExtBytes 2 0) [] (by decide) (ConsumedWhole_nil _) (by decide) (by decide) (by decide)
    (by decide) (by decide)).2

/-! ## SUPPORTED extensions -/

theorem SADBAlg_ofBytes_wire (a : SADBAlg) (h : a.inRange) : SADBAlg.ofBytes a.wire = a := by
  obtain ⟨i, v, mn, mx, r⟩ := a
  obtain ⟨h1, h2, h3, h4, h5⟩ := h
  simp only at h1 h2 h3 h4 h5
  simp only [SADBAlg.wire, le16, List.cons_append, List.nil_append, SADBAlg.ofBytes,
    u16_le16 _ h3, u16_le16 _ h4, u16_le16 _ h5, Nat.mod_eq_of_lt h1, Nat.mod_eq_of_lt h2]

theorem SADBAlg_length_wire (a : SADBAlg) : a.wire.length = 8 := by
  simp [SADBAlg.wire, le16]

theorem algsWire_length (algs : List SADBAlg) : (algsWire algs).length = 8 * algs.length := by
  induction algs with
  | nil => rfl
  | cons a rest ih =>
    rw [algsWire, List.length_append, SADBAlg_length_wire, ih, List.length_cons]
    omega

theorem supportedExt_length (t r0 r1 r2 r3 : Nat) (algs : List SADBAlg) :
    (supportedExt t r0 r1 r2 r3 algs).length = (algs.length + 1) * 8 := by
  simp only [supportedExt, le16, List.cons_append, List.nil_append, List.length_cons,
    algsWire_length]
  omega

theorem readAlgs_wire (algs : List SADBAlg) :
    ∀ (acc : List SADBAlg) (rest : List Nat), (∀ a ∈ algs, a.inRange) →
      readAlgs algs.length (algsWire algs ++ rest) acc = .ok (acc ++ algs, rest) := by
  induction algs with
  | nil =>
    intro acc rest _
    simp [readAlgs, algsWire]
  | cons a as ih =>
    intro acc rest h
    have ha : a.inRange := h a (List.mem_cons_self a as)
    have has : ∀ x ∈ as, x.inRange := fun x hx => h x (List.mem_cons_of_mem a hx)
    rw [List.length_cons, readAlgs, algsWire, List.append_assoc]
    unfold SADBAlg.readFromBuffer
    rw [readBytes_append 8 _ _ (SADBAlg_length_wire a) (by decide)]
    simp only [SADBAlg_ofBytes_wire a ha]
    rw [ih (acc ++ [a]) rest has, List.append_assoc]
    rfl

theorem readAlgorithms_supportedExt (t r0 r1 r2 r3 : Nat) (algs : List SADBAlg)
    (rest : List Nat) (hr : ∀ a ∈ algs, a.inRange) (hL : algs.length + 1 < 65536) :
    readAlgorithms (supportedExt t r0 r1 r2 r3 algs ++ rest) = .ok (algs, rest) := by
  unfold readAlgorithms SADBSupported.readFromBuffer
  have hsplit : supportedExt t r0 r1 r2 r3 algs ++ rest
      = (le16 (algs.length + 1) ++ le16 t ++ [r0, r1, r2, r3]) ++ (algsWire algs ++ rest) := by
    simp only [supportedExt, List.append_assoc]
  rw [hsplit, readBytes_append 8 _ _ (by simp [le16]) (by decide)]
  simp only [le16, List.cons_append, List.nil_append, SADBSupported.ofBytes, u16_le16 _ hL,
    Nat.add_sub_cancel]
  rw [readAlgs_wire algs [] rest hr]
  rfl

theorem readSADBExt_supportedExt (slack t r0 r1 r2 r3 : Nat) (algs : List SADBAlg)
    (rest : List Nat) (ht : t < 65536) (hL : algs.length + 1 < 65536) :
    readSADBExt slack (supportedExt t r0 r1 r2 r3 algs ++ rest)
      = .ok { Len := algs.length + 1, Typ := t } := by
  simp only [supportedExt, le16, List.cons_append, List.nil_append, readSADBExt_cons4,
    u16_le16 _ ht, u16_le16 _ hL]

theorem readExtension_supportedExt (slack r0 r1 r2 r3 : Nat) (algs : List SADBAlg)
    (rest : List Nat) (msg : Msg) (hr : ∀ a ∈ algs, a.inRange)
    (hL : algs.length + 1 < 65536) :
    readExtension slack (supportedExt SADB_EXT_SUPPORTED_AUTH r0 r1 r2 r3 algs ++ rest) msg
        = .ok (rest, { msg with
                       Extensions := { msg.Extensions with AuthAlgorithms := algs }
                       Present := { msg.Present with AuthAlgorithms := true } })
    ∧ readExtension slack (supportedExt SADB_EXT_SUPPORTED_ENCRYPT r0 r1 r2 r3 algs ++ rest) msg
        = .ok (rest, { msg with
                       Extensions := { msg.Extensions with EncryptAlgorithms := algs }
                       Present := { msg.Present with EncryptAlgorithms := true } }) := by
  constructor
  · unfold readExtension
    rw [readSADBExt_supportedExt slack _ r0 r1 r2 r3 algs rest (by decide) hL,
      readAlgorithms_supportedExt _ r0 r1 r2 r3 algs rest hr hL]
    rfl
  · unfold readExtension
    rw [readSADBExt_supportedExt slack _ r0 r1 r2 r3 algs rest (by decide) hL,
      readAlgorithms_supportedExt _ r0 r1 r2 r3 algs rest hr hL]
    rfl

theorem supportedExt_ne_nil (t r0 r1 r2 r3 : Nat) (algs : List SADBAlg) :
    supportedExt t r0 r1 r2 r3 algs ≠ [] := by
  intro h
  have := supportedExt_length t r0 r1 r2 r3 algs
  rw [h] at this
  simp at this

theorem ConsumedWhole_supportedAuth (r0 r1 r2 r3 : Nat) (algs : List SADBAlg) (msg : Msg)
    (hr : ∀ a ∈ algs, a.inRange) (hL : algs.length + 1 < 65536) :
    ConsumedWhole (supportedExt SADB_EXT_SUPPORTED_AUTH r0 r1 r2 r3 algs) msg
      { msg with
        Extensions := { msg.Extensions with AuthAlgorithms := algs }
        Present := { msg.Present with AuthAlgorithms := true } } :=
  ConsumedWhole_of_step _ _ _ (supportedExt_ne_nil _ _ _ _ _ _)
    (fun slack tail => (readExtension_supportedExt slack r0 r1 r2 r3 algs tail msg hr hL).1)

theorem ConsumedWhole_supportedEncrypt (r0 r1 r2 r3 : Nat) (algs : List SADBAlg) (msg : Msg)
    (hr : ∀ a ∈ algs, a.inRange) (hL : algs.length + 1 < 65536) :
    ConsumedWhole (supportedExt SADB_EXT_SUPPORTED_ENCRYPT r0 r1 r2 r3 algs) msg
      { msg with
        Extensions := { msg.Extensions with EncryptAlgorithms := algs }
        Present := { msg.Present with EncryptAlgorithms := true } } :=
  ConsumedWhole_of_step _ _ _ (supportedExt_ne_nil _ _ _ _ _ _)
    (fun slack tail => (readExtension_supportedExt slack r0 r1 r2 r3 algs tail msg hr hL).2)

theorem ReadMsg_last_whole (H A E : List Nat) (m1 m2 : Msg) (rest : List SocketRead)
    (hH : H.length = 16) (hA : ConsumedWhole A { Msg := SADBMsg.ofBytes H } m1)
    (hE : ConsumedWhole E m1 m2) (hn : 16 + A.length + E.length ≤ readBufSize)
    (hP : m2.Present.Proposal = false) :
    ReadMsg { socket := .ok (H ++ A ++ E) :: rest } = some (.ok m2, { socket := rest }) := by
  have h := readReply_after_whole H (A ++ E) [] m2 hH (ConsumedWhole_append A E _ m1 m2 hA hE)
    (by rw [List.length_append, List.length_nil]; omega)
  rw [List.append_nil, ← List.append_assoc, runLoop_nil] at h
  rw [ReadMsg_cons, h]
  unfold afterLoop
  simp only [hP, Bool.false_eq_true, false_and, if_false]
  rfl

/-- C17: a SUPPORTED_AUTH (resp. SUPPORTED_ENCRYPT) extension with declared length
`L = k + 1` followed by `k` eight-byte ALG records (id, ivlen, then minbits, maxbits and
reserved in little endian) is decoded into exactly those `k` records, in wire order and
field for field: coming last in a message after whole extensions, `ReadMsg` returns the
message with the records in `AuthAlgorithms` (resp. `EncryptAlgorithms`) and the matching
presence flag set; anywhere in the buffer, the iteration that parses it consumes exactly
the `L * 8` bytes of the extension and leaves what follows. -/
theorem ReadMsg_SUPPORTED (H A : List Nat) (m1 : Msg) (r0 r1 r2 r3 : Nat)
    (algs : List SADBAlg) (rest : List SocketRead) (hH : H.length = 16)
    (hA : ConsumedWhole A { Msg := SADBMsg.ofBytes H } m1)
    (hr : ∀ a ∈ algs, a.inRange)
    (hn : 16 + A.length + (algs.length + 1) * 8 ≤ readBufSize)
    (hP : m1.Present.Proposal = false) :
    ReadMsg { socket :=
                .ok (H ++ A ++ supportedExt SADB_EXT_SUPPORTED_AUTH r0 r1 r2 r3 algs) :: rest }
        = some (.ok { m1 with
                      Extensions := { m1.Extensions with AuthAlgorithms := algs }
                      Present := { m1.Present with AuthAlgorithms := true } },
                { socket := rest })
    ∧ ReadMsg { socket :=
                  .ok (H ++ A ++ supportedExt SADB_EXT_SUPPORTED_ENCRYPT r0 r1 r2 r3 algs)
                    :: rest }
        = some (.ok { m1 with
                      Extensions := { m1.Extensions with EncryptAlgorithms := algs }
                      Present := { m1.Present with EncryptAlgorithms := true } },
                { socket := rest })
    ∧ (∀ (slack : Nat) (tail : List Nat) (msg : Msg),
        readExtension slack (supportedExt SADB_EXT_SUPPORTED_AUTH r0 r1 r2 r3 algs ++ tail) msg
            = .ok (tail, { msg with
                           Extensions := { msg.Extensions with AuthAlgorithms := algs }
                           Present := { msg.Present with AuthAlgorithms := true } })
        ∧ readExtension slack
              (supportedExt SADB_EXT_SUPPORTED_ENCRYPT r0 r1 r2 r3 algs ++ tail) msg
            = .ok (tail, { msg with
                           Extensions := { msg.Extensions with EncryptAlgorithms := algs }
                           Present := { msg.Present with EncryptAlgorithms := true } }))
    ∧ (supportedExt SADB_EXT_SUPPORTED_AUTH r0 r1 r2 r3 algs).length = (algs.length + 1) * 8
    ∧ (supportedExt SADB_EXT_SUPPORTED_ENCRYPT r0 r1 r2 r3 algs).length
        = (algs.length + 1) * 8 := by
  have hL : algs.length + 1 < 65536 := by
    unfold readBufSize at hn
    omega
  refine ⟨?_, ?_, fun slack tail msg => readExtension_supportedExt slack r0 r1 r2 r3 algs tail
    msg hr hL, supportedExt_length _ _ _ _ _ _, supportedExt_length _ _ _ _ _ _⟩
  · exact ReadMsg_last_whole H A _ m1 _ rest hH hA
      (ConsumedWhole_supportedAuth r0 r1 r2 r3 algs m1 hr hL)
      (by rw [supportedExt_length]; exact hn) hP
  · exact ReadMsg_last_whole H A _ m1 _ rest hH hA
      (ConsumedWhole_supportedEncrypt r0 r1 r2 r3 algs m1 hr hL)
      (by rw [supportedExt_length]; exact hn) hP

/-- A REGISTER reply: after the header and the SUPPORTED_AUTH extension, the
SUPPORTED_ENCRYPT extension comes last, and `ReadMsg` returns both tables. -/
theorem ReadMsg_SUPPORTED_witness :
    ReadMsg { socket := [.ok registerReplyBytes] }
      = some (.ok { Msg := { Version := 2, Typ := 7, SAType := 3, Len := 8, PID := 4660 }
                    Extensions := { AuthAlgorithms := sampleAuthAlgs,
                                    EncryptAlgorithms := sampleEncryptAlgs }
                    Present := { AuthAlgorithms := true, EncryptAlgorithms := true } },
              { socket := [] }) :=
  (ReadMsg_SUPPORTED registerHdrBytes
    (supportedExt SADB_EXT_SUPPORTED_AUTH 0 0 0 0 sampleAuthAlgs) _ 0 0 0 0 sampleEncryptAlgs []
    (by decide)
    (ConsumedWhole_supportedAuth 0 0 0 0 sampleAuthAlgs _
      (by simp [sampleAuthAlgs, SADBAlg.inRange]) (by decide))
    (by simp [sampleEncryptAlgs, SADBAlg.inRange]) (by decide) rfl).2.1


/-! ## The command builders -/

theorem AddrAsArray_ipv4Node (ps : List Nat) (a b c d port : Nat) (h : ps.length = 12) :
    (ipv4Node ps a b c d port).AddrAsArray = .ok (a, b, c, d) := by
  rcases ps with _ | ⟨_, _ | ⟨_, _ | ⟨_, _ | ⟨_, _ | ⟨_, _ | ⟨_, _ | ⟨_, _ | ⟨_, _ | ⟨_, _ | ⟨_, _ | ⟨_, _ | ⟨_, _ | ⟨_, _⟩⟩⟩⟩⟩⟩⟩⟩⟩⟩⟩⟩⟩ <;> simp at h
  rfl

theorem buildSockAddr_ipv4Node (ps : List Nat) (a b c d port : Nat) (h : ps.length = 12) :
    (ipv4Node ps a b c d port).buildSockAddr
      = .ok { SinFamily := AF_INET, SinPort := port, SinAddr := (a, b, c, d) } := by
  unfold Node.buildSockAddr
  rw [AddrAsArray_ipv4Node ps a b c d port h]
  rfl

/-- C18: for every pid, `SendMsg` of each base-only builder sends the 16 bytes
`[2, T, 0, 3, 2, 0, 0, 0, 0, 0, 0, 0, P0, P1, P2, P3]` (pid in little endian), with
`T = 7` for `BuildSADBREGISTERMsg`, `9` for `BuildSADBFLUSH`, `10` for `BuildSADBDUMPMsg`,
and the built messages have no extension present. -/
theorem base_only_builders_bytes (pid : Nat) :
    SendMsg (BuildSADBREGISTERMsg pid)
        = .ok [2, 7, 0, 3, 2, 0, 0, 0, 0, 0, 0, 0,
               pid % 256, pid / 256 % 256, pid / 65536 % 256, pid / 16777216 % 256]
    ∧ SendMsg (BuildSADBFLUSH pid)
        = .ok [2, 9, 0, 3, 2, 0, 0, 0, 0, 0, 0, 0,
               pid % 256, pid / 256 % 256, pid / 65536 % 256, pid / 16777216 % 256]
    ∧ SendMsg (BuildSADBDUMPMsg pid)
        = .ok [2, 10, 0, 3, 2, 0, 0, 0, 0, 0, 0, 0,
               pid % 256, pid / 256 % 256, pid / 65536 % 256, pid / 16777216 % 256]
    ∧ (BuildSADBREGISTERMsg pid).Present = {}
    ∧ (BuildSADBFLUSH pid).Present = {}
    ∧ (BuildSADBDUMPMsg pid).Present = {} := by
  have e0 : pid % 4294967296 % 256 = pid % 256 := by omega
  have e1 : pid % 4294967296 / 256 % 256 = pid / 256 % 256 := by omega
  have e2 : pid % 4294967296 / 65536 % 256 = pid / 65536 % 256 := by omega
  have e3 : pid % 4294967296 / 16777216 % 256 = pid / 16777216 % 256 := by omega
  refine ⟨?_, ?_, ?_, rfl, rfl, rfl⟩
  · simp [SendMsg, BuildSADBREGISTERMsg, setMsgLen, writeToBuffer, writeIf, writeStruct, addIf,
      add16, HasSA, HasLifetimeCurrent, HasLifetimeHard, HasLifetimeSoft, HasAddressSrc,
      HasAddressDst, HasAuthKey, HasEncryptKey, HasSPIRange, SADBMsg.getBytes, le16, le32,
      PF_KEY_V2, SADB_REGISTER, SADB_SATYPE_ESP, SADBMSG_LEN, e0, e1, e2, e3]
  · simp [SendMsg, BuildSADBFLUSH, setMsgLen, writeToBuffer, writeIf, writeStruct, addIf,
      add16, HasSA, HasLifetimeCurrent, HasLifetimeHard, HasLifetimeSoft, HasAddressSrc,
      HasAddressDst, HasAuthKey, HasEncryptKey, HasSPIRange, SADBMsg.getBytes, le16, le32,
      PF_KEY_V2, SADB_FLUSH, SADB_SATYPE_ESP, SADBMSG_LEN, e0, e1, e2, e3]
  · simp [SendMsg, BuildSADBDUMPMsg, setMsgLen, writeToBuffer, writeIf, writeStruct, addIf,
      add16, HasSA, HasLifetimeCurrent, HasLifetimeHard, HasLifetimeSoft, HasAddressSrc,
      HasAddressDst, HasAuthKey, HasEncryptKey, HasSPIRange, SADBMsg.getBytes, le16, le32,
      PF_KEY_V2, SADB_DUMP, SADB_SATYPE_ESP, SADBMSG_LEN, e0, e1, e2, e3]


theorem BuildSADBGETSPI_ipv4 (pid seq : Nat) (ps qs : List Nat) (a b c d e f g h : Nat)
    (hps : ps.length = 12) (hqs : qs.length = 12) :
    BuildSADBGETSPI pid seq (ipv4Node ps a b c d 0) (ipv4Node qs e f g h 0)
      = .ok (getspiMsg pid seq a b c d e f g h 0) := by
  unfold BuildSADBGETSPI
  simp only [SetAddressSrc, SetAddressDst, buildSockAddr_ipv4Node ps a b c d 0 hps,
    buildSockAddr_ipv4Node qs e f g h 0 hqs]
  rfl

theorem setMsgLen_getspiMsg (pid seq a b c d e f g h : Nat) :
    setMsgLen (getspiMsg pid seq a b c d e f g h 0) = getspiMsg pid seq a b c d e f g h 10 := by
  simp [setMsgLen, getspiMsg, addIf, add16, HasSA, HasLifetimeCurrent, HasLifetimeHard,
    HasLifetimeSoft, HasAddressSrc, HasAddressDst, HasAuthKey, HasEncryptKey, HasSPIRange,
    SADBMSG_LEN, PF_KEY_V2]

theorem getBytes_sockAddrIn_ipv4 (a b c d : Nat) :
    sockAddrIn.getBytes { SinFamily := 2, SinPort := 0, SinAddr := (a, b, c, d) }
      = [2, 0, 0, 0, a % 256, b % 256, c % 256, d % 256, 0, 0, 0, 0, 0, 0, 0, 0] := by
  simp [sockAddrIn.getBytes, le16, le16i]

theorem getBytes_spirange_default :
    SADBSPIRange.getBytes { Len := 2, ExtType := 16, Min := 10, Max := 10000000 }
      = [2, 0, 16, 0, 10, 0, 0, 0, 128, 150, 152, 0, 0, 0, 0, 0] := by
  simp [SADBSPIRange.getBytes, le16, le32]

theorem getBytes_getspi_header (pid seq : Nat) :
    SADBMsg.getBytes
        { Version := 2, Typ := 1, SAType := 3, Seq := seq, PID := pid % 4294967296, Len := 10 }
      = [2, 1, 0, 3, 10, 0, 0, 0] ++ le32 seq ++ le32 pid := by
  have e0 : pid % 4294967296 % 256 = pid % 256 := by omega
  have e1 : pid % 4294967296 / 256 % 256 = pid / 256 % 256 := by omega
  have e2 : pid % 4294967296 / 65536 % 256 = pid / 65536 % 256 := by omega
  have e3 : pid % 4294967296 / 16777216 % 256 = pid / 16777216 % 256 := by omega
  simp [SADBMsg.getBytes, le16, le32, e0, e1, e2, e3]

theorem writeToBuffer_getspiMsg (pid seq a b c d e f g h : Nat) :
    writeToBuffer (getspiMsg pid seq a b c d e f g h 10) []
      = .ok ([2, 1, 0, 3, 10, 0, 0, 0] ++ le32 seq ++ le32 pid
          ++ [3, 0, 5, 0, 0, 32, 0, 0, 2, 0, 0, 0, a % 256, b % 256, c % 256, d % 256,
              0, 0, 0, 0, 0, 0, 0, 0]
          ++ [3, 0, 6, 0, 0, 32, 0, 0, 2, 0, 0, 0, e % 256, f % 256, g % 256, h % 256,
              0, 0, 0, 0, 0, 0, 0, 0]
          ++ [2, 0, 16, 0, 10, 0, 0, 0, 128, 150, 152, 0, 0, 0, 0, 0]) := by
  have hl := writeToBuffer_layout (getspiMsg pid seq a b c d e f g h 10) rfl rfl
  rw [hl]
  simp only [getspiMsg, getBytes_sockAddrIn_ipv4, getBytes_spirange_default,
    getBytes_getspi_header, Bool.false_eq_true, if_false, if_true, List.append_nil]
  rfl

/-- C19: for every seq, every pid and every pair of 16-byte IPv4 nodes `a.b.c.d`,
`e.f.g.h` with port 0, `SendSADBGETSPI` sends exactly 80 bytes: the header
`[2,1,0,3, 10,0, 0,0, seq LE32, pid LE32]`, the ADDRESS_SRC and ADDRESS_DST extensions
with their `sockaddr_in`, and the SPIRANGE extension with min 10 and max 10000000. -/
theorem SendSADBGETSPI_bytes (pid seq : Nat) (ps qs : List Nat) (a b c d e f g h : Nat)
    (hps : ps.length = 12) (hqs : qs.length = 12)
    (ha : a < 256) (hb : b < 256) (hc : c < 256) (hd : d < 256)
    (he : e < 256) (hf : f < 256) (hg : g < 256) (hh : h < 256) :
    SendSADBGETSPI pid seq (ipv4Node ps a b c d 0) (ipv4Node qs e f g h 0)
      = .ok ([2, 1, 0, 3, 10, 0, 0, 0] ++ le32 seq ++ le32 pid
          ++ [3, 0, 5, 0, 0, 32, 0, 0, 2, 0, 0, 0, a, b, c, d, 0, 0, 0, 0, 0, 0, 0, 0]
          ++ [3, 0, 6, 0, 0, 32, 0, 0, 2, 0, 0, 0, e, f, g, h, 0, 0, 0, 0, 0, 0, 0, 0]
          ++ [2, 0, 16, 0, 10, 0, 0, 0, 128, 150, 152, 0, 0, 0, 0, 0])
    ∧ ∀ bytes, SendSADBGETSPI pid seq (ipv4Node ps a b c d 0) (ipv4Node qs e f g h 0)
        = .ok bytes → bytes.length = 80 := by
  have main : SendSADBGETSPI pid seq (ipv4Node ps a b c d 0) (ipv4Node qs e f g h 0)
      = .ok ([2, 1, 0, 3, 10, 0, 0, 0] ++ le32 seq ++ le32 pid
          ++ [3, 0, 5, 0, 0, 32, 0, 0, 2, 0, 0, 0, a, b, c, d, 0, 0, 0, 0, 0, 0, 0, 0]
          ++ [3, 0, 6, 0, 0, 32, 0, 0, 2, 0, 0, 0, e, f, g, h, 0, 0, 0, 0, 0, 0, 0, 0]
          ++ [2, 0, 16, 0, 10, 0, 0, 0, 128, 150, 152, 0, 0, 0, 0, 0]) := by
    unfold SendSADBGETSPI
    rw [BuildSADBGETSPI_ipv4 pid seq ps qs a b c d e f g h hps hqs]
    simp only [SendMsg, setMsgLen_getspiMsg, writeToBuffer_getspiMsg, Nat.mod_eq_of_lt ha,
      Nat.mod_eq_of_lt hb, Nat.mod_eq_of_lt hc, Nat.mod_eq_of_lt hd, Nat.mod_eq_of_lt he,
      Nat.mod_eq_of_lt hf, Nat.mod_eq_of_lt hg, Nat.mod_eq_of_lt hh]
  refine ⟨main, ?_⟩
  intro bytes hb2
  rw [main] at hb2
  cases hb2
  simp [le32]

/-- `SendSADBGETSPI(1234, 1.2.3.4, 5.6.7.8)` of `TestSendingSADBGETSPI`, for pid 4660. -/
theorem SendSADBGETSPI_bytes_witness :
    SendSADBGETSPI 4660 1234 (ipv4Node [0, 0, 0, 0, 0, 0, 0, 0, 0, 0, 255, 255] 1 2 3 4 0)
        (ipv4Node [0, 0, 0, 0, 0, 0, 0, 0, 0, 0, 255, 255] 5 6 7 8 0)
      = .ok ([2, 1, 0, 3, 10, 0, 0, 0] ++ le32 1234 ++ le32 4660
          ++ [3, 0, 5, 0, 0, 32, 0, 0, 2, 0, 0, 0, 1, 2, 3, 4, 0, 0, 0, 0, 0, 0, 0, 0]
          ++ [3, 0, 6, 0, 0, 32, 0, 0, 2, 0, 0, 0, 5, 6, 7, 8, 0, 0, 0, 0, 0, 0, 0, 0]
          ++ [2, 0, 16, 0, 10, 0, 0, 0, 128, 150, 152, 0, 0, 0, 0, 0]) :=
  (SendSADBGETSPI_bytes 4660 1234 [0, 0, 0, 0, 0, 0, 0, 0, 0, 0, 255, 255]
    [0, 0, 0, 0, 0, 0, 0, 0, 0, 0, 255, 255] 1 2 3 4 5 6 7 8 (by decide) (by decide)
    (by decide) (by decide) (by decide) (by decide) (by decide) (by decide) (by decide)
    (by decide)).1

/-- C20: for every seq, spi, pair of 16-byte IPv4 nodes and key, `BuildSADBADD` returns
the message with header Version 2, Type ADD (3), SAType ESP (3), Seq, PID, exactly the
extensions SA (Len 2, ExtType 1, the SPI as given, State MATURE, Encrypt 12),
LIFETIME_SOFT (Addtime 60), LIFETIME_HARD (Addtime 90), ADDRESS_SRC, ADDRESS_DST and
KEY_ENCRYPT (Bits 256, the key bytes) present, and the header `Len` already computed:
19 words plus one per 8 key bytes, 23 for a 32-byte key. -/
theorem BuildSADBADD_message (pid seq spi : Nat) (ps qs key : List Nat)
    (a b c d e f g h sp dp : Nat) (hps : ps.length = 12) (hqs : qs.length = 12) :
    BuildSADBADD pid seq spi (ipv4Node ps a b c d sp) (ipv4Node qs e f g h dp) key
      = .ok
        { Msg := { Version := 2, Typ := 3, SAType := 3, Seq := seq, PID := pid % 4294967296,
                   Len := (19 + key.length / 8) % 65536 }
          Extensions :=
            { SA := { Len := 2, ExtType := 1, SPI := spi, State := 1, Encrypt := 12 }
              LifetimeSoft := { Len := 4, ExtType := 4, Addtime := 60 }
              LifetimeHard := { Len := 4, ExtType := 3, Addtime := 90 }
              AddressSrc := { Len := 3, ExtType := 5, Proto := 0, PrefixLen := 32 }
              SockAddrSrc := { SinFamily := 2, SinPort := sp, SinAddr := (a, b, c, d) }
              AddressDst := { Len := 3, ExtType := 6, Proto := 0, PrefixLen := 32 }
              SockAddrDst := { SinFamily := 2, SinPort := dp, SinAddr := (e, f, g, h) }
              EncryptKey := { Len := (1 + key.length / 8) % 65536, ExtType := 9, Bits := 256 }
              EncryptKeyBits := key }
          Present := { SA := true, LifetimeSoft := true, LifetimeHard := true,
                       AddressSrc := true, AddressDst := true, EncryptKey := true } }
    ∧ (key.length = 32 → (19 + key.length / 8) % 65536 = 23) := by
  constructor
  · have k1 : (1 + key.length / 8 % 65536) % 65536 = (1 + key.length / 8) % 65536 := by omega
    have k2 : (((2 + 4) % 65536 + 4) % 65536 + 3) % 65536 = 13 := by decide
    have k3 : (((13 + 3) % 65536 + (1 + key.length / 8) % 65536) % 65536 + 2) % 65536
        = (19 + key.length / 8) % 65536 := by omega
    simp [BuildSADBADD, SetSA, SetLifetimeSoft, SetLifetimeHard, SetAddressSrc, SetAddressDst,
      SetEncryptKey, buildSockAddr_ipv4Node, hps, hqs, setMsgLen, addIf, add16, HasSA,
      HasLifetimeCurrent, HasLifetimeHard, HasLifetimeSoft, HasAddressSrc, HasAddressDst,
      HasAuthKey, HasEncryptKey, HasSPIRange, PF_KEY_V2, SADB_ADD, SADB_SATYPE_ESP,
      SADB_SASTATE_MATURE, SADBMSG_LEN, SADBSA_LEN, SADBLIFETIME_LEN, SADBADDRESS_LEN,
      SOCKADDRIN_LEN, SADBKEY_LEN, WORD_SIZE, SADB_EXT_SA, SADB_EXT_LIFETIME_SOFT,
      SADB_EXT_LIFETIME_HARD, SADB_EXT_ADDRESS_SRC, SADB_EXT_ADDRESS_DST, SADB_EXT_KEY_ENCRYPT,
      AF_INET, k1, k2, k3]
    omega
  · intro hk
    rw [hk]

/-- The call of `TestBuildSADBADD`: a 32-byte key gives header `Len = 23`. -/
theorem BuildSADBADD_message_witness :
    (BuildSADBADD 4660 1234 421321321
        (ipv4Node [0, 0, 0, 0, 0, 0, 0, 0, 0, 0, 255, 255] 1 2 3 4 0)
        (ipv4Node [0, 0, 0, 0, 0, 0, 0, 0, 0, 0, 255, 255] 5 6 7 8 0)
        (List.replicate 32 7)).map (fun m => (m.Msg.Len, m.Extensions.SA.SPI, m.Present.EncryptKey))
      = .ok (23, 421321321, true) := by
  rw [(BuildSADBADD_message 4660 1234 421321321 [0, 0, 0, 0, 0, 0, 0, 0, 0, 0, 255, 255]
    [0, 0, 0, 0, 0, 0, 0, 0, 0, 0, 255, 255] (List.replicate 32 7) 1 2 3 4 5 6 7 8 0 0
    (by decide) (by decide)).1]
  rfl

/-! ## `BuildSADBUPDATE` -/

/-- C21: for all arguments, `BuildSADBUPDATE` returns the message `BuildSADBADD` returns
on the same arguments with the header type replaced by `SADB_UPDATE` (6), every other
field being equal (and it panics where `BuildSADBADD` does); the header type of the ADD
message is `SADB_ADD` (3).  This is the message the spec describes: the ADD construction
on a header of type UPDATE. -/
theorem BuildSADBUPDATE_eq_ADD_retyped (pid seq spi : Nat) (src dst : Node)
    (encryptKey : List Nat) :
    BuildSADBUPDATE pid seq spi src dst encryptKey
        = (BuildSADBADD pid seq spi src dst encryptKey).map
            (fun m => { m with Msg := { m.Msg with Typ := SADB_UPDATE } })
    ∧ BuildSADBUPDATE pid seq spi src dst encryptKey
        = specBuildUPDATE pid seq spi src dst encryptKey
    ∧ (BuildSADBADD pid seq spi src dst encryptKey).map (fun m => m.Msg.Typ)
        = (BuildSADBADD pid seq spi src dst encryptKey).map (fun _ => SADB_ADD)
    ∧ SADB_UPDATE = 6 ∧ SADB_ADD = 3 := by
  refine ⟨?_, ?_, ?_, rfl, rfl⟩
  · unfold BuildSADBUPDATE
    cases BuildSADBADD pid seq spi src dst encryptKey <;> rfl
  · unfold BuildSADBUPDATE BuildSADBADD specBuildUPDATE
    simp only [SetAddressSrc, SetAddressDst]
    cases src.buildSockAddr with
    | error e => rfl
    | ok s =>
      cases dst.buildSockAddr with
      | error e => rfl
      | ok d => rfl
  · unfold BuildSADBADD
    simp only [SetAddressSrc, SetAddressDst]
    cases src.buildSockAddr with
    | error e => rfl
    | ok s =>
      cases dst.buildSockAddr with
      | error e => rfl
      | ok d => rfl

/-! ## `BuildSADBDELETE` -/

theorem BuildSADBDELETE_ipv4 (pid spi : Nat) (ps qs : List Nat) (a b c d sp e f g h dp : Nat)
    (hps : ps.length = 12) (hqs : qs.length = 12) :
    BuildSADBDELETE pid spi (ipv4Node ps a b c d sp) (ipv4Node qs e f g h dp)
      = .ok (deleteMsg pid spi a b c d sp e f g h dp 0 0) := by
  unfold BuildSADBDELETE
  simp only [SetAddressSrc, SetAddressDst, buildSockAddr_ipv4Node ps a b c d sp hps,
    buildSockAddr_ipv4Node qs e f g h dp hqs]
  rfl

theorem setMsgLen_deleteMsg (pid spi a b c d sp e f g h dp : Nat) :
    setMsgLen (deleteMsg pid spi a b c d sp e f g h dp 0 0)
      = deleteMsg pid spi a b c d sp e f g h dp 2 10 := by
  simp [setMsgLen, deleteMsg, addIf, add16, HasSA, HasLifetimeCurrent, HasLifetimeHard,
    HasLifetimeSoft, HasAddressSrc, HasAddressDst, HasAuthKey, HasEncryptKey, HasSPIRange,
    SADBMSG_LEN, PF_KEY_V2]

theorem getBytes_sockAddrIn_port (a b c d sp : Nat) :
    sockAddrIn.getBytes { SinFamily := 2, SinPort := sp, SinAddr := (a, b, c, d) }
      = [2, 0] ++ le16 sp ++ [a % 256, b % 256, c % 256, d % 256, 0, 0, 0, 0, 0, 0, 0, 0] := by
  simp [sockAddrIn.getBytes, le16, le16i]

theorem getBytes_delete_header (pid : Nat) :
    SADBMsg.getBytes
        { Version := 2, Typ := 4, SAType := 3, PID := pid % 4294967296, Len := 10 }
      = [2, 4, 0, 3, 10, 0, 0, 0, 0, 0, 0, 0] ++ le32 pid := by
  have e0 : pid % 4294967296 % 256 = pid % 256 := by omega
  have e1 : pid % 4294967296 / 256 % 256 = pid / 256 % 256 := by omega
  have e2 : pid % 4294967296 / 65536 % 256 = pid / 65536 % 256 := by omega
  have e3 : pid % 4294967296 / 16777216 % 256 = pid / 16777216 % 256 := by omega
  simp [SADBMsg.getBytes, le16, le32, e0, e1, e2, e3]

theorem getBytes_delete_SA (spi : Nat) :
    SADBSA.getBytes { Len := 2, ExtType := 1, SPI := spi }
      = [2, 0, 1, 0] ++ le32 spi ++ [0, 0, 0, 0, 0, 0, 0, 0] := by
  simp [SADBSA.getBytes, le16, le32]

theorem writeToBuffer_deleteMsg (pid spi a b c d sp e f g h dp : Nat) :
    writeToBuffer (deleteMsg pid spi a b c d sp e f g h dp 2 10) []
      = .ok ([2, 4, 0, 3, 10, 0, 0, 0, 0, 0, 0, 0] ++ le32 pid
          ++ ([2, 0, 1, 0] ++ le32 spi ++ [0, 0, 0, 0, 0, 0, 0, 0])
          ++ ([3, 0, 5, 0, 0, 32, 0, 0]
              ++ ([2, 0] ++ le16 sp
                  ++ [a % 256, b % 256, c % 256, d % 256, 0, 0, 0, 0, 0, 0, 0, 0]))
          ++ ([3, 0, 6, 0, 0, 32, 0, 0]
              ++ ([2, 0] ++ le16 dp
                  ++ [e % 256, f % 256, g % 256, h % 256, 0, 0, 0, 0, 0, 0, 0, 0]))) := by
  have hl := writeToBuffer_layout (deleteMsg pid spi a b c d sp e f g h dp 2 10) rfl rfl
  rw [hl]
  simp only [deleteMsg, getBytes_sockAddrIn_port, getBytes_delete_header, getBytes_delete_SA,
    Bool.false_eq_true, if_false, if_true, List.append_nil]
  rfl

/-- C22, as stated, fails: the DELETE message for SPI 31337 between 1.2.3.4 and 5.6.7.8 is
serialized by `SendMsg` to 80 bytes whose header carries the length 10, not to 64 bytes
with header length 8. -/
theorem SendMsg_DELETE_is_80_bytes :
    ((BuildSADBDELETE 4660 31337 { Addr := netIPv4 1 2 3 4 } { Addr := netIPv4 5 6 7 8 }).bind
        SendMsg).map (fun bytes => (bytes.length, bytes.take 6))
      = .ok (80, [2, 4, 0, 3, 10, 0]) := by
  decide

/-- C22, amended. For every spi and every pair of 16-byte IPv4 nodes, `BuildSADBDELETE`
returns the message with header Type DELETE (4), SAType ESP (3), PID pid and exactly the
three extensions SA (Len 2, ExtType 1, the SPI, every other field 0), ADDRESS_SRC and
ADDRESS_DST present; `SendMsg` serializes it to 80 bytes: the header with version byte 2
and length 10, the SA (16 bytes) and the two addresses with their `sockaddr_in` (24 bytes
each). -/
theorem BuildSADBDELETE_message (pid spi : Nat) (ps qs : List Nat)
    (a b c d sp e f g h dp : Nat) (hps : ps.length = 12) (hqs : qs.length = 12)
    (ha : a < 256) (hb : b < 256) (hc : c < 256) (hd : d < 256)
    (he : e < 256) (hf : f < 256) (hg : g < 256) (hh : h < 256) :
    BuildSADBDELETE pid spi (ipv4Node ps a b c d sp) (ipv4Node qs e f g h dp)
      = .ok
        { Msg := { Typ := 4, SAType := 3, PID := pid % 4294967296 }
          Extensions :=
            { SA := { Len := 2, ExtType := 1, SPI := spi }
              AddressSrc := { Len := 3, ExtType := 5, Proto := 0, PrefixLen := 32 }
              SockAddrSrc := { SinFamily := 2, SinPort := sp, SinAddr := (a, b, c, d) }
              AddressDst := { Len := 3, ExtType := 6, Proto := 0, PrefixLen := 32 }
              SockAddrDst := { SinFamily := 2, SinPort := dp, SinAddr := (e, f, g, h) } }
          Present := { SA := true, AddressSrc := true, AddressDst := true } }
    ∧ (BuildSADBDELETE pid spi (ipv4Node ps a b c d sp) (ipv4Node qs e f g h dp)).bind SendMsg
      = .ok ([2, 4, 0, 3, 10, 0, 0, 0, 0, 0, 0, 0] ++ le32 pid
          ++ ([2, 0, 1, 0] ++ le32 spi ++ [0, 0, 0, 0, 0, 0, 0, 0])
          ++ ([3, 0, 5, 0, 0, 32, 0, 0]
              ++ ([2, 0] ++ le16 sp ++ [a, b, c, d, 0, 0, 0, 0, 0, 0, 0, 0]))
          ++ ([3, 0, 6, 0, 0, 32, 0, 0]
              ++ ([2, 0] ++ le16 dp ++ [e, f, g, h, 0, 0, 0, 0, 0, 0, 0, 0])))
    ∧ ((BuildSADBDELETE pid spi (ipv4Node ps a b c d sp) (ipv4Node qs e f g h dp)).bind
          SendMsg).map List.length = .ok 80 := by
  have hB := BuildSADBDELETE_ipv4 pid spi ps qs a b c d sp e f g h dp hps hqs
  have hS : (BuildSADBDELETE pid spi (ipv4Node ps a b c d sp)
      (ipv4Node qs e f g h dp)).bind SendMsg
      = .ok ([2, 4, 0, 3, 10, 0, 0, 0, 0, 0, 0, 0] ++ le32 pid
          ++ ([2, 0, 1, 0] ++ le32 spi ++ [0, 0, 0, 0, 0, 0, 0, 0])
          ++ ([3, 0, 5, 0, 0, 32, 0, 0]
              ++ ([2, 0] ++ le16 sp ++ [a, b, c, d, 0, 0, 0, 0, 0, 0, 0, 0]))
          ++ ([3, 0, 6, 0, 0, 32, 0, 0]
              ++ ([2, 0] ++ le16 dp ++ [e, f, g, h, 0, 0, 0, 0, 0, 0, 0, 0]))) := by
    rw [hB]
    simp only [Except.bind, SendMsg, setMsgLen_deleteMsg, writeToBuffer_deleteMsg,
      Nat.mod_eq_of_lt ha, Nat.mod_eq_of_lt hb, Nat.mod_eq_of_lt hc, Nat.mod_eq_of_lt hd,
      Nat.mod_eq_of_lt he, Nat.mod_eq_of_lt hf, Nat.mod_eq_of_lt hg, Nat.mod_eq_of_lt hh]
  refine ⟨?_, hS, ?_⟩
  · rw [hB]
    rfl
  · rw [hS]
    simp [Except.map, le16, le32]

/-- The DELETE message for SPI 31337 between 1.2.3.4 and 5.6.7.8, pid 4660. -/
theorem BuildSADBDELETE_message_witness :
    ((BuildSADBDELETE 4660 31337 (ipv4Node [0, 0, 0, 0, 0, 0, 0, 0, 0, 0, 255, 255] 1 2 3 4 0)
        (ipv4Node [0, 0, 0, 0, 0, 0, 0, 0, 0, 0, 255, 255] 5 6 7 8 0)).bind
          SendMsg).map List.length = .ok 80 :=
  (BuildSADBDELETE_message 4660 31337 [0, 0, 0, 0, 0, 0, 0, 0, 0, 0, 255, 255]
    [0, 0, 0, 0, 0, 0, 0, 0, 0, 0, 255, 255] 1 2 3 4 0 5 6 7 8 0 (by decide) (by decide)
    (by decide) (by decide) (by decide) (by decide) (by decide) (by decide) (by decide)
    (by decide)).2.2

/-! ## The length of a key extension -/

/-- C23, at the failing input: for the 20-byte key `key20`, `SetAuthKey` and
`SetEncryptKey` store `Len = 3` (the header word and `20 / 8 = 2` words, rounding down),
while `SADBKEY_LEN + ceil(20 / 8)` is 4. -/
theorem SetKey_len_rounds_down :
    (SetAuthKey {} key20 160).Extensions.AuthKey.Len = 3
      ∧ (SetEncryptKey {} key20 160).Extensions.EncryptKey.Len = 3
      ∧ SADBKEY_LEN + (key20.length + 7) / 8 = 4 := by
  decide

/-! ## What one iteration of the parser does to the message -/

theorem readExtension_ok_cases (slack : Nat) (buf buf1 : List Nat) (m m1 : Msg)
    (h : readExtension slack buf m = .ok (buf1, m1)) :
    (∃ sa, m1 = SetSA m sa)
    ∨ (∃ lt, m1 = SetLifetimeHard m lt)
    ∨ (∃ lt, m1 = SetLifetimeSoft m lt)
    ∨ (∃ lt, m1 = SetLifetimeCurrent m lt)
    ∨ (∃ n, SetAddressSrc m n = .ok m1)
    ∨ (∃ n, SetAddressDst m n = .ok m1)
    ∨ (∃ algs, m1 = { m with
          Extensions := { m.Extensions with AuthAlgorithms := algs }
          Present := { m.Present with AuthAlgorithms := true } })
    ∨ (∃ algs, m1 = { m with
          Extensions := { m.Extensions with EncryptAlgorithms := algs }
          Present := { m.Present with EncryptAlgorithms := true } })
    ∨ (∃ prop combs, m1 = { m with
          Extensions := { m.Extensions with Proposal := prop, ProposalCombs := combs }
          Present := { m.Present with Proposal := true } })
    ∨ m1 = m
    ∨ (∃ xp, m1 = { m with
          Extensions := { m.Extensions with XPolicy := xp }
          Present := { m.Present with XPolicy := true } }) := by
  unfold readExtension at h
  split at h
  · cases h
  · rename_i ext hext
    by_cases c0 : ext.Typ = SADB_EXT_SA
    · rw [if_pos c0] at h
      split at h
      · cases h
      · rename_i v b hv
        cases h
        exact Or.inl (⟨v, rfl⟩)
    rw [if_neg c0] at h
    by_cases c1 : ext.Typ = SADB_EXT_LIFETIME_HARD
    · rw [if_pos c1] at h
      split at h
      · cases h
      · rename_i v b hv
        cases h
        exact Or.inr (Or.inl (⟨v, rfl⟩))
    rw [if_neg c1] at h
    by_cases c2 : ext.Typ = SADB_EXT_LIFETIME_SOFT
    · rw [if_pos c2] at h
      split at h
      · cases h
      · rename_i v b hv
        cases h
        exact Or.inr (Or.inr (Or.inl (⟨v, rfl⟩)))
    rw [if_neg c2] at h
    by_cases c3 : ext.Typ = SADB_EXT_LIFETIME_CURRENT
    · rw [if_pos c3] at h
      split at h
      · cases h
      · rename_i v b hv
        cases h
        exact Or.inr (Or.inr (Or.inr (Or.inl (⟨v, rfl⟩))))
    rw [if_neg c3] at h
    by_cases c4 : ext.Typ = SADB_EXT_ADDRESS_SRC
    · rw [if_pos c4] at h
      split at h
      · cases h
      · rename_i v b hv
        split at h
        · cases h
        · rename_i m2 hm
          cases h
          exact Or.inr (Or.inr (Or.inr (Or.inr (Or.inl (⟨v, hm⟩)))))
    rw [if_neg c4] at h
    by_cases c5 : ext.Typ = SADB_EXT_ADDRESS_DST
    · rw [if_pos c5] at h
      split at h
      · cases h
      · rename_i v b hv
        split at h
        · cases h
        · rename_i m2 hm
          cases h
          exact Or.inr (Or.inr (Or.inr (Or.inr (Or.inr (Or.inl (⟨v, hm⟩))))))
    rw [if_neg c5] at h
    by_cases c6 : ext.Typ = SADB_EXT_SUPPORTED_AUTH
    · rw [if_pos c6] at h
      split at h
      · cases h
      · rename_i v b hv
        cases h
        exact Or.inr (Or.inr (Or.inr (Or.inr (Or.inr (Or.inr (Or.inl (⟨v, rfl⟩)))))))
    rw [if_neg c6] at h
    by_cases c7 : ext.Typ = SADB_EXT_SUPPORTED_ENCRYPT
    · rw [if_pos c7] at h
      split at h
      · cases h
      · rename_i v b hv
        cases h
        exact Or.inr (Or.inr (Or.inr (Or.inr (Or.inr (Or.inr (Or.inr (Or.inl (⟨v, rfl⟩))))))))
    rw [if_neg c7] at h
    by_cases c8 : ext.Typ = SADB_EXT_PROPOSAL
    · rw [if_pos c8] at h
      split at h
      · cases h
      · rename_i v b hv
        split at h
        · cases h
        · rename_i cs b2 hc
          cases h
          exact Or.inr (Or.inr (Or.inr (Or.inr (Or.inr (Or.inr (Or.inr (Or.inr (Or.inl (⟨v, cs, rfl⟩)))))))))
    rw [if_neg c8] at h
    by_cases c9 : ext.Typ = SADB_EXT_ADDRESS_PROXY
    · rw [if_pos c9] at h
      cases h
      exact Or.inr (Or.inr (Or.inr (Or.inr (Or.inr (Or.inr (Or.inr (Or.inr (Or.inr (Or.inl (rfl))))))))))
    rw [if_neg c9] at h
    by_cases c10 : ext.Typ = SADB_EXT_KEY_AUTH
    · rw [if_pos c10] at h
      cases h
      exact Or.inr (Or.inr (Or.inr (Or.inr (Or.inr (Or.inr (Or.inr (Or.inr (Or.inr (Or.inl (rfl))))))))))
    rw [if_neg c10] at h
    by_cases c11 : ext.Typ = SADB_EXT_KEY_ENCRYPT
    · rw [if_pos c11] at h
      cases h
      exact Or.inr (Or.inr (Or.inr (Or.inr (Or.inr (Or.inr (Or.inr (Or.inr (Or.inr (Or.inl (rfl))))))))))
    rw [if_neg c11] at h
    by_cases c12 : ext.Typ = SADB_X_EXT_SA2
    · rw [if_pos c12] at h
      cases h
      exact Or.inr (Or.inr (Or.inr (Or.inr (Or.inr (Or.inr (Or.inr (Or.inr (Or.inr (Or.inl (rfl))))))))))
    rw [if_neg c12] at h
    by_cases c13 : ext.Typ = SADB_X_EXT_POLICY
    · rw [if_pos c13] at h
      split at h
      · cases h
      · rename_i v b hv
        cases h
        exact Or.inr (Or.inr (Or.inr (Or.inr (Or.inr (Or.inr (Or.inr (Or.inr (Or.inr (Or.inr (⟨v, rfl⟩))))))))))
    rw [if_neg c13] at h
    cases h

/-! ## Canonical header values -/

theorem CanonicalPresent_step (slack : Nat) (buf buf1 : List Nat) (m m1 : Msg)
    (h : readExtension slack buf m = .ok (buf1, m1)) (hc : CanonicalPresent m) :
    CanonicalPresent m1 := by
  obtain ⟨c1, c2, c3, c4, c5, c6⟩ := hc
  rcases readExtension_ok_cases slack buf buf1 m m1 h with
    ⟨v, rfl⟩ | ⟨v, rfl⟩ | ⟨v, rfl⟩ | ⟨v, rfl⟩ | ⟨n, hn⟩ | ⟨n, hn⟩ | ⟨v, rfl⟩ | ⟨v, rfl⟩
      | ⟨v, w, rfl⟩ | rfl | ⟨v, rfl⟩
  · exact ⟨fun _ => ⟨rfl, rfl⟩, c2, c3, c4, c5, c6⟩
  · exact ⟨c1, c2, fun _ => ⟨rfl, rfl⟩, c4, c5, c6⟩
  · exact ⟨c1, c2, c3, fun _ => ⟨rfl, rfl⟩, c5, c6⟩
  · exact ⟨c1, fun _ => ⟨rfl, rfl⟩, c3, c4, c5, c6⟩
  · unfold SetAddressSrc at hn
    split at hn
    · cases hn
    · cases hn
      exact ⟨c1, c2, c3, c4, fun _ => ⟨rfl, rfl⟩, c6⟩
  · unfold SetAddressDst at hn
    split at hn
    · cases hn
    · cases hn
      exact ⟨c1, c2, c3, c4, c5, fun _ => ⟨rfl, rfl⟩⟩
  · exact ⟨c1, c2, c3, c4, c5, c6⟩
  · exact ⟨c1, c2, c3, c4, c5, c6⟩
  · exact ⟨c1, c2, c3, c4, c5, c6⟩
  · exact ⟨c1, c2, c3, c4, c5, c6⟩
  · exact ⟨c1, c2, c3, c4, c5, c6⟩

theorem CanonicalPresent_loop (slack fuel : Nat) :
    ∀ (buf : List Nat) (m x : Msg), CanonicalPresent m →
      readExtensions slack fuel buf m = some (.ok x) → CanonicalPresent x := by
  induction fuel with
  | zero =>
    intro buf m x hc h
    rw [readExtensions] at h
    split at h
    · cases h
      exact hc
    · cases h
  | succ f ih =>
    intro buf m x hc h
    rw [readExtensions] at h
    split at h
    · cases h
      exact hc
    · split at h
      · cases h
      · rename_i b1 m1 hs
        exact ih b1 m1 x (CanonicalPresent_step slack buf b1 m m1 hs hc) h

theorem CanonicalPresent_parseMsg (fuel : Nat) (data : List Nat) (x : Msg)
    (h : parseMsg fuel data = some (.ok x)) : CanonicalPresent x := by
  unfold parseMsg at h
  split at h
  · cases h
  · rename_i hdr buf hh
    split at h
    · cases h
    · cases h
    · rename_i y hy
      have hc : CanonicalPresent { Msg := hdr } := by
        refine ⟨?_, ?_, ?_, ?_, ?_, ?_⟩ <;> intro hf <;> cases hf
      have hy2 := CanonicalPresent_loop _ _ _ _ _ hc hy
      split at h
      · cases h
      · cases h
        exact hy2

theorem CanonicalPresent_ReadMsg (sock sock1 : PFKEY) (m : Msg)
    (h : ReadMsg sock = some (.ok m, sock1)) : CanonicalPresent m := by
  unfold ReadMsg at h
  split at h
  · cases h
  · rename_i r rest hs
    split at h
    · cases h
    · rename_i res hres
      cases h
      unfold readReply at hres
      split at hres
      · cases hres
      · exact CanonicalPresent_parseMsg _ _ _ hres

/-- C24: the setters store the canonical header values whatever `Len` and `ExtType`
their argument carries: `SetSA` stores Len 2 and ExtType 1, `SetLifetimeCurrent`,
`SetLifetimeHard`, `SetLifetimeSoft` Len 4 and ExtType 2, 3, 4, `SetAddressSrc`,
`SetAddressDst` (when they return) Len 3 and ExtType 5, 6, `SetSPIRANGE` Len 2 and
ExtType 16, each with its presence flag set; and every message `ReadMsg` returns carries
these values for each of SA, the lifetimes and the addresses that it marks present. -/
theorem setters_store_canonical (p q1 q2 m : Msg) (sa : SADBSA) (lt : SADBLifetime)
    (src dst : Node) (min max : Int) (sock sock1 : PFKEY)
    (hs : SetAddressSrc p src = .ok q1) (hd : SetAddressDst p dst = .ok q2)
    (hr : ReadMsg sock = some (.ok m, sock1)) :
    ((SetSA p sa).Extensions.SA.Len = 2 ∧ (SetSA p sa).Extensions.SA.ExtType = 1
        ∧ (SetSA p sa).Present.SA = true)
    ∧ ((SetLifetimeCurrent p lt).Extensions.LifetimeCurrent.Len = 4
        ∧ (SetLifetimeCurrent p lt).Extensions.LifetimeCurrent.ExtType = 2
        ∧ (SetLifetimeCurrent p lt).Present.LifetimeCurrent = true)
    ∧ ((SetLifetimeHard p lt).Extensions.LifetimeHard.Len = 4
        ∧ (SetLifetimeHard p lt).Extensions.LifetimeHard.ExtType = 3
        ∧ (SetLifetimeHard p lt).Present.LifetimeHard = true)
    ∧ ((SetLifetimeSoft p lt).Extensions.LifetimeSoft.Len = 4
        ∧ (SetLifetimeSoft p lt).Extensions.LifetimeSoft.ExtType = 4
        ∧ (SetLifetimeSoft p lt).Present.LifetimeSoft = true)
    ∧ (q1.Extensions.AddressSrc.Len = 3 ∧ q1.Extensions.AddressSrc.ExtType = 5
        ∧ q1.Present.AddressSrc = true)
    ∧ (q2.Extensions.AddressDst.Len = 3 ∧ q2.Extensions.AddressDst.ExtType = 6
        ∧ q2.Present.AddressDst = true)
    ∧ ((SetSPIRANGE p min max).Extensions.SPIRange.Len = 2
        ∧ (SetSPIRANGE p min max).Extensions.SPIRange.ExtType = 16
        ∧ (SetSPIRANGE p min max).Present.SPIRange = true)
    ∧ CanonicalPresent m := by
  refine ⟨⟨rfl, rfl, rfl⟩, ⟨rfl, rfl, rfl⟩, ⟨rfl, rfl, rfl⟩, ⟨rfl, rfl, rfl⟩, ?_, ?_,
    ⟨rfl, rfl, rfl⟩, CanonicalPresent_ReadMsg sock sock1 m hr⟩
  · unfold SetAddressSrc at hs
    split at hs
    · cases hs
    · cases hs
      exact ⟨rfl, rfl, rfl⟩
  · unfold SetAddressDst at hd
    split at hd
    · cases hd
    · cases hd
      exact ⟨rfl, rfl, rfl⟩

/-- The message `ReadMsg` returns on `zeroLenSABytes`, whose SA extension declares length
0 on the wire, has the SA with Len 2 and ExtType 1. -/
theorem setters_store_canonical_witness :
    CanonicalPresent (saOnlyMsg 4) :=
  (setters_store_canonical {} addressSrcMsg addressDstMsg (saOnlyMsg 4) {} {}
    { Addr := netIPv4 1 2 3 4 } { Addr := netIPv4 5 6 7 8 } 10 20
    { socket := [.ok zeroLenSABytes] } { socket := [] } rfl rfl (by decide)).2.2.2.2.2.2.2

/-! ## Serializing PROPOSAL and X_POLICY -/

/-- C25: for a message in which PROPOSAL or X_POLICY is marked present, `writeToBuffer`
does not return success: it ends in `simplelog.Fatal` ("Writing of ... is not
implemented"), and so does `SendMsg`. -/
theorem writeToBuffer_proposal_xpolicy_fatal (p : Msg) (buf : List Nat)
    (h : p.Present.Proposal = true ∨ p.Present.XPolicy = true) :
    writeToBuffer p buf = .error .fatal ∧ SendMsg p = .error .fatal := by
  have key : ∀ (q : Msg) (b : List Nat),
      q.Present.Proposal = true ∨ q.Present.XPolicy = true →
      writeToBuffer q b = .error .fatal := by
    intro q b hq
    unfold writeToBuffer
    simp only
    by_cases hP : q.Present.Proposal = true
    · rw [if_pos hP]
    · rw [if_neg hP]
      rcases hq with hq | hq
      · exact absurd hq hP
      · rw [if_pos hq]
  exact ⟨key p buf h, key (setMsgLen p) [] h⟩

/-- A message with a PROPOSAL present is not serialized. -/
theorem writeToBuffer_proposal_xpolicy_fatal_witness :
    writeToBuffer acquireMsg [] = .error .fatal ∧ SendMsg acquireMsg = .error .fatal :=
  writeToBuffer_proposal_xpolicy_fatal acquireMsg [] (Or.inl rfl)

/-! ## Reads that run out of bytes -/

theorem readBytes_short (n : Nat) (buf : List Nat) (h0 : buf.length ≠ 0) (h : buf.length < n) :
    readBytes n buf = .error .ErrUnexpectedEOF := by
  unfold readBytes
  rw [if_neg h0, if_pos h]

theorem readBytes_fail (n : Nat) (buf : List Nat) (h : buf.length < n) :
    ∃ e, (e = Err.EOF ∨ e = Err.ErrUnexpectedEOF) ∧ readBytes n buf = .error e := by
  unfold readBytes
  by_cases h0 : buf.length = 0
  · exact ⟨.EOF, Or.inl rfl, by rw [if_pos h0]⟩
  · exact ⟨.ErrUnexpectedEOF, Or.inr rfl, by rw [if_neg h0, if_pos h]⟩

theorem readBytes_enough (n : Nat) (buf : List Nat) (h0 : buf.length ≠ 0) (h : n ≤ buf.length) :
    readBytes n buf = .ok (buf.take n, buf.drop n) := by
  unfold readBytes
  rw [if_neg h0, if_neg (by omega)]

theorem readAlgs_short (k : Nat) :
    ∀ (buf : List Nat) (acc : List SADBAlg), buf.length < 8 * k →
      ∃ e, (e = Err.EOF ∨ e = Err.ErrUnexpectedEOF) ∧ readAlgs k buf acc = .error e := by
  induction k with
  | zero => intro buf acc h; omega
  | succ k ih =>
    intro buf acc h
    rw [readAlgs]
    unfold SADBAlg.readFromBuffer
    by_cases h8 : buf.length < 8
    · obtain ⟨e, he, hre⟩ := readBytes_fail 8 buf h8
      exact ⟨e, he, by rw [hre]⟩
    · rw [readBytes_enough 8 buf (by omega) (by omega)]
      simp only
      exact ih _ _ (by rw [List.length_drop]; omega)

theorem readCombs_short (k : Nat) :
    ∀ (buf : List Nat) (acc : List SADBComb), buf.length < 68 * k →
      ∃ e, (e = Err.EOF ∨ e = Err.ErrUnexpectedEOF) ∧ readCombs k buf acc = .error e := by
  induction k with
  | zero => intro buf acc h; omega
  | succ k ih =>
    intro buf acc h
    rw [readCombs]
    unfold SADBComb.readFromBuffer
    by_cases h8 : buf.length < 68
    · obtain ⟨e, he, hre⟩ := readBytes_fail 68 buf h8
      exact ⟨e, he, by rw [hre]⟩
    · rw [readBytes_enough 68 buf (by omega) (by omega)]
      simp only
      exact ih _ _ (by rw [List.length_drop]; omega)

theorem SADBSA_step_short (m : Msg) (buf : List Nat) (h0 : buf.length ≠ 0)
    (h : buf.length < 16) :
    (match SADBSA.readFromBuffer buf with
      | .error e => (.error e : Except Err (List Nat × Msg))
      | .ok (newSA, b) => .ok (b, SetSA m newSA)) = .error .ErrUnexpectedEOF := by
  unfold SADBSA.readFromBuffer
  rw [readBytes_short 16 buf h0 h]

theorem SADBLifetime_step_short (f : SADBLifetime → Msg) (buf : List Nat)
    (h0 : buf.length ≠ 0) (h : buf.length < 32) :
    (match SADBLifetime.readFromBuffer buf with
      | .error e => (.error e : Except Err (List Nat × Msg))
      | .ok (newLT, b) => .ok (b, f newLT)) = .error .ErrUnexpectedEOF := by
  unfold SADBLifetime.readFromBuffer
  rw [readBytes_short 32 buf h0 h]

theorem readNodeFromBuffer_short (buf : List Nat) (h0 : buf.length ≠ 0) (h : buf.length < 24) :
    ∃ e, (e = Err.EOF ∨ e = Err.ErrUnexpectedEOF) ∧ readNodeFromBuffer buf = .error e := by
  unfold readNodeFromBuffer SADBAddress.readFromBuffer sockAddrIn.readFromBuffer
  by_cases h8 : buf.length < 8
  · exact ⟨.ErrUnexpectedEOF, Or.inr rfl, by rw [readBytes_short 8 buf h0 h8]⟩
  · rw [readBytes_enough 8 buf h0 (by omega)]
    simp only
    obtain ⟨e, he, hre⟩ := readBytes_fail 16 (buf.drop 8) (by rw [List.length_drop]; omega)
    exact ⟨e, he, by rw [hre]⟩

theorem readAlgorithms_short (l0 l1 t0 t1 : Nat) (tail : List Nat)
    (h : (l0 :: l1 :: t0 :: t1 :: tail).length < 8 + 8 * (u16 l0 l1 - 1)) :
    ∃ e, (e = Err.EOF ∨ e = Err.ErrUnexpectedEOF)
      ∧ readAlgorithms (l0 :: l1 :: t0 :: t1 :: tail) = .error e := by
  unfold readAlgorithms SADBSupported.readFromBuffer
  by_cases h8 : (l0 :: l1 :: t0 :: t1 :: tail).length < 8
  · exact ⟨.ErrUnexpectedEOF, Or.inr rfl, by rw [readBytes_short 8 _ (by simp) h8]⟩
  · rw [readBytes_enough 8 _ (by simp) (by omega)]
    simp only
    rcases tail with _ | ⟨a, _ | ⟨b, _ | ⟨c, _ | ⟨d, tl⟩⟩⟩⟩
    · simp at h8
    · simp at h8
    · simp at h8
    · simp at h8
    · have hL : (SADBSupported.ofBytes
          (List.take 8 (l0 :: l1 :: t0 :: t1 :: a :: b :: c :: d :: tl))).Len = u16 l0 l1 := rfl
      rw [hL]
      simp only [List.length_cons] at h
      exact readAlgs_short _ _ _ (by simp only [List.drop_succ_cons, List.drop_zero]; omega)

theorem SADBProp_step_short (l0 l1 t0 t1 : Nat) (tail : List Nat)
    (h : (l0 :: l1 :: t0 :: t1 :: tail).length < 8 + 68 * (u16 l0 l1 - 1)) :
    ∃ e, (e = Err.EOF ∨ e = Err.ErrUnexpectedEOF)
      ∧ (match SADBProp.readFromBuffer (l0 :: l1 :: t0 :: t1 :: tail) with
          | .error e => (.error e : Except Err (List SADBComb × List Nat))
          | .ok (prop, b) => readProposals b prop.Len) = .error e := by
  unfold SADBProp.readFromBuffer readProposals
  by_cases h8 : (l0 :: l1 :: t0 :: t1 :: tail).length < 8
  · exact ⟨.ErrUnexpectedEOF, Or.inr rfl, by rw [readBytes_short 8 _ (by simp) h8]⟩
  · rw [readBytes_enough 8 _ (by simp) (by omega)]
    simp only
    rcases tail with _ | ⟨a, _ | ⟨b, _ | ⟨c, _ | ⟨d, tl⟩⟩⟩⟩
    · simp at h8
    · simp at h8
    · simp at h8
    · simp at h8
    · have hL : (SADBProp.ofBytes
          (List.take 8 (l0 :: l1 :: t0 :: t1 :: a :: b :: c :: d :: tl))).Len = u16 l0 l1 := rfl
      rw [hL]
      simp only [List.length_cons] at h
      exact readCombs_short _ _ _ (by simp only [List.drop_succ_cons, List.drop_zero]; omega)

theorem readExtension_truncated (slack l0 l1 t0 t1 : Nat) (tail : List Nat) (m : Msg)
    (ht : u16 t0 t1 ∈ [SADB_EXT_SA, SADB_EXT_LIFETIME_CURRENT, SADB_EXT_LIFETIME_HARD,
      SADB_EXT_LIFETIME_SOFT, SADB_EXT_ADDRESS_SRC, SADB_EXT_ADDRESS_DST,
      SADB_EXT_SUPPORTED_AUTH, SADB_EXT_SUPPORTED_ENCRYPT, SADB_EXT_PROPOSAL])
    (hr : (l0 :: l1 :: t0 :: t1 :: tail).length < decoderReads (u16 t0 t1) (u16 l0 l1)) :
    ∃ e, (e = Err.EOF ∨ e = Err.ErrUnexpectedEOF)
      ∧ readExtension slack (l0 :: l1 :: t0 :: t1 :: tail) m = .error e := by
  have h0 : (l0 :: l1 :: t0 :: t1 :: tail).length ≠ 0 := by simp
  unfold readExtension
  rw [readSADBExt_cons4]
  simp only [List.mem_cons, List.mem_singleton, List.mem_nil_iff, or_false] at ht
  simp only
  rcases ht with h | h | h | h | h | h | h | h | h <;> rw [h] at hr ⊢
  · rw [if_pos rfl]
    exact ⟨_, Or.inr rfl, SADBSA_step_short m _ h0 hr⟩
  · rw [if_neg (by decide), if_neg (by decide), if_neg (by decide), if_pos rfl]
    exact ⟨_, Or.inr rfl, SADBLifetime_step_short _ _ h0 hr⟩
  · rw [if_neg (by decide), if_pos rfl]
    exact ⟨_, Or.inr rfl, SADBLifetime_step_short _ _ h0 hr⟩
  · rw [if_neg (by decide), if_neg (by decide), if_pos rfl]
    exact ⟨_, Or.inr rfl, SADBLifetime_step_short _ _ h0 hr⟩
  · rw [if_neg (by decide), if_neg (by decide), if_neg (by decide), if_neg (by decide),
      if_pos rfl]
    obtain ⟨e, he, hre⟩ := readNodeFromBuffer_short _ h0 hr
    exact ⟨e, he, by rw [hre]⟩
  · rw [if_neg (by decide), if_neg (by decide), if_neg (by decide), if_neg (by decide),
      if_neg (by decide), if_pos rfl]
    obtain ⟨e, he, hre⟩ := readNodeFromBuffer_short _ h0 hr
    exact ⟨e, he, by rw [hre]⟩
  · rw [if_neg (by decide), if_neg (by decide), if_neg (by decide), if_neg (by decide),
      if_neg (by decide), if_neg (by decide), if_pos rfl]
    obtain ⟨e, he, hre⟩ := readAlgorithms_short l0 l1 t0 t1 tail hr
    exact ⟨e, he, by rw [hre]⟩
  · rw [if_neg (by decide), if_neg (by decide), if_neg (by decide), if_neg (by decide),
      if_neg (by decide), if_neg (by decide), if_neg (by decide), if_pos rfl]
    obtain ⟨e, he, hre⟩ := readAlgorithms_short l0 l1 t0 t1 tail hr
    exact ⟨e, he, by rw [hre]⟩
  · rw [if_neg (by decide), if_neg (by decide), if_neg (by decide), if_neg (by decide),
      if_neg (by decide), if_neg (by decide), if_neg (by decide), if_neg (by decide),
      if_pos rfl]
    obtain ⟨e, he, hre⟩ := SADBProp_step_short l0 l1 t0 t1 tail hr
    refine ⟨e, he, ?_⟩
    cases hp : SADBProp.readFromBuffer (l0 :: l1 :: t0 :: t1 :: tail) with
    | error e2 =>
      rw [hp] at hre
      cases hre
      rfl
    | ok pr =>
      obtain ⟨prop, b⟩ := pr
      rw [hp] at hre
      simp only at hre ⊢
      rw [hre]

/-- C26, as stated, fails: a KEY_ENCRYPT extension that declares 2 words of which only 8
bytes are in the buffer is dropped without error, and an SA extension that declares 3
words of which only 16 bytes are in the buffer is decoded: in both cases `ReadMsg`
returns a message. -/
theorem ReadMsg_accepts_truncated_extension :
    readSADBExt 0 truncatedKeyExtBytes = .ok { Len := 2, Typ := SADB_EXT_KEY_ENCRYPT }
    ∧ truncatedKeyExtBytes.length = 8
    ∧ ReadMsg { socket := [.ok (hdrBytes 4 ++ truncatedKeyExtBytes)] }
        = some (.ok { Msg := (saOnlyMsg 4).Msg }, { socket := [] })
    ∧ readSADBExt 0 overDeclaredSABytes = .ok { Len := 3, Typ := SADB_EXT_SA }
    ∧ overDeclaredSABytes.length = 16
    ∧ ReadMsg { socket := [.ok (hdrBytes 5 ++ overDeclaredSABytes)] }
        = some (.ok (saOnlyMsg 5), { socket := [] }) := by
  decide

/-- C26, amended. When the last extension of a message (after the base header and whole
extensions) has its 4-byte header in the buffer, is of type SA, LIFETIME_CURRENT,
LIFETIME_HARD, LIFETIME_SOFT, ADDRESS_SRC, ADDRESS_DST, SUPPORTED_AUTH, SUPPORTED_ENCRYPT
or PROPOSAL, and fewer bytes remain than its decoder reads (`decoderReads`), `ReadMsg`
returns the error `io.EOF` or `io.ErrUnexpectedEOF`. -/
theorem ReadMsg_truncated_decoded_extension (H A : List Nat) (m1 : Msg)
    (l0 l1 t0 t1 : Nat) (tail : List Nat) (rest : List SocketRead)
    (hH : H.length = 16) (hA : ConsumedWhole A { Msg := SADBMsg.ofBytes H } m1)
    (hn : 16 + A.length + (l0 :: l1 :: t0 :: t1 :: tail).length ≤ readBufSize)
    (ht : u16 t0 t1 ∈ [SADB_EXT_SA, SADB_EXT_LIFETIME_CURRENT, SADB_EXT_LIFETIME_HARD,
      SADB_EXT_LIFETIME_SOFT, SADB_EXT_ADDRESS_SRC, SADB_EXT_ADDRESS_DST,
      SADB_EXT_SUPPORTED_AUTH, SADB_EXT_SUPPORTED_ENCRYPT, SADB_EXT_PROPOSAL])
    (hr : (l0 :: l1 :: t0 :: t1 :: tail).length < decoderReads (u16 t0 t1) (u16 l0 l1)) :
    ∃ e, (e = Err.EOF ∨ e = Err.ErrUnexpectedEOF)
      ∧ ReadMsg { socket := .ok (H ++ A ++ l0 :: l1 :: t0 :: t1 :: tail) :: rest }
          = some (.error e, { socket := rest }) := by
  obtain ⟨e, he, hre⟩ := readExtension_truncated (readBufSize
    - (16 + A.length + (l0 :: l1 :: t0 :: t1 :: tail).length)) l0 l1 t0 t1 tail m1 ht hr
  refine ⟨e, he, ?_⟩
  rw [ReadMsg_cons, readReply_after_whole H A _ m1 hH hA hn,
    runLoop_error _ _ m1 e (by simp) hre]
  rfl

/-- An SA extension of which 12 bytes are in the buffer. -/
theorem ReadMsg_truncated_decoded_extension_witness :
    ∃ e, (e = Err.EOF ∨ e = Err.ErrUnexpectedEOF)
      ∧ ReadMsg { socket := [.ok (hdrBytes 4 ++ [] ++ 2 :: 0 :: 1 :: 0 ::
            [1, 2, 3, 4, 0, 1, 0, 12])] }
          = some (.error e, { socket := [] }) :=
  ReadMsg_truncated_decoded_extension (hdrBytes 4) [] _ 2 0 1 0 [1, 2, 3, 4, 0, 1, 0, 12] []
    (by decide) (ConsumedWhole_nil _) (by decide) (by decide) (by decide)

/-! ## What a PROPOSAL extension consumes -/

theorem readExtension_PROPOSAL_consumes (slack l0 l1 t0 t1 : Nat) (tail buf1 : List Nat)
    (m m1 : Msg) (ht : u16 t0 t1 = SADB_EXT_PROPOSAL)
    (h : readExtension slack (l0 :: l1 :: t0 :: t1 :: tail) m = .ok (buf1, m1)) :
    buf1 = (l0 :: l1 :: t0 :: t1 :: tail).drop (8 + 68 * (u16 l0 l1 - 1))
      ∧ 8 + 68 * (u16 l0 l1 - 1) ≤ (l0 :: l1 :: t0 :: t1 :: tail).length := by
  unfold readExtension at h
  rw [readSADBExt_cons4] at h
  simp only at h
  rw [ht] at h
  rw [if_neg (by decide), if_neg (by decide), if_neg (by decide), if_neg (by decide),
    if_neg (by decide), if_neg (by decide), if_neg (by decide), if_neg (by decide),
    if_pos rfl] at h
  split at h
  · cases h
  · rename_i v b hv
    split at h
    · cases h
    · rename_i cs b2 hc
      cases h
      obtain ⟨h1, h2⟩ := SADBProp_read_ok _ _ _ hv
      have hL : v.Len = u16 l0 l1 := by
        unfold SADBProp.readFromBuffer at hv
        rcases tail with _ | ⟨a, _ | ⟨b', _ | ⟨c, _ | ⟨d, tl⟩⟩⟩⟩
        · simp [readBytes] at hv
        · simp [readBytes] at hv
        · simp [readBytes] at hv
        · simp [readBytes] at hv
        · simp only [readBytes, List.length_cons] at hv
          rw [if_neg (by omega), if_neg (by omega)] at hv
          cases hv
          rfl
      unfold readProposals at hc
      obtain ⟨h3, h4⟩ := readCombs_ok _ _ _ _ _ hc
      subst h1
      rw [List.length_drop] at h4
      rw [hL] at h3 h4
      refine ⟨?_, by omega⟩
      rw [h3, List.drop_drop]

/-- C27, at the failing input: a PROPOSAL extension that declares 2 words (16 bytes) and
is followed by 68 more bytes parses successfully, and the iteration has consumed 76
bytes: what is left is the input from offset 76 on, not from offset 16; `ReadMsg` on a
header followed by these 76 bytes returns the message with one combination. -/
theorem readExtension_PROPOSAL_consumes_76 :
    readSADBExt 0 (proposalTwoWordsBytes ++ saExtBytes 2 0)
        = .ok { Len := 2, Typ := SADB_EXT_PROPOSAL }
    ∧ readExtension 0 (proposalTwoWordsBytes ++ saExtBytes 2 0) {}
        = .ok ((proposalTwoWordsBytes ++ saExtBytes 2 0).drop 76, proposalTwoWordsMsg {})
    ∧ (proposalTwoWordsBytes ++ saExtBytes 2 0).drop 76 = saExtBytes 2 0
    ∧ ReadMsg { socket := [.ok (hdrBytes 2 ++ proposalTwoWordsBytes)] }
        = some (.ok (proposalTwoWordsMsg (saOnlyMsg 2).Msg), { socket := [] }) := by
  decide

/-! ## When the key bytes are written -/

/-- C28, as stated, fails: after `SetEncryptKey(key8, 0)` the extension has `Bits = 0`,
and `SendMsg` writes the 8 key bytes after the 8-byte key header (32 bytes in all). -/
theorem SendMsg_writes_key_with_zero_bits :
    (SetEncryptKey {} key8 0).Extensions.EncryptKey.Bits = 0
      ∧ SendMsg (SetEncryptKey {} key8 0)
          = .ok ([2, 0, 0, 0, 4, 0, 0, 0, 0, 0, 0, 0, 0, 0, 0, 0]
                  ++ [2, 0, 9, 0, 0, 0, 0, 0] ++ key8) := by
  decide

theorem writeIf_key_len_le_one (c : Bool) (len : Nat) (buf bits : List Nat) (h : len ≤ 1) :
    writeIf (c && decide (len > 1)) buf bits = buf := by
  have : decide (len > 1) = false := by
    rw [decide_eq_false_iff_not]
    omega
  rw [this, Bool.and_false]
  rfl

/-- C28, amended. Whether the key bytes follow the 8-byte key header is decided by the
extension's `Len`, not by `Bits`: for every message in which the stored `Len` of KEY_AUTH
(resp. KEY_ENCRYPT) is at most 1, `writeToBuffer` writes what it writes for the same
message without key bytes, i.e. the header of the extension alone; in particular after
`SetAuthKey(k, bits)` or `SetEncryptKey(k, bits)` with a key of fewer than 8 bytes,
whatever `bits`, `SendMsg` sends the base header and the 8-byte key header only. -/
theorem key_bytes_written_by_len (m : Msg) (buf k : List Nat) (bits : Int)
    (hA : m.Extensions.AuthKey.Len ≤ 1) (hE : m.Extensions.EncryptKey.Len ≤ 1)
    (hk : k.length < 8) :
    writeToBuffer m buf
        = writeToBuffer
            { m with Extensions := { m.Extensions with AuthKeyBits := [], EncryptKeyBits := [] } }
            buf
    ∧ SendMsg (SetAuthKey {} k bits)
        = .ok ([2, 0, 0, 0, 3, 0, 0, 0, 0, 0, 0, 0, 0, 0, 0, 0]
                ++ ([1, 0, 8, 0] ++ le16 (bits % 65536).toNat ++ [0, 0]))
    ∧ SendMsg (SetEncryptKey {} k bits)
        = .ok ([2, 0, 0, 0, 3, 0, 0, 0, 0, 0, 0, 0, 0, 0, 0, 0]
                ++ ([1, 0, 9, 0] ++ le16 (bits % 65536).toNat ++ [0, 0])) := by
  have hk0 : k.length / 8 = 0 := by omega
  refine ⟨?_, ?_, ?_⟩
  · unfold writeToBuffer
    simp only [HasAuthKey, HasEncryptKey, writeIf_key_len_le_one _ _ _ _ hA,
      writeIf_key_len_le_one _ _ _ _ hE]
    rfl
  · simp [SendMsg, SetAuthKey, setMsgLen, writeToBuffer, writeIf, writeStruct, addIf, add16,
      HasSA, HasLifetimeCurrent, HasLifetimeHard, HasLifetimeSoft, HasAddressSrc, HasAddressDst,
      HasAuthKey, HasEncryptKey, HasSPIRange, SADBMsg.getBytes, SADBKey.getBytes, le16, le32,
      PF_KEY_V2, SADBMSG_LEN, SADBKEY_LEN, WORD_SIZE, SADB_EXT_KEY_AUTH, hk0]
  · simp [SendMsg, SetEncryptKey, setMsgLen, writeToBuffer, writeIf, writeStruct, addIf, add16,
      HasSA, HasLifetimeCurrent, HasLifetimeHard, HasLifetimeSoft, HasAddressSrc, HasAddressDst,
      HasAuthKey, HasEncryptKey, HasSPIRange, SADBMsg.getBytes, SADBKey.getBytes, le16, le32,
      PF_KEY_V2, SADBMSG_LEN, SADBKEY_LEN, WORD_SIZE, SADB_EXT_KEY_ENCRYPT, hk0]

/-- A 3-byte key with 24 bits: only the key header follows the base header. -/
theorem key_bytes_written_by_len_witness :
    SendMsg (SetEncryptKey {} [1, 2, 3] 24)
      = .ok ([2, 0, 0, 0, 3, 0, 0, 0, 0, 0, 0, 0, 0, 0, 0, 0]
              ++ ([1, 0, 9, 0] ++ le16 24 ++ [0, 0])) :=
  (key_bytes_written_by_len (SetEncryptKey {} [1, 2, 3] 24) [] [1, 2, 3] 24 (by decide)
    (by decide) (by decide)).2.2

/-! ## The base header on the wire -/

theorem SADBMsg_getBytes_ofBytes (b : List Nat) (hb : b.length = 16)
    (hbytes : ∀ x ∈ b, x < 256) : (SADBMsg.ofBytes b).getBytes = b := by
  rcases b with _ | ⟨v, _ | ⟨t, _ | ⟨e, _ | ⟨s, _ | ⟨l0, _ | ⟨l1, _ | ⟨r0, _ | ⟨r1, _ | ⟨q0, _ | ⟨q1, _ | ⟨q2, _ | ⟨q3, _ | ⟨p0, _ | ⟨p1, _ | ⟨p2, _ | ⟨p3, _ | ⟨x, xs⟩⟩⟩⟩⟩⟩⟩⟩⟩⟩⟩⟩⟩⟩⟩⟩⟩ <;>
    simp at hb
  simp only [List.mem_cons, List.mem_singleton, forall_eq_or_imp, forall_eq, List.not_mem_nil,
    false_implies, implies_true, and_true] at hbytes
  obtain ⟨hv, ht, he, hs, hl0, hl1, hr0, hr1, hq0, hq1, hq2, hq3, hp0, hp1, hp2, hp3⟩ := hbytes
  simp only [SADBMsg.ofBytes, SADBMsg.getBytes, le16, le32, u16, u32, List.cons_append,
    List.nil_append, Nat.mod_eq_of_lt hv, Nat.mod_eq_of_lt ht, Nat.mod_eq_of_lt he,
    Nat.mod_eq_of_lt hs]
  have a1 : (l0 + 256 * l1) % 256 = l0 := by omega
  have a2 : (l0 + 256 * l1) / 256 % 256 = l1 := by omega
  have a3 : (r0 + 256 * r1) % 256 = r0 := by omega
  have a4 : (r0 + 256 * r1) / 256 % 256 = r1 := by omega
  have b1 : (q0 + 256 * q1 + 65536 * q2 + 16777216 * q3) % 256 = q0 := by omega
  have b2 : (q0 + 256 * q1 + 65536 * q2 + 16777216 * q3) / 256 % 256 = q1 := by omega
  have b3 : (q0 + 256 * q1 + 65536 * q2 + 16777216 * q3) / 65536 % 256 = q2 := by omega
  have b4 : (q0 + 256 * q1 + 65536 * q2 + 16777216 * q3) / 16777216 % 256 = q3 := by omega
  have c1 : (p0 + 256 * p1 + 65536 * p2 + 16777216 * p3) % 256 = p0 := by omega
  have c2 : (p0 + 256 * p1 + 65536 * p2 + 16777216 * p3) / 256 % 256 = p1 := by omega
  have c3 : (p0 + 256 * p1 + 65536 * p2 + 16777216 * p3) / 65536 % 256 = p2 := by omega
  have c4 : (p0 + 256 * p1 + 65536 * p2 + 16777216 * p3) / 16777216 % 256 = p3 := by omega
  rw [a1, a2, a3, a4, b1, b2, b3, b4, c1, c2, c3, c4]

/-- C29: encoding a base header (every field a value of its Go type) gives exactly the 16
bytes `[Version, Type, Errno, SAType, Len LE16, Reserved LE16, Seq LE32, PID LE32]`,
without padding; decoding these bytes (also with `readFromBuffer`, which leaves what
follows) gives the header back, and encoding what 16 bytes decode to gives these bytes
back. -/
theorem SADBMsg_wire_layout (h : SADBMsg) (b rest : List Nat) (hr : h.inRange)
    (hb : b.length = 16) (hbytes : ∀ x ∈ b, x < 256) :
    h.getBytes
        = [h.Version, h.Typ, h.Errno, h.SAType, h.Len % 256, h.Len / 256,
           h.Reserved % 256, h.Reserved / 256,
           h.Seq % 256, h.Seq / 256 % 256, h.Seq / 65536 % 256, h.Seq / 16777216,
           h.PID % 256, h.PID / 256 % 256, h.PID / 65536 % 256, h.PID / 16777216]
    ∧ h.getBytes.length = 16
    ∧ SADBMsg.ofBytes h.getBytes = h
    ∧ SADBMsg.readFromBuffer (h.getBytes ++ rest) = .ok (h, rest)
    ∧ (SADBMsg.ofBytes b).getBytes = b
    ∧ (SADBMsg.ofBytes b).inRange := by
  obtain ⟨h1, h2, h3, h4, h5, h6, h7, h8⟩ := hr
  refine ⟨?_, SADBMsg_length_getBytes h, SADBMsg_ofBytes_getBytes h ⟨h1, h2, h3, h4, h5, h6, h7, h8⟩,
    ?_, SADBMsg_getBytes_ofBytes b hb hbytes, ?_⟩
  · have e1 : h.Len / 256 % 256 = h.Len / 256 := by omega
    have e2 : h.Reserved / 256 % 256 = h.Reserved / 256 := by omega
    have e3 : h.Seq / 16777216 % 256 = h.Seq / 16777216 := by omega
    have e4 : h.PID / 16777216 % 256 = h.PID / 16777216 := by omega
    simp only [SADBMsg.getBytes, le16, le32, List.cons_append, List.nil_append,
      Nat.mod_eq_of_lt h1, Nat.mod_eq_of_lt h2, Nat.mod_eq_of_lt h3, Nat.mod_eq_of_lt h4,
      e1, e2, e3, e4]
  · unfold SADBMsg.readFromBuffer
    rw [readBytes_append 16 _ _ (SADBMsg_length_getBytes h) (by decide)]
    simp only [SADBMsg_ofBytes_getBytes h ⟨h1, h2, h3, h4, h5, h6, h7, h8⟩]
  · rcases b with _ | ⟨v, _ | ⟨t, _ | ⟨e, _ | ⟨s, _ | ⟨l0, _ | ⟨l1, _ | ⟨r0, _ | ⟨r1, _ | ⟨q0, _ | ⟨q1, _ | ⟨q2, _ | ⟨q3, _ | ⟨p0, _ | ⟨p1, _ | ⟨p2, _ | ⟨p3, _ | ⟨x, xs⟩⟩⟩⟩⟩⟩⟩⟩⟩⟩⟩⟩⟩⟩⟩⟩⟩ <;>
      simp at hb
    simp only [List.mem_cons, List.mem_singleton, forall_eq_or_imp, forall_eq,
      List.not_mem_nil, false_implies, implies_true, and_true] at hbytes
    obtain ⟨hv, ht, he, hs, hl0, hl1, hr0, hr1, hq0, hq1, hq2, hq3, hp0, hp1, hp2, hp3⟩ :=
      hbytes
    simp only [SADBMsg.ofBytes, SADBMsg.inRange, u16, u32]
    omega

/-- The header of the REGISTER message of `TestSendingSADBREGISTER` for pid 4660, and the
16 bytes of a REGISTER reply. -/
theorem SADBMsg_wire_layout_witness :
    SADBMsg.getBytes { Version := 2, Typ := 7, SAType := 3, Len := 2, PID := 4660 }
        = [2, 7, 0, 3, 2, 0, 0, 0, 0, 0, 0, 0, 52, 18, 0, 0]
    ∧ (SADBMsg.ofBytes registerHdrBytes).getBytes = registerHdrBytes :=
  have w := SADBMsg_wire_layout { Version := 2, Typ := 7, SAType := 3, Len := 2, PID := 4660 }
    registerHdrBytes [] (by simp [SADBMsg.inRange]) (by decide) (by decide)
  ⟨w.1, w.2.2.2.2.1⟩

/-! ## `setMsgLen` twice -/

/-- C30: `setMsgLen` is idempotent on every message; in particular it leaves the message
`BuildSADBADD` returns (which has called it already) as it is, with `Len = 23` for the
32-byte key of `TestBuildSADBADD`. -/
theorem setMsgLen_idempotent (p : Msg) (pid seq spi : Nat) (src dst : Node)
    (encryptKey : List Nat) :
    setMsgLen (setMsgLen p) = setMsgLen p
    ∧ (BuildSADBADD pid seq spi src dst encryptKey).map setMsgLen
        = BuildSADBADD pid seq spi src dst encryptKey
    ∧ (BuildSADBADD 4660 1337 31337 { Addr := netIPv4 1 2 3 4 } { Addr := netIPv4 5 6 7 8 }
          testKey32).map (fun m => ((setMsgLen m).Msg.Len, m.Msg.Len))
        = .ok (23, 23) := by
  have idem : ∀ q : Msg, setMsgLen (setMsgLen q) = setMsgLen q := by
    intro q
    obtain ⟨hdr, ext, pres⟩ := q
    obtain ⟨a1, a2, a3, a4, a5, a6, pP, a8, a9, a10, a11, a12, pX⟩ := pres
    cases pP <;> cases pX <;> rfl
  refine ⟨idem p, ?_, by decide⟩
  unfold BuildSADBADD
  simp only [SetAddressSrc, SetAddressDst]
  cases src.buildSockAddr with
  | error e => rfl
  | ok s =>
    cases dst.buildSockAddr with
    | error e => rfl
    | ok d =>
      simp only [Except.map, idem]

/-! ## Unread bytes across one iteration of the extension loop -/

theorem readExtension_decreases_or_stuck (slack : Nat) (buf buf1 : List Nat) (m m1 : Msg)
    (hne : buf.length ≠ 0) (h : readExtension slack buf m = .ok (buf1, m1)) :
    buf1.length < buf.length
      ∨ ∃ ext, readSADBExt slack buf = .ok ext
          ∧ (ext.Typ = SADB_EXT_ADDRESS_PROXY ∨ ext.Typ = SADB_EXT_KEY_AUTH
              ∨ ext.Typ = SADB_EXT_KEY_ENCRYPT ∨ ext.Typ = SADB_X_EXT_SA2)
          ∧ ext.Len * 8 % 65536 = 0 ∧ buf1 = buf ∧ m1 = m := by
  have hdrop : ∀ (j : Nat) (b : List Nat), b = buf.drop j → 0 < j → b.length < buf.length := by
    intro j b hb hj
    rw [hb, List.length_drop]
    omega
  have hskip : ∀ (ext : SADBExt), readSADBExt slack buf = .ok ext →
      (ext.Typ = SADB_EXT_ADDRESS_PROXY ∨ ext.Typ = SADB_EXT_KEY_AUTH
        ∨ ext.Typ = SADB_EXT_KEY_ENCRYPT ∨ ext.Typ = SADB_X_EXT_SA2) →
      (extensionNotImplemented buf ext).length < buf.length
        ∨ ∃ ext1, readSADBExt slack buf = .ok ext1
            ∧ (ext1.Typ = SADB_EXT_ADDRESS_PROXY ∨ ext1.Typ = SADB_EXT_KEY_AUTH
                ∨ ext1.Typ = SADB_EXT_KEY_ENCRYPT ∨ ext1.Typ = SADB_X_EXT_SA2)
            ∧ ext1.Len * 8 % 65536 = 0 ∧ extensionNotImplemented buf ext = buf ∧ m = m := by
    intro ext hext ht
    by_cases hz : ext.Len * 8 % 65536 = 0
    · refine Or.inr ⟨ext, hext, ht, hz, ?_, rfl⟩
      unfold extensionNotImplemented
      rw [hz, List.drop_zero]
    · exact Or.inl (hdrop _ _ rfl (by omega))

  unfold readExtension at h
  split at h
  · cases h
  · rename_i ext hext
    by_cases c0 : ext.Typ = SADB_EXT_SA
    · rw [if_pos c0] at h
      split at h
      · cases h
      · rename_i v b hv
        cases h
        exact Or.inl (hdrop 16 _ (SADBSA_read_ok _ _ _ hv).1 (by omega))
    rw [if_neg c0] at h
    by_cases c1 : ext.Typ = SADB_EXT_LIFETIME_HARD
    · rw [if_pos c1] at h
      split at h
      · cases h
      · rename_i v b hv
        cases h
        exact Or.inl (hdrop 32 _ (SADBLifetime_read_ok _ _ _ hv).1 (by omega))
    rw [if_neg c1] at h
    by_cases c2 : ext.Typ = SADB_EXT_LIFETIME_SOFT
    · rw [if_pos c2] at h
      split at h
      · cases h
      · rename_i v b hv
        cases h
        exact Or.inl (hdrop 32 _ (SADBLifetime_read_ok _ _ _ hv).1 (by omega))
    rw [if_neg c2] at h
    by_cases c3 : ext.Typ = SADB_EXT_LIFETIME_CURRENT
    · rw [if_pos c3] at h
      split at h
      · cases h
      · rename_i v b hv
        cases h
        exact Or.inl (hdrop 32 _ (SADBLifetime_read_ok _ _ _ hv).1 (by omega))
    rw [if_neg c3] at h
    by_cases c4 : ext.Typ = SADB_EXT_ADDRESS_SRC
    · rw [if_pos c4] at h
      split at h
      · cases h
      · rename_i v b hv
        split at h
        · cases h
        · cases h
          exact Or.inl (hdrop 24 _ (readNodeFromBuffer_ok _ _ _ hv).1 (by omega))
    rw [if_neg c4] at h
    by_cases c5 : ext.Typ = SADB_EXT_ADDRESS_DST
    · rw [if_pos c5] at h
      split at h
      · cases h
      · rename_i v b hv
        split at h
        · cases h
        · cases h
          exact Or.inl (hdrop 24 _ (readNodeFromBuffer_ok _ _ _ hv).1 (by omega))
    rw [if_neg c5] at h
    by_cases c6 : ext.Typ = SADB_EXT_SUPPORTED_AUTH
    · rw [if_pos c6] at h
      split at h
      · cases h
      · rename_i v b hv
        cases h
        obtain ⟨j, h1, h2, h3⟩ := readAlgorithms_ok _ _ _ hv
        exact Or.inl (hdrop j _ h1 h3)
    rw [if_neg c6] at h
    by_cases c7 : ext.Typ = SADB_EXT_SUPPORTED_ENCRYPT
    · rw [if_pos c7] at h
      split at h
      · cases h
      · rename_i v b hv
        cases h
        obtain ⟨j, h1, h2, h3⟩ := readAlgorithms_ok _ _ _ hv
        exact Or.inl (hdrop j _ h1 h3)
    rw [if_neg c7] at h
    by_cases c8 : ext.Typ = SADB_EXT_PROPOSAL
    · rw [if_pos c8] at h
      split at h
      · cases h
      · rename_i v b hv
        split at h
        · cases h
        · rename_i cs b2 hc
          cases h
          obtain ⟨h1, h2⟩ := SADBProp_read_ok _ _ _ hv
          obtain ⟨h3, h4⟩ := readCombs_ok _ _ _ _ _ hc
          subst h1
          refine Or.inl (hdrop (8 + 68 * (v.Len - 1)) _ ?_ (by omega))
          rw [h3, List.drop_drop]
    rw [if_neg c8] at h
    by_cases c9 : ext.Typ = SADB_EXT_ADDRESS_PROXY
    · rw [if_pos c9] at h
      cases h
      exact hskip ext hext (Or.inl c9)
    rw [if_neg c9] at h
    by_cases c10 : ext.Typ = SADB_EXT_KEY_AUTH
    · rw [if_pos c10] at h
      cases h
      exact hskip ext hext (Or.inr (Or.inl c10))
    rw [if_neg c10] at h
    by_cases c11 : ext.Typ = SADB_EXT_KEY_ENCRYPT
    · rw [if_pos c11] at h
      cases h
      exact hskip ext hext (Or.inr (Or.inr (Or.inl c11)))
    rw [if_neg c11] at h
    by_cases c12 : ext.Typ = SADB_X_EXT_SA2
    · rw [if_pos c12] at h
      cases h
      exact hskip ext hext (Or.inr (Or.inr (Or.inr c12)))
    rw [if_neg c12] at h
    by_cases c13 : ext.Typ = SADB_X_EXT_POLICY
    · rw [if_pos c13] at h
      split at h
      · cases h
      · rename_i v b hv
        cases h
        exact Or.inl (hdrop 16 _ (SADBXPolicy_read_ok _ _ _ hv).1 (by omega))
    rw [if_neg c13] at h
    cases h

/-- The extension loop ends on every buffer on which no iteration meets a skipped
extension whose byte length `Len * 8` is `0` in `uint16`: given as many iterations as
there are unread bytes it gives a result. -/
theorem readExtensions_ends_unless_stuck (slack : Nat) :
    ∀ (fuel : Nat) (buf : List Nat) (m : Msg), buf.length ≤ fuel →
      (∃ r, readExtensions slack fuel buf m = some r)
        ∨ ∃ (b : List Nat) (x : Msg), b.length ≠ 0 ∧ readExtension slack b x = .ok (b, x) := by
  intro fuel
  induction fuel with
  | zero =>
    intro buf m hf
    refine Or.inl ⟨.ok m, ?_⟩
    rw [readExtensions]
    simp only [Nat.le_zero.mp hf, if_true]
  | succ k ih =>
    intro buf m hf
    rw [readExtensions]
    by_cases h0 : buf.length = 0
    · exact Or.inl ⟨.ok m, by simp only [h0, if_true]⟩
    · simp only [h0, if_false]
      cases hs : readExtension slack buf m with
      | error e => exact Or.inl ⟨.error e, rfl⟩
      | ok p =>
        obtain ⟨b1, x1⟩ := p
        simp only
        rcases readExtension_decreases_or_stuck slack buf b1 m x1 h0 hs with hlt | hst
        · exact ih b1 x1 (by omega)
        · obtain ⟨ext, _, _, _, hb, hm⟩ := hst
          subst hb hm
          exact Or.inr ⟨b1, x1, h0, hs⟩

/-! ## A skipped extension of length 0 -/

/-- C31, at the failing input: on a KEY_ENCRYPT extension that declares `word_len = 0`
the iteration returns no error and leaves all 8 unread bytes unread (and the message
unchanged), so the extension loop ends for no number of iterations, and `ReadMsg` on the
24-byte message made of a base header and this extension never returns. -/
theorem ReadMsg_zero_len_skipped_never_returns :
    readSADBExt (readBufSize - 24) zeroLenKeyExtBytes
        = .ok { Len := 0, Typ := SADB_EXT_KEY_ENCRYPT }
    ∧ readExtension (readBufSize - 24) zeroLenKeyExtBytes { Msg := (saOnlyMsg 3).Msg }
        = .ok (zeroLenKeyExtBytes, { Msg := (saOnlyMsg 3).Msg })
    ∧ (∀ fuel, readExtensions (readBufSize - 24) fuel zeroLenKeyExtBytes
          { Msg := (saOnlyMsg 3).Msg } = none)
    ∧ ReadMsg { socket := [.ok (hdrBytes 3 ++ zeroLenKeyExtBytes)] } = none := by
  refine ⟨by decide, by decide, ?_, by decide⟩
  intro fuel
  exact readExtensions_stuck _ _ _ (by decide) (by decide) fuel

/-! ## What `RetrieveSADBDump` returns -/

theorem dumpLoop_returned_inv (rs : List SocketRead) :
    ∀ (acc ms : List Msg) (err : Option Err) (p : PFKEY),
      dumpLoop rs acc = .returned ms err p →
      ∃ rpre pre, List.Forall₂ AcceptedReply rpre pre
        ∧ ((∃ rstop, rs = rpre ++ rstop :: p.socket ∧ ms = acc ++ pre)
            ∨ ∃ rl last, readReply rl = some (.ok last) ∧ last.Msg.Errno = 0
                ∧ last.Msg.Seq = 0 ∧ rs = rpre ++ rl :: p.socket
                ∧ ms = acc ++ pre ++ [last]) := by
  induction rs with
  | nil => intro acc ms e p h; simp [dumpLoop] at h
  | cons r rest ih =>
    intro acc ms e p h
    unfold dumpLoop at h
    split at h
    · cases h
    · rename_i e1 hr
      split at h
      · simp only [DumpOutcome.returned.injEq] at h
        obtain ⟨h1, h2, h3⟩ := h
        subst h1 h2 h3
        exact ⟨[], [], List.Forall₂.nil, Or.inl ⟨r, by simp, by simp⟩⟩
      · cases h
    · rename_i msg hr
      split at h
      · simp only [DumpOutcome.returned.injEq] at h
        obtain ⟨h1, h2, h3⟩ := h
        subst h1 h2 h3
        exact ⟨[], [], List.Forall₂.nil, Or.inl ⟨r, by simp, by simp⟩⟩
      · split at h
        · simp only [DumpOutcome.returned.injEq] at h
          obtain ⟨h1, h2, h3⟩ := h
          subst h1 h2 h3
          exact ⟨[], [], List.Forall₂.nil, Or.inl ⟨r, by simp, by simp⟩⟩
        · rename_i hne hz
          simp only [ne_eq, Decidable.not_not] at hz
          split at h
          · rename_i hseq
            simp only [DumpOutcome.returned.injEq] at h
            obtain ⟨h1, h2, h3⟩ := h
            subst h1 h2 h3
            exact ⟨[], [], List.Forall₂.nil,
              Or.inr ⟨r, msg, hr, hz, hseq, by simp, by simp⟩⟩
          · rename_i hseq
            obtain ⟨rpre, pre, h3, h4⟩ := ih _ _ _ _ h
            refine ⟨r :: rpre, msg :: pre, List.Forall₂.cons ⟨hr, hz, hseq⟩ h3, ?_⟩
            rcases h4 with ⟨rstop, h1, h2⟩ | ⟨rl, last, g1, g2, g3, h1, h2⟩
            · exact Or.inl ⟨rstop, by simp [h1], by simp [h2]⟩
            · exact Or.inr ⟨rl, last, g1, g2, g3, by simp [h1], by simp [h2]⟩

theorem AcceptedReply_parsed (rs : List SocketRead) (ms : List Msg)
    (h : List.Forall₂ AcceptedReply rs ms) :
    List.Forall₂ (fun r m => readReply r = some (.ok m)) rs ms :=
  List.Forall₂.imp (fun _ _ hrm => hrm.1) h

theorem AcceptedReply_mem (rs : List SocketRead) (ms : List Msg)
    (h : List.Forall₂ AcceptedReply rs ms) :
    ∀ m ∈ ms, m.Msg.Errno = 0 ∧ m.Msg.Seq ≠ 0 := by
  induction h with
  | nil => intro m hm; cases hm
  | @cons r m0 rs ms hrm _ ih =>
    intro m hm
    rcases List.mem_cons.mp hm with h1 | h1
    · subst h1; exact ⟨hrm.2.1, hrm.2.2⟩
    · exact ih m h1

/-- C32: whenever `RetrieveSADBDump` returns, with or without an error, the list it
returns is the parsed form, in arrival order, of the first reads of the socket (a prefix
of the stream of parsed replies), every returned message has `errno = 0`, and every
returned message except possibly the last has `seq != 0`. -/
theorem RetrieveSADBDump_result_invariant (p p1 : PFKEY) (ms : List Msg) (err : Option Err)
    (h : RetrieveSADBDump p = .returned ms err p1) :
    ∃ rs tail, p.socket = rs ++ tail
      ∧ List.Forall₂ (fun r m => readReply r = some (.ok m)) rs ms
      ∧ (∀ m ∈ ms, m.Msg.Errno = 0)
      ∧ (∀ m ∈ ms.dropLast, m.Msg.Seq ≠ 0) := by
  obtain ⟨rpre, pre, hacc, hcase⟩ := dumpLoop_returned_inv p.socket [] ms err p1 h
  rcases hcase with ⟨rstop, h1, h2⟩ | ⟨rl, last, g1, g2, g3, h1, h2⟩
  · simp only [List.nil_append] at h2
    subst h2
    refine ⟨rpre, rstop :: p1.socket, h1, AcceptedReply_parsed _ _ hacc,
      fun m hm => (AcceptedReply_mem _ _ hacc m hm).1,
      fun m hm => (AcceptedReply_mem _ _ hacc m (List.mem_of_mem_dropLast hm)).2⟩
  · simp only [List.nil_append] at h2
    subst h2
    refine ⟨rpre ++ [rl], p1.socket, by simp [h1], ?_, ?_, ?_⟩
    · exact List.rel_append (AcceptedReply_parsed _ _ hacc)
        (List.Forall₂.cons g1 List.Forall₂.nil)
    · intro m hm
      rcases List.mem_append.mp hm with hm1 | hm1
      · exact (AcceptedReply_mem _ _ hacc m hm1).1
      · rw [List.mem_singleton] at hm1
        subst hm1
        exact g2
    · intro m hm
      rw [List.dropLast_concat] at hm
      exact (AcceptedReply_mem _ _ hacc m hm).2

/-- On two replies with `seq` 2 and 1, a reply with `errno = 22` and one read more,
`RetrieveSADBDump` returns the first two with the error, and they are the parsed form
of the first two reads. -/
theorem RetrieveSADBDump_result_invariant_witness :
    RetrieveSADBDump
        { socket := [.ok (baseReply 10 0 2), .ok (baseReply 10 0 1), .ok (baseReply 10 22 0),
                     .ok (baseReply 10 0 0)] }
      = .returned [baseReplyMsg 10 0 2, baseReplyMsg 10 0 1] (some (.kernelErrno 22))
          { socket := [.ok (baseReply 10 0 0)] }
    ∧ ∃ rs tail,
        [Except.ok (baseReply 10 0 2), .ok (baseReply 10 0 1), .ok (baseReply 10 22 0),
          .ok (baseReply 10 0 0)] = rs ++ tail
        ∧ List.Forall₂ (fun r m => readReply r = some (.ok m)) rs
            [baseReplyMsg 10 0 2, baseReplyMsg 10 0 1]
        ∧ (∀ m ∈ [baseReplyMsg 10 0 2, baseReplyMsg 10 0 1], m.Msg.Errno = 0)
        ∧ (∀ m ∈ [baseReplyMsg 10 0 2, baseReplyMsg 10 0 1].dropLast, m.Msg.Seq ≠ 0) :=
  ⟨by decide,
   RetrieveSADBDump_result_invariant
     { socket := [.ok (baseReply 10 0 2), .ok (baseReply 10 0 1), .ok (baseReply 10 22 0),
                  .ok (baseReply 10 0 0)] }
     { socket := [.ok (baseReply 10 0 0)] }
     [baseReplyMsg 10 0 2, baseReplyMsg 10 0 1] (some (.kernelErrno 22)) (by decide)⟩

/-! ## ADDRESS extensions read from the wire -/

theorem addressExt_length (l0 l1 t0 t1 pr pl r0 r1 f0 f1 p0 p1 a b c d : Nat) (z : List Nat)
    (hz : z.length = 8) :
    (addressExt l0 l1 t0 t1 pr pl r0 r1 f0 f1 p0 p1 a b c d z).length = 24 := by
  simp [addressExt, hz]

theorem readNodeFromBuffer_addressExt (l0 l1 t0 t1 pr pl r0 r1 f0 f1 p0 p1 a b c d : Nat)
    (z rest : List Nat) (hz : z.length = 8) (hf : i16 f0 f1 = AF_INET) :
    readNodeFromBuffer (addressExt l0 l1 t0 t1 pr pl r0 r1 f0 f1 p0 p1 a b c d z ++ rest)
      = .ok ({ Addr := netIPv4 a b c d, Port := u16 p0 p1 }, rest) := by
  rcases z with _ | ⟨z0, _ | ⟨z1, _ | ⟨z2, _ | ⟨z3, _ | ⟨z4, _ | ⟨z5, _ | ⟨z6, _ | ⟨z7, _ | ⟨z8, zt⟩⟩⟩⟩⟩⟩⟩⟩⟩ <;>
    simp at hz
  unfold readNodeFromBuffer SADBAddress.readFromBuffer sockAddrIn.readFromBuffer
  have e : addressExt l0 l1 t0 t1 pr pl r0 r1 f0 f1 p0 p1 a b c d [z0, z1, z2, z3, z4, z5, z6, z7]
        ++ rest
      = [l0, l1, t0, t1, pr, pl, r0, r1]
          ++ ([f0, f1, p0, p1, a, b, c, d, z0, z1, z2, z3, z4, z5, z6, z7] ++ rest) := rfl
  rw [e, readBytes_append 8 [l0, l1, t0, t1, pr, pl, r0, r1] _ rfl (by decide)]
  simp only
  rw [readBytes_append 16 [f0, f1, p0, p1, a, b, c, d, z0, z1, z2, z3, z4, z5, z6, z7] _ rfl
    (by decide)]
  simp only [sockAddrIn.ofBytes, sockAddrIn.BuildNode, hf, ne_eq, not_true_eq_false, if_false]

theorem readSADBExt_addressExt (slack l0 l1 t0 t1 pr pl r0 r1 f0 f1 p0 p1 a b c d : Nat)
    (z rest : List Nat) :
    readSADBExt slack (addressExt l0 l1 t0 t1 pr pl r0 r1 f0 f1 p0 p1 a b c d z ++ rest)
      = .ok { Len := u16 l0 l1, Typ := u16 t0 t1 } :=
  readSADBExt_cons4 slack l0 l1 t0 t1 _

theorem readExtension_addressExt_src (slack l0 l1 t0 t1 pr pl r0 r1 f0 f1 p0 p1 a b c d : Nat)
    (z rest : List Nat) (M : Msg) (hz : z.length = 8) (hf : i16 f0 f1 = AF_INET)
    (ht : u16 t0 t1 = SADB_EXT_ADDRESS_SRC) :
    readExtension slack (addressExt l0 l1 t0 t1 pr pl r0 r1 f0 f1 p0 p1 a b c d z ++ rest) M
      = .ok (rest, { M with
                  Extensions := { M.Extensions with
                    AddressSrc := { Len := 3, ExtType := 5, Proto := 0, PrefixLen := 32,
                                    Reserved := 0 }
                    SockAddrSrc := { SinFamily := AF_INET, SinPort := u16 p0 p1,
                                     SinAddr := (a, b, c, d), SinZero := {} } }
                  Present := { M.Present with AddressSrc := true } }) := by
  unfold readExtension
  rw [readSADBExt_addressExt]
  simp only
  rw [ht, if_neg (by decide), if_neg (by decide), if_neg (by decide), if_neg (by decide),
    if_pos rfl, readNodeFromBuffer_addressExt _ _ _ _ _ _ _ _ _ _ _ _ _ _ _ _ _ _ hz hf]
  rfl

theorem readExtension_addressExt_dst (slack l0 l1 t0 t1 pr pl r0 r1 f0 f1 p0 p1 a b c d : Nat)
    (z rest : List Nat) (M : Msg) (hz : z.length = 8) (hf : i16 f0 f1 = AF_INET)
    (ht : u16 t0 t1 = SADB_EXT_ADDRESS_DST) :
    readExtension slack (addressExt l0 l1 t0 t1 pr pl r0 r1 f0 f1 p0 p1 a b c d z ++ rest) M
      = .ok (rest, { M with
                  Extensions := { M.Extensions with
                    AddressDst := { Len := 3, ExtType := 6, Proto := 0, PrefixLen := 32,
                                    Reserved := 0 }
                    SockAddrDst := { SinFamily := AF_INET, SinPort := u16 p0 p1,
                                     SinAddr := (a, b, c, d), SinZero := {} } }
                  Present := { M.Present with AddressDst := true } }) := by
  unfold readExtension
  rw [readSADBExt_addressExt]
  simp only
  rw [ht, if_neg (by decide), if_neg (by decide), if_neg (by decide), if_neg (by decide),
    if_neg (by decide), if_pos rfl,
    readNodeFromBuffer_addressExt _ _ _ _ _ _ _ _ _ _ _ _ _ _ _ _ _ _ hz hf]
  rfl

theorem readReply_address_discarded (H A X E E1 : List Nat) (m1 m2 : Msg) (hH : H.length = 16)
    (hA : ConsumedWhole A { Msg := SADBMsg.ofBytes H } m1)
    (hE : E.length = 24) (hE1 : E1.length = 24)
    (hn : 16 + A.length + 24 + X.length ≤ readBufSize)
    (hs : ∀ slack, readExtension slack (E ++ X) m1 = .ok (X, m2))
    (hs1 : ∀ slack, readExtension slack (E1 ++ X) m1 = .ok (X, m2)) :
    readReply (.ok (H ++ A ++ (E ++ X))) = readReply (.ok (H ++ A ++ (E1 ++ X))) := by
  have l : (E ++ X).length = 24 + X.length := by rw [List.length_append, hE]
  have l1 : (E1 ++ X).length = 24 + X.length := by rw [List.length_append, hE1]
  rw [readReply_after_whole H A (E ++ X) m1 hH hA (by rw [l]; omega),
    readReply_after_whole H A (E1 ++ X) m1 hH hA (by rw [l1]; omega), l, l1,
    runLoop_step _ (E ++ X) X m1 m2 (by rw [l]; omega) (hs _),
    runLoop_step _ (E1 ++ X) X m1 m2 (by rw [l1]; omega) (hs1 _)]

/-- C33: an ADDRESS_SRC (type bytes `t0 t1`) or ADDRESS_DST (type bytes `u0 u1`)
extension whose socket address has family `AF_INET` is stored as
`{ Len 3, ExtType 5 or 6, Proto 0, PrefixLen 32, Reserved 0 }` with a socket address
holding `AF_INET`, the port, the four address bytes and an all-zero `SinZero`, whatever
length bytes, proto, prefix length, reserved bytes and padding the wire carried; and two
replies that differ only in those fields of an ADDRESS extension give the same result of
`ReadMsg`. -/
theorem ReadMsg_address_header_discarded
    (slack l0 l1 pr pl r0 r1 k0 k1 qr ql s0 s1 t0 t1 u0 u1 f0 f1 p0 p1 a b c d : Nat)
    (z y H A X : List Nat) (M m1 : Msg) (rest : List SocketRead)
    (hz : z.length = 8) (hy : y.length = 8) (hf : i16 f0 f1 = AF_INET)
    (hsrc : u16 t0 t1 = SADB_EXT_ADDRESS_SRC) (hdst : u16 u0 u1 = SADB_EXT_ADDRESS_DST)
    (hH : H.length = 16) (hA : ConsumedWhole A { Msg := SADBMsg.ofBytes H } m1)
    (hn : 16 + A.length + 24 + X.length ≤ readBufSize) :
    readExtension slack (addressExt l0 l1 t0 t1 pr pl r0 r1 f0 f1 p0 p1 a b c d z ++ X) M
        = .ok (X, { M with
                  Extensions := { M.Extensions with
                    AddressSrc := { Len := 3, ExtType := 5, Proto := 0, PrefixLen := 32,
                                    Reserved := 0 }
                    SockAddrSrc := { SinFamily := AF_INET, SinPort := u16 p0 p1,
                                     SinAddr := (a, b, c, d), SinZero := {} } }
                  Present := { M.Present with AddressSrc := true } })
    ∧ readExtension slack (addressExt l0 l1 u0 u1 pr pl r0 r1 f0 f1 p0 p1 a b c d z ++ X) M
        = .ok (X, { M with
                  Extensions := { M.Extensions with
                    AddressDst := { Len := 3, ExtType := 6, Proto := 0, PrefixLen := 32,
                                    Reserved := 0 }
                    SockAddrDst := { SinFamily := AF_INET, SinPort := u16 p0 p1,
                                     SinAddr := (a, b, c, d), SinZero := {} } }
                  Present := { M.Present with AddressDst := true } })
    ∧ ReadMsg { socket := .ok (H ++ A ++
          (addressExt l0 l1 t0 t1 pr pl r0 r1 f0 f1 p0 p1 a b c d z ++ X)) :: rest }
        = ReadMsg { socket := .ok (H ++ A ++
            (addressExt k0 k1 t0 t1 qr ql s0 s1 f0 f1 p0 p1 a b c d y ++ X)) :: rest }
    ∧ ReadMsg { socket := .ok (H ++ A ++
          (addressExt l0 l1 u0 u1 pr pl r0 r1 f0 f1 p0 p1 a b c d z ++ X)) :: rest }
        = ReadMsg { socket := .ok (H ++ A ++
            (addressExt k0 k1 u0 u1 qr ql s0 s1 f0 f1 p0 p1 a b c d y ++ X)) :: rest } := by
  refine ⟨readExtension_addressExt_src _ _ _ _ _ _ _ _ _ _ _ _ _ _ _ _ _ _ _ _ hz hf hsrc,
    readExtension_addressExt_dst _ _ _ _ _ _ _ _ _ _ _ _ _ _ _ _ _ _ _ _ hz hf hdst, ?_, ?_⟩
  · rw [ReadMsg_cons, ReadMsg_cons,
      readReply_address_discarded H A X _ _ m1 _ hH hA
        (addressExt_length _ _ _ _ _ _ _ _ _ _ _ _ _ _ _ _ z hz)
        (addressExt_length _ _ _ _ _ _ _ _ _ _ _ _ _ _ _ _ y hy) hn
        (fun sl => readExtension_addressExt_src sl _ _ _ _ _ _ _ _ _ _ _ _ _ _ _ _ _ _ _ hz hf hsrc)
        (fun sl => readExtension_addressExt_src sl _ _ _ _ _ _ _ _ _ _ _ _ _ _ _ _ _ _ _ hy hf hsrc)]
  · rw [ReadMsg_cons, ReadMsg_cons,
      readReply_address_discarded H A X _ _ m1 _ hH hA
        (addressExt_length _ _ _ _ _ _ _ _ _ _ _ _ _ _ _ _ z hz)
        (addressExt_length _ _ _ _ _ _ _ _ _ _ _ _ _ _ _ _ y hy) hn
        (fun sl => readExtension_addressExt_dst sl _ _ _ _ _ _ _ _ _ _ _ _ _ _ _ _ _ _ _ hz hf hdst)
        (fun sl => readExtension_addressExt_dst sl _ _ _ _ _ _ _ _ _ _ _ _ _ _ _ _ _ _ _ hy hf hdst)]

/-- A source address extension that declares length 9, proto 17, prefix length 24,
reserved bytes and padding that are not zero gives the same result of `ReadMsg` as the
extension with the fields `SetAddressSrc` writes, and that result holds
`{ Len 3, ExtType 5, Proto 0, PrefixLen 32, Reserved 0 }`. -/
theorem ReadMsg_address_header_discarded_witness :
    ReadMsg { socket := .ok (hdrBytes 5 ++ [] ++
          (addressExt 9 0 5 0 17 24 1 1 2 0 1 187 10 0 0 1 [7, 7, 7, 7, 7, 7, 7, 7] ++ []))
            :: [] }
        = ReadMsg { socket := .ok (hdrBytes 5 ++ [] ++
            (addressExt 3 0 5 0 0 32 0 0 2 0 1 187 10 0 0 1 [0, 0, 0, 0, 0, 0, 0, 0] ++ []))
              :: [] }
    ∧ ReadMsg { socket := .ok (hdrBytes 5 ++ [] ++
          (addressExt 9 0 5 0 17 24 1 1 2 0 1 187 10 0 0 1 [7, 7, 7, 7, 7, 7, 7, 7] ++ []))
            :: [] }
        = some (.ok { Msg := SADBMsg.ofBytes (hdrBytes 5)
                      Extensions := {
                        AddressSrc := { Len := 3, ExtType := 5, Proto := 0, PrefixLen := 32,
                                        Reserved := 0 }
                        SockAddrSrc := { SinFamily := 2, SinPort := 47873,
                                         SinAddr := (10, 0, 0, 1), SinZero := {} } }
                      Present := { AddressSrc := true } },
                { socket := [] }) :=
  ⟨(ReadMsg_address_header_discarded 0 9 0 17 24 1 1 3 0 0 32 0 0 5 0 6 0 2 0 1 187 10 0 0 1
      [7, 7, 7, 7, 7, 7, 7, 7] [0, 0, 0, 0, 0, 0, 0, 0] (hdrBytes 5) [] [] {}
      { Msg := SADBMsg.ofBytes (hdrBytes 5) } [] (by decide) (by decide) (by decide)
      (by decide) (by decide) (by decide) (ConsumedWhole_nil _) (by decide)).2.2.1,
   by decide⟩

/-! ## `Node.AddrAsArray` and the length of the address -/

theorem AddrAsArray_long (n : Node) (h : 16 ≤ n.Addr.length) :
    n.AddrAsArray
      = .ok (n.Addr.getD 12 0, n.Addr.getD 13 0, n.Addr.getD 14 0, n.Addr.getD 15 0) := by
  obtain ⟨addr, port⟩ := n
  simp only at h
  rcases addr with _ | ⟨x0, _ | ⟨x1, _ | ⟨x2, _ | ⟨x3, _ | ⟨x4, _ | ⟨x5, _ | ⟨x6, _ | ⟨x7, _ | ⟨x8, _ | ⟨x9, _ | ⟨x10, _ | ⟨x11, _ | ⟨x12, _ | ⟨x13, _ | ⟨x14, _ | ⟨x15, tl⟩⟩⟩⟩⟩⟩⟩⟩⟩⟩⟩⟩⟩⟩⟩⟩ <;> simp at h
  simp [Node.AddrAsArray]

theorem AddrAsArray_short (n : Node) (h : n.Addr.length < 16) :
    n.AddrAsArray = .error .panic := by
  obtain ⟨addr, port⟩ := n
  simp only at h
  rcases addr with _ | ⟨x0, _ | ⟨x1, _ | ⟨x2, _ | ⟨x3, _ | ⟨x4, _ | ⟨x5, _ | ⟨x6, _ | ⟨x7, _ | ⟨x8, _ | ⟨x9, _ | ⟨x10, _ | ⟨x11, _ | ⟨x12, _ | ⟨x13, _ | ⟨x14, _ | ⟨x15, tl⟩⟩⟩⟩⟩⟩⟩⟩⟩⟩⟩⟩⟩⟩⟩⟩ <;> first | rfl | (simp at h; omega)

theorem buildSockAddr_short (n : Node) (h : n.Addr.length < 16) :
    n.buildSockAddr = .error .panic := by
  unfold Node.buildSockAddr
  rw [AddrAsArray_short n h]

theorem SetAddressSrc_short (p : Msg) (n : Node) (h : n.Addr.length < 16) :
    SetAddressSrc p n = .error .panic := by
  unfold SetAddressSrc
  rw [buildSockAddr_short n h]

theorem SetAddressDst_short (p : Msg) (n : Node) (h : n.Addr.length < 16) :
    SetAddressDst p n = .error .panic := by
  unfold SetAddressDst
  rw [buildSockAddr_short n h]

theorem SetAddressSrc_cases (p : Msg) (n : Node) :
    SetAddressSrc p n = .error .panic ∨ ∃ q, SetAddressSrc p n = .ok q := by
  unfold SetAddressSrc
  rcases buildSockAddr_cases n with h | ⟨s, h⟩
  · rw [h]; exact Or.inl rfl
  · rw [h]; exact Or.inr ⟨_, rfl⟩

/-- C34: `Node.AddrAsArray` returns bytes 12..15 of `Addr`, without failure, for every
node whose `Addr` has at least 16 bytes; for every node whose `Addr` is shorter than 16
bytes the indexing panics, and so do `SetAddressSrc`, `SetAddressDst` and every builder
that is given that node as source or as destination (`BuildSADBGETSPI`,
`SendSADBGETSPI`, `BuildSADBDELETE`, `BuildSADBADD`, `BuildSADBUPDATE`). -/
theorem AddrAsArray_needs_16_bytes (n s other : Node) (p : Msg) (pid seq spi : Nat)
    (key : List Nat) (h16 : 16 ≤ n.Addr.length) (hs : s.Addr.length < 16) :
    n.AddrAsArray
        = .ok (n.Addr.getD 12 0, n.Addr.getD 13 0, n.Addr.getD 14 0, n.Addr.getD 15 0)
    ∧ s.AddrAsArray = .error .panic
    ∧ SetAddressSrc p s = .error .panic
    ∧ SetAddressDst p s = .error .panic
    ∧ BuildSADBGETSPI pid seq s other = .error .panic
    ∧ BuildSADBGETSPI pid seq other s = .error .panic
    ∧ SendSADBGETSPI pid seq s other = .error .panic
    ∧ SendSADBGETSPI pid seq other s = .error .panic
    ∧ BuildSADBDELETE pid spi s other = .error .panic
    ∧ BuildSADBDELETE pid spi other s = .error .panic
    ∧ BuildSADBADD pid seq spi s other key = .error .panic
    ∧ BuildSADBADD pid seq spi other s key = .error .panic
    ∧ BuildSADBUPDATE pid seq spi s other key = .error .panic
    ∧ BuildSADBUPDATE pid seq spi other s key = .error .panic := by
  have g1 : BuildSADBGETSPI pid seq s other = .error .panic := by
    unfold BuildSADBGETSPI
    simp only [SetAddressSrc_short _ s hs]
  have g2 : BuildSADBGETSPI pid seq other s = .error .panic := by
    unfold BuildSADBGETSPI
    simp only
    rcases SetAddressSrc_cases _ other with h | ⟨q, h⟩
    · rw [h]
    · rw [h]
      simp only [SetAddressDst_short _ s hs]
  have a1 : BuildSADBADD pid seq spi s other key = .error .panic := by
    unfold BuildSADBADD
    simp only [SetAddressSrc_short _ s hs]
  have a2 : BuildSADBADD pid seq spi other s key = .error .panic := by
    unfold BuildSADBADD
    simp only
    rcases SetAddressSrc_cases _ other with h | ⟨q, h⟩
    · rw [h]
    · rw [h]
      simp only [SetAddressDst_short _ s hs]
  refine ⟨AddrAsArray_long n h16, AddrAsArray_short s hs, SetAddressSrc_short p s hs,
    SetAddressDst_short p s hs, g1, g2, ?_, ?_, ?_, ?_, a1, a2, ?_, ?_⟩
  · unfold SendSADBGETSPI
    rw [g1]
  · unfold SendSADBGETSPI
    rw [g2]
  · unfold BuildSADBDELETE
    simp only [SetAddressSrc_short _ s hs]
  · unfold BuildSADBDELETE
    simp only
    rcases SetAddressSrc_cases _ other with h | ⟨q, h⟩
    · rw [h]
    · rw [h]
      simp only [SetAddressDst_short _ s hs]
  · unfold BuildSADBUPDATE
    rw [a1]
  · unfold BuildSADBUPDATE
    rw [a2]

/-- The 16-byte form of 1.2.3.4 gives `[1, 2, 3, 4]`; with the 4-byte form as source,
`BuildSADBGETSPI` panics. -/
theorem AddrAsArray_needs_16_bytes_witness :
    Node.AddrAsArray { Addr := netIPv4 1 2 3 4 } = .ok (1, 2, 3, 4)
    ∧ shortNode.AddrAsArray = .error .panic
    ∧ BuildSADBGETSPI 4660 1234 shortNode { Addr := netIPv4 5 6 7 8 } = .error .panic :=
  have w := AddrAsArray_needs_16_bytes { Addr := netIPv4 1 2 3 4 } shortNode
    { Addr := netIPv4 5 6 7 8 } {} 4660 1234 31337 [] (by decide) (by decide)
  ⟨w.1, w.2.1, w.2.2.2.2.1⟩

end Pfkey
